import Mathlib

/-!
# Verification of the lyken Dart front-end core

A shallow embedding, in Lean 4, of the core of the `lyken` repository:

* the AST data model of `src/dart/ast.rs` (operator taxonomy, expression /
  statement / item grammars, string literals),
* the visitor / traversal framework of `src/dart/visit.rs`,
* the module loader and cache `Module::load` of `src/dart/ast.rs`.

Conventions of the embedding:

* `Symbol` (interned strings) is embedded as `String`; `Span` (byte range in
  a registered codemap) is embedded as an opaque `Nat` token.
* Rust `Vec<Node<T>>` fields whose element type participates in the mutual
  recursion of the AST become custom list types inside the mutual block
  (`ExprList`, `StatementList`, ...); `Option<Node<T>>` fields likewise
  become custom option types (`OptionExpr`, ...).  Fields of
  non-recursive type use plain `List` / `Option`.
* `Node<T>` (the shared, reference-counted ownership wrapper) is erased in
  the tree itself; for `Module::load`, where handle identity matters, nodes
  are modelled as a pair of an allocation id and a value (`NodeModule`).
* The Rust names are kept wherever Lean permits; `Type` and a few keyword
  clashes are renamed (`DartType`, `Item.Import`, constructor capitalization
  follows the Rust source).
-/

namespace Lyken

/-- `syntax::symbol::Symbol`: an interned string. -/
abbrev Symbol := String

/-- `syntax::codemap::Span`: an opaque byte-range token into the codemap. -/
abbrev Span := Nat

/-! ## Operator taxonomy (`src/dart/ast.rs` lines 211-327) -/

/-- `UnOp` (`ast.rs` lines 211-221). -/
inductive UnOp where
  | Neg
  | Not
  | BitNot
  | Await
  | PreInc
  | PreDec
  | PostInc
  | PostDec
  deriving DecidableEq, Repr

/-- `BoolBinOp` (`ast.rs` lines 223-235), declared inside
`enum_from_primitive!` in declaration order. -/
inductive BoolBinOp where
  | Or
  | And
  | Eq
  | Ne
  | Ge
  | Gt
  | Le
  | Lt
  deriving DecidableEq, Repr

/-- `BoolBinOp::from_usize`, generated by `enum_from_primitive!`: maps the
declaration-order discriminant to the variant, anything else to `None`. -/
def BoolBinOp.from_usize : Nat → Option BoolBinOp
  | 0 => some .Or
  | 1 => some .And
  | 2 => some .Eq
  | 3 => some .Ne
  | 4 => some .Ge
  | 5 => some .Gt
  | 6 => some .Le
  | 7 => some .Lt
  | _ => none

/-- `(0..).map(f).take_while(Option::is_some).map(Option::unwrap)`:
materialize the prefix of the stream `f i, f (i+1), ...` up to the first
`none` (with enough fuel; the enumerations below are exhausted long before
the fuel runs out, which the theorems about them pin down exactly). -/
def iterValues {α : Type} (f : Nat → Option α) : Nat → Nat → List α
  | 0, _ => []
  | fuel + 1, i =>
    match f i with
    | some x => x :: iterValues f fuel (i + 1)
    | none => []

/-- `BoolBinOp::values` (`ast.rs` lines 237-244). -/
def BoolBinOp.values : List BoolBinOp :=
  iterValues BoolBinOp.from_usize 64 0

/-- `ValueBinOp` (`ast.rs` lines 246-262), declared inside
`enum_from_primitive!` in declaration order. -/
inductive ValueBinOp where
  | IfNull
  | Add
  | Sub
  | Mul
  | Div
  | Mod
  | TruncDiv
  | Lsh
  | Rsh
  | BitAnd
  | BitXor
  | BitOr
  deriving DecidableEq, Repr

/-- `ValueBinOp::from_usize`, generated by `enum_from_primitive!`. -/
def ValueBinOp.from_usize : Nat → Option ValueBinOp
  | 0 => some .IfNull
  | 1 => some .Add
  | 2 => some .Sub
  | 3 => some .Mul
  | 4 => some .Div
  | 5 => some .Mod
  | 6 => some .TruncDiv
  | 7 => some .Lsh
  | 8 => some .Rsh
  | 9 => some .BitAnd
  | 10 => some .BitXor
  | 11 => some .BitOr
  | _ => none

/-- `ValueBinOp::values` (`ast.rs` lines 264-271). -/
def ValueBinOp.values : List ValueBinOp :=
  iterValues ValueBinOp.from_usize 64 0

/-- `BinOp` (`ast.rs` lines 273-278). -/
inductive BinOp where
  | Bool (op : BoolBinOp)
  | Value (op : ValueBinOp)
  | Assign (op : Option ValueBinOp)
  deriving DecidableEq, Repr

/-- `BinOp::values` (`ast.rs` lines 280-291): boolean operators, then value
operators, then `Assign(Some(v))` for every value operator `v`, then
`Assign(None)`. -/
def BinOp.values : List BinOp :=
  (BoolBinOp.values.map BinOp.Bool)
    ++ (ValueBinOp.values.map BinOp.Value)
    ++ ((ValueBinOp.values.map some ++ [none]).map BinOp.Assign)

/-- The `value_bin_op!` macro body in `BinOp::as_str` (`ast.rs` lines
295-310): the base spelling of a value operator concatenated with a
suffix. -/
def valueBinOpStr (op : ValueBinOp) (suffix : String) : String :=
  match op with
  | .IfNull => "??" ++ suffix
  | .Add => "+" ++ suffix
  | .Sub => "-" ++ suffix
  | .Mul => "*" ++ suffix
  | .Div => "/" ++ suffix
  | .Mod => "%" ++ suffix
  | .TruncDiv => "~/" ++ suffix
  | .Lsh => "<<" ++ suffix
  | .Rsh => ">>" ++ suffix
  | .BitAnd => "&" ++ suffix
  | .BitXor => "^" ++ suffix
  | .BitOr => "|" ++ suffix

/-- `BinOp::as_str` (`ast.rs` lines 293-327). -/
def BinOp.as_str : BinOp → String
  | .Bool .Or => "||"
  | .Bool .And => "&&"
  | .Bool .Eq => "=="
  | .Bool .Ne => "!="
  | .Bool .Ge => ">="
  | .Bool .Gt => ">"
  | .Bool .Le => "<="
  | .Bool .Lt => "<"
  | .Value op => valueBinOpStr op ""
  | .Assign (some op) => valueBinOpStr op "="
  | .Assign none => "="

/-! ## Non-recursive AST leaf types (`src/dart/ast.rs`) -/

/-- `MethodQualifiers` (`ast.rs` lines 153-160). -/
inductive MethodQualifiers where
  | External
  | Static
  | Const
  | Final
  | Factory
  deriving DecidableEq, Repr

/-- `OverloadedOp` (`ast.rs` lines 170-177). -/
inductive OverloadedOp where
  | BitNot
  | Index
  | IndexAssign
  | Bool (op : BoolBinOp)
  | Value (op : ValueBinOp)
  deriving DecidableEq, Repr

/-- `FnName` (`ast.rs` lines 162-168). -/
inductive FnName where
  | Regular (name : Symbol)
  | Getter (name : Symbol)
  | Setter (name : Symbol)
  | Operator (op : OverloadedOp)
  deriving DecidableEq, Repr

/-- `SymbolLiteral` (`ast.rs` lines 377-381). -/
inductive SymbolLiteral where
  | Op (op : OverloadedOp)
  | Path (path : List Symbol)
  deriving DecidableEq, Repr

/-- `OptionalArgKind` (`ast.rs` lines 472-476); its `Default` is
`Positional` (lines 478-482). -/
inductive OptionalArgKind where
  | Positional
  | Named
  deriving DecidableEq, Repr

/-- `FinalConstVar` (`ast.rs` lines 517-522). -/
inductive FinalConstVar where
  | Final
  | Const
  | Var
  deriving DecidableEq, Repr

/-- `ImportFilter` (`ast.rs` lines 105-109). -/
structure ImportFilter where
  hide : Bool
  names : List Symbol
  deriving DecidableEq, Repr

/-- `CatchPart` (`ast.rs` lines 544-548). -/
structure CatchPart where
  exception : Symbol
  trace : Option Symbol
  deriving DecidableEq, Repr

/-! ## The recursive AST core (`src/dart/ast.rs`)

One mutual block covers the strongly-connected core of the grammar:
types, expressions, statements, functions and their auxiliary structures.
`Vec<Node<T>>` / `Option<Node<T>>` fields over types of this block are
embedded as the custom `...List` / `Option...` types of the block; the
ownership wrapper `Node` itself is erased (clones share the underlying
value, so the tree structure is all that matters to the data model). -/

set_option maxHeartbeats 3200000 in
mutual

/-- `Qualified` (`ast.rs` lines 194-199); the field `prefix` is renamed
`prefix_` (Lean keyword). -/
inductive Qualified where
  | mk (prefix_ : OptionQualified) (name : Symbol) (params : TypeList)

/-- `Option<Node<Qualified>>`. -/
inductive OptionQualified where
  | none
  | some (q : Qualified)

/-- `Type` (`ast.rs` lines 329-335), renamed `DartType` (`Type` is a Lean
keyword). -/
inductive DartType where
  | Path (q : Qualified)
  | FunctionOld (sig : FnSig)
  | Function (sig : FnSig)
  | Infer

/-- `Option<Node<Type>>`. -/
inductive OptionDartType where
  | none
  | some (ty : DartType)

/-- `Vec<Node<Type>>`. -/
inductive TypeList where
  | nil
  | cons (ty : DartType) (tys : TypeList)

/-- `TypeParameter` (`ast.rs` lines 187-192); `extends` is a Lean keyword,
renamed `extends_`. -/
inductive TypeParameter where
  | mk (metadata : MetadataList) (name : Symbol) (extends_ : OptionQualified)

/-- `Vec<Node<TypeParameter>>`. -/
inductive TypeParameterList where
  | nil
  | cons (tp : TypeParameter) (tps : TypeParameterList)

/-- `Function` (`ast.rs` lines 119-125). -/
inductive Function where
  | mk (name : FnName) (generics : TypeParameterList) (sig : FnSig)
       (body : OptionFnBody)

/-- `FnSig` (`ast.rs` lines 442-450). -/
inductive FnSig where
  | mk (return_type : DartType) (required : ArgDefList)
       (optional : ArgDefList) (optional_kind : OptionalArgKind)
       (async : Bool) (generator : Bool)

/-- `FnBody` (`ast.rs` lines 465-470). -/
inductive FnBody where
  | Arrow (e : Expr)
  | Block (st : Statement)
  | Native (sl : OptionStringLiteral)

/-- `Option<FnBody>`. -/
inductive OptionFnBody where
  | none
  | some (b : FnBody)

/-- `ArgDef` (`ast.rs` lines 484-491). -/
inductive ArgDef where
  | mk (metadata : MetadataList) (covariant : Bool) (ty : VarType)
       (field : Bool) (var : VarDef)

/-- `Vec<ArgDef>`. -/
inductive ArgDefList where
  | nil
  | cons (a : ArgDef) (rest : ArgDefList)

/-- `VarType` (`ast.rs` lines 511-515). -/
inductive VarType where
  | mk (fcv : FinalConstVar) (ty : DartType)

/-- `VarDef` (`ast.rs` lines 524-528). -/
inductive VarDef where
  | mk (name : Symbol) (init : OptionExpr)

/-- `Vec<Node<VarDef>>`. -/
inductive VarDefList where
  | nil
  | cons (v : VarDef) (vs : VarDefList)

/-- `MetadataItem` (`ast.rs` lines 425-429). -/
inductive MetadataItem where
  | mk (qualified : Qualified) (arguments : OptionArgs)

/-- `Metadata = Vec<MetadataItem>` (`ast.rs` line 440). -/
inductive MetadataList where
  | nil
  | cons (m : MetadataItem) (ms : MetadataList)

/-- `Args` (`ast.rs` lines 419-423). -/
inductive Args where
  | mk (unnamed : ExprList) (named : NamedArgList)

/-- `Option<Args>`. -/
inductive OptionArgs where
  | none
  | some (a : Args)

/-- `NamedArg` (`ast.rs` lines 413-417). -/
inductive NamedArg where
  | mk (name : Symbol) (expr : Expr)

/-- `Vec<NamedArg>`. -/
inductive NamedArgList where
  | nil
  | cons (n : NamedArg) (ns : NamedArgList)

/-- `Expr` (`ast.rs` lines 343-375). -/
inductive Expr where
  | Unary (op : UnOp) (e : Expr)
  | Binary (op : BinOp) (a : Expr) (b : Expr)
  | Conditional (c : Expr) (t : Expr) (e : Expr)
  | Is (e : Expr) (ty : DartType)
  | IsNot (e : Expr) (ty : DartType)
  | As (e : Expr) (ty : DartType)
  | Suffix (e : Expr) (suffix : Lyken.Suffix)
  | Identifier (s : Symbol)
  | Closure (sig : FnSig) (body : FnBody)
  | New (const_ : Bool) (path : Qualified) (args : Args)
  | List (const_ : Bool) (element_ty : OptionDartType) (elements : ExprList)
  | Map (const_ : Bool) (kv_ty : KVTypes) (kv : ExprPairList)
  | Number (n : Symbol)
  | String (literals : StringLiteralList)
  | Symbol (sl : SymbolLiteral)
  | Paren (e : Expr)
  | Throw (e : Expr)
  | Cascade (e : Expr) (cascade : Lyken.Cascade)

/-- `Vec<Node<Expr>>`. -/
inductive ExprList where
  | nil
  | cons (e : Expr) (es : ExprList)

/-- `Option<Node<Expr>>`. -/
inductive OptionExpr where
  | none
  | some (e : Expr)

/-- `Vec<(Node<Expr>, Node<Expr>)>` (map key/value pairs). -/
inductive ExprPairList where
  | nil
  | cons (k : Expr) (v : Expr) (rest : ExprPairList)

/-- `Option<(Node<Type>, Node<Type>)>` (map key/value element types). -/
inductive KVTypes where
  | none
  | some (k : DartType) (v : DartType)

/-- `StringLiteral` (`ast.rs` lines 383-390); the span field `prefix` is
renamed `prefix_` (Lean keyword). -/
inductive StringLiteral where
  | mk (raw : Bool) (triple : Bool) (quote : Char) (prefix_ : Span)
       (interpolated : InterpList)

/-- `Vec<StringLiteral>`. -/
inductive StringLiteralList where
  | nil
  | cons (sl : StringLiteral) (sls : StringLiteralList)

/-- `Option<StringLiteral>`. -/
inductive OptionStringLiteral where
  | none
  | some (sl : StringLiteral)

/-- `Vec<(Node<Expr>, Span)>` (interpolated parts of a string literal). -/
inductive InterpList where
  | nil
  | cons (e : Expr) (sp : Span) (rest : InterpList)

/-- `Suffix` (`ast.rs` lines 399-405). -/
inductive Suffix where
  | Index (e : Expr)
  | Field (name : Symbol)
  | FieldIfNotNull (name : Symbol)
  | Call (types : TypeList) (args : Args)

/-- `Vec<Suffix>`. -/
inductive SuffixList where
  | nil
  | cons (s : Suffix) (ss : SuffixList)

/-- `Cascade` (`ast.rs` lines 407-411). -/
inductive Cascade where
  | mk (suffixes : SuffixList) (assign : CascadeAssign)

/-- `Option<(Option<ValueBinOp>, Node<Expr>)>` (cascade assignment). -/
inductive CascadeAssign where
  | none
  | some (op : Option ValueBinOp) (e : Expr)

/-- `Statement` (`ast.rs` lines 557-577). -/
inductive Statement where
  | Block (statements : StatementList)
  | Vars (var_type : VarType) (vars : VarDefList)
  | Function (f : Lyken.Function)
  | For (await_ : Bool) (loop : ForLoop) (body : Statement)
  | While (cond : Expr) (body : Statement)
  | DoWhile (body : Statement) (cond : Expr)
  | Switch (e : Expr) (cases : SwitchCaseList)
  | If (cond : Expr) (then_ : Statement) (else_ : OptionStatement)
  | Rethrow
  | Try (block : Statement) (parts : TryPartList)
  | Break (label : Option Symbol)
  | Continue (label : Option Symbol)
  | Return (e : OptionExpr)
  | Yield (e : Expr)
  | YieldEach (e : Expr)
  | Expression (e : OptionExpr)
  | Assert (args : Args)
  | Labelled (label : Symbol) (st : Statement)

/-- `Vec<Node<Statement>>`. -/
inductive StatementList where
  | nil
  | cons (st : Statement) (sts : StatementList)

/-- `Option<Node<Statement>>`. -/
inductive OptionStatement where
  | none
  | some (st : Statement)

/-- `ForLoop` (`ast.rs` lines 530-535). -/
inductive ForLoop where
  | CLike (init : Statement) (cond : OptionExpr) (updates : ExprList)
  | In (name : Symbol) (e : Expr)
  | InVar (var_type : VarType) (var : VarDef) (e : Expr)

/-- `SwitchCase` (`ast.rs` lines 537-542). -/
inductive SwitchCase where
  | mk (labels : List Symbol) (value : OptionExpr)
       (statements : StatementList)

/-- `Vec<SwitchCase>`. -/
inductive SwitchCaseList where
  | nil
  | cons (c : SwitchCase) (cs : SwitchCaseList)

/-- `TryPart` (`ast.rs` lines 550-555); the fields `on` and `catch` are
renamed `on_` and `catch_` (Lean keywords). -/
inductive TryPart where
  | mk (on_ : OptionDartType) (catch_ : Option CatchPart)
       (block : Statement)

/-- `Vec<TryPart>`. -/
inductive TryPartList where
  | nil
  | cons (p : TryPart) (ps : TryPartList)

end

/-! ## Items, class members and modules (`src/dart/ast.rs`) -/

/-- `ConstructorInitializer` (`ast.rs` lines 179-185). -/
inductive ConstructorInitializer where
  | Super (name : Option Symbol) (args : Args)
  | This (name : Option Symbol) (args : Args)
  | Assert (args : Args)
  | Field (this_ : Bool) (name : Symbol) (e : Expr)

/-- `ClassMember` (`ast.rs` lines 127-151). -/
inductive ClassMember where
  | Redirect (metadata : MetadataList)
      (method_qualifiers : List MethodQualifiers) (name : Option Symbol)
      (sig : FnSig) (ty : DartType)
  | Constructor (metadata : MetadataList)
      (method_qualifiers : List MethodQualifiers) (name : Option Symbol)
      (sig : FnSig) (initializers : List ConstructorInitializer)
      (function_body : OptionFnBody)
  | Method (metadata : MetadataList) (qualifiers : List MethodQualifiers)
      (f : Function)
  | Fields (metadata : MetadataList) (static_ : Bool) (var_type : VarType)
      (initializers : VarDefList)

/-- `Import` (`ast.rs` lines 111-117). -/
structure Import where
  uri : StringLiteral
  deferred : Bool
  as_ident : Option Symbol
  filters : List ImportFilter

mutual

/-- `Module` (`ast.rs` lines 11-16): a canonical filesystem path, the
parsed items and the load-failure flag.  `PathBuf` is embedded as
`String`. -/
inductive Module where
  | mk (path : String) (items : ItemList) (has_error : Bool)

/-- `Item` (`ast.rs` lines 55-103); `Part` embeds the included child
`Module` (the inclusion edge of the module graph). -/
inductive Item where
  | LibraryName (metadata : MetadataList) (path : List Symbol)
  | Import (metadata : MetadataList) (import_ : Lyken.Import)
  | Export (metadata : MetadataList) (uri : StringLiteral)
      (filters : List ImportFilter)
  | Part (metadata : MetadataList) (uri : StringLiteral) (module : Module)
  | PartOf (metadata : MetadataList) (path : List Symbol)
  | Class (metadata : MetadataList) (abstract_ : Bool) (name : Symbol)
      (generics : TypeParameterList) (superclass : OptionQualified)
      (mixins : List Qualified) (interfaces : List Qualified)
      (members : List ClassMember)
  | MixinClass (metadata : MetadataList) (abstract_ : Bool) (name : Symbol)
      (generics : TypeParameterList) (mixins : List Qualified)
      (interfaces : List Qualified)
  | Enum (metadata : MetadataList) (name : Symbol) (values : List Symbol)
  | TypeAlias (metadata : MetadataList) (name : Symbol)
      (generics : TypeParameterList) (ty : DartType)
  | Function (f : Lyken.Function)
  | Vars (var_type : VarType) (vars : VarDefList)

/-- `Vec<Node<Item>>`. -/
inductive ItemList where
  | nil
  | cons (i : Item) (rest : ItemList)

end

/-- Projection: `Module.path`. -/
def Module.path : Module → String
  | .mk p _ _ => p

/-- Projection: `Module.items`. -/
def Module.items : Module → ItemList
  | .mk _ i _ => i

/-- Projection: `Module.has_error`. -/
def Module.has_error : Module → Bool
  | .mk _ _ e => e

/-- Projection: `TryPart.on_` (the `on` guard-type field). -/
def TryPart.on_ : TryPart → OptionDartType
  | .mk o _ _ => o

/-- Projection: `TryPart.catch_`. -/
def TryPart.catch_ : TryPart → Option CatchPart
  | .mk _ c _ => c

/-- Projection: `TryPart.block`. -/
def TryPart.block : TryPart → Statement
  | .mk _ _ b => b

/-- Projection: `StringLiteral.interpolated`. -/
def StringLiteral.interpolated : StringLiteral → InterpList
  | .mk _ _ _ _ i => i

/-- Projection: `StringLiteral.prefix_` (the `prefix` span field). -/
def StringLiteral.prefix_ : StringLiteral → Span
  | .mk _ _ _ p _ => p

/-! ## The module loader and cache (`Module::load`, `ast.rs` lines 18-53)

`Module::load` canonicalizes the requested path, consults a process-wide
cache keyed by path, and otherwise invokes the external parser; on any
failure it synthesizes an error-flagged empty module instead of
propagating, prints a diagnostic, and caches the result under
`module.path`.

Embedding choices:

* The filesystem and the external parser are an oracle environment
  `LoadEnv`: `canon` models `Path::canonicalize` (`none` = I/O error), and
  `parseFile` models `parse::Parser::with_file(path, |p| p.dart_module())`.
  Modelled from the spec: the parser itself is not under `src/`; per the
  spec (§3, §4.3) a successfully parsed module carries the canonical path
  it was loaded from, `has_error = false`, and the parsed items, so the
  oracle returns the item list and the loader builds that module.
* `Node<Module>` handles are `Nat × Module`: a fresh allocation id paired
  with the value; `Node::clone` shares the id, so "same handle identity"
  is id (and value) equality.
* `LoaderState` carries the thread-local `CACHE` plus two ghost
  instrumentation logs: `parses` records each invocation of the parser
  (one entry per `Parser::with_file` call, keyed by canonical path) and
  `diags` records each `println!` diagnostic together with the path being
  loaded and the error kind.
-/

/-- `parse::ErrorKind`, reduced to the distinction `Module::load` makes:
`Io` (file missing/unreadable, also produced by `canonicalize`) versus a
lexing/parsing failure. -/
inductive ErrorKind where
  | Io
  | Syntax
  deriving DecidableEq, Repr

/-- The filesystem / external-parser oracle for `Module::load`. -/
structure LoadEnv where
  canon : String → Option String
  parseFile : String → Except ErrorKind ItemList

/-- A `Node<Module>` handle: allocation id plus the shared value. -/
abbrev NodeModule := Nat × Module

/-- The `thread_local! CACHE` of `Module::load` plus ghost logs. -/
structure LoaderState where
  cache : List (String × NodeModule)
  next_id : Nat
  parses : List String
  diags : List (String × ErrorKind)

/-- `CACHE.with(|c| c.borrow().get(path).cloned())`: association-list
lookup (insertion shadows, as `HashMap::insert` overwrites). -/
def cacheLookup (c : String) : List (String × NodeModule) → Option NodeModule
  | [] => Option.none
  | (k, nm) :: rest => if k = c then Option.some nm else cacheLookup c rest

/-- `Module::load` (`ast.rs` lines 19-52).  Canonicalize; on success check
the cache and return the shared handle on a hit; otherwise parse.  On any
failure (canonicalize or parse) print a diagnostic and synthesize
`Module { path, items: vec![], has_error: true }`.  Either way insert the
result under `module.path` — the canonical path, except when
canonicalization itself failed, in which case `path` is still the original
spelling (and the cache was never consulted). -/
def load (env : LoadEnv) (p : String) (st : LoaderState) :
    NodeModule × LoaderState :=
  match env.canon p with
  | Option.some c =>
    match cacheLookup c st.cache with
    | Option.some nm => (nm, st)
    | Option.none =>
      match env.parseFile c with
      | .ok items =>
        let m := Module.mk c items false
        let nm := (st.next_id, m)
        (nm, { cache := (c, nm) :: st.cache
               next_id := st.next_id + 1
               parses := st.parses ++ [c]
               diags := st.diags })
      | .error k =>
        let m := Module.mk c ItemList.nil true
        let nm := (st.next_id, m)
        (nm, { cache := (c, nm) :: st.cache
               next_id := st.next_id + 1
               parses := st.parses ++ [c]
               diags := st.diags ++ [(c, k)] })
  | Option.none =>
    let m := Module.mk p ItemList.nil true
    let nm := (st.next_id, m)
    (nm, { cache := (p, nm) :: st.cache
           next_id := st.next_id + 1
           parses := st.parses
           diags := st.diags ++ [(p, ErrorKind.Io)] })

/-- Load a sequence of paths in order (repeated importers / spellings). -/
def loadAll (env : LoadEnv) (ps : List String) (st : LoaderState) :
    LoaderState :=
  ps.foldl (fun s q => (load env q s).2) st

/-- A cache hit returns the cached handle and leaves the state
untouched. -/
theorem load_hit (env : LoadEnv) (p c : String) (st : LoaderState)
    (nm : NodeModule) (h₁ : env.canon p = Option.some c)
    (h₂ : cacheLookup c st.cache = Option.some nm) :
    load env p st = (nm, st) := by
  simp [load, h₁, h₂]

/-- After any load of a path that canonicalizes to `c`, the handle the
load returned is in the cache under `c`. -/
theorem load_caches (env : LoadEnv) (p c : String) (st : LoaderState)
    (h₁ : env.canon p = Option.some c) :
    cacheLookup c (load env p st).2.cache = Option.some (load env p st).1 := by
  cases hl : cacheLookup c st.cache with
  | some nm => simp [load, h₁, hl]
  | none =>
    cases hp : env.parseFile c with
    | ok items => simp [load, h₁, hl, hp, cacheLookup]
    | error k => simp [load, h₁, hl, hp, cacheLookup]

/-- Once `c` is cached, further loads of any spelling canonicalizing to
`c` change nothing. -/
theorem loadAll_stable (env : LoadEnv) (c : String) (ps : List String)
    (st : LoaderState) (nm : NodeModule)
    (hcanon : ∀ p ∈ ps, env.canon p = Option.some c)
    (hcached : cacheLookup c st.cache = Option.some nm) :
    loadAll env ps st = st := by
  induction ps with
  | nil => rfl
  | cons p rest ih =>
    have hp := hcanon p (List.mem_cons_self p rest)
    have hstep : load env p st = (nm, st) := load_hit env p c st nm hp hcached
    simp only [loadAll, List.foldl_cons, hstep]
    exact ih (fun q hq => hcanon q (List.mem_cons_of_mem p hq))

/-- C1: the second of two loads whose paths canonicalize to the same file
returns the very handle the first load returned (same allocation id, same
value), performs no parse, and in fact leaves the loader state
untouched. -/
theorem load_same_canonical_returns_same_handle (env : LoadEnv)
    (st : LoaderState) (p₁ p₂ c : String)
    (h₁ : env.canon p₁ = Option.some c)
    (h₂ : env.canon p₂ = Option.some c) :
    (load env p₂ (load env p₁ st).2).1 = (load env p₁ st).1 ∧
    (load env p₂ (load env p₁ st).2).2.parses.length ≤ st.parses.length + 1 ∧
    (load env p₂ (load env p₁ st).2).2 = (load env p₁ st).2 := by
  have hc := load_caches env p₁ c st h₁
  have hhit := load_hit env p₂ c (load env p₁ st).2 (load env p₁ st).1 h₂ hc
  refine ⟨by rw [hhit], ?_, by rw [hhit]⟩
  rw [hhit]
  have : (load env p₁ st).2.parses.length ≤ st.parses.length + 1 := by
    cases hl : cacheLookup c st.cache with
    | some nm =>
      have := load_hit env p₁ c st nm h₁ hl
      simp [this]
    | none =>
      cases hp : env.parseFile c with
      | ok items => simp [load, h₁, hl, hp]
      | error k => simp [load, h₁, hl, hp]
  exact this

/-- Witness environment: every path canonicalizes to `"c"`, which parses
to an empty item list. -/
def c1Env : LoadEnv :=
  { canon := fun _ => Option.some "c"
    parseFile := fun _ => Except.ok ItemList.nil }

/-- The empty initial loader state. -/
def st0 : LoaderState :=
  { cache := [], next_id := 0, parses := [], diags := [] }

/-- Witness for C1 at a concrete environment and two concrete
spellings. -/
theorem load_same_canonical_returns_same_handle_witness :
    (load c1Env "b" (load c1Env "a" st0).2).1 = (load c1Env "a" st0).1 ∧
    (load c1Env "b" (load c1Env "a" st0).2).2.parses.length ≤
      st0.parses.length + 1 ∧
    (load c1Env "b" (load c1Env "a" st0).2).2 = (load c1Env "a" st0).2 :=
  load_same_canonical_returns_same_handle c1Env st0 "a" "b" "c" rfl rfl

/-- C2: a load that fails — the path cannot be canonicalized (I/O error),
or it canonicalizes to an uncached file whose parse fails — returns a
module with `has_error = true` and an empty item list, rather than
propagating the failure. -/
theorem load_failure_yields_flagged_empty_module (env : LoadEnv)
    (st : LoaderState) (p : String) :
    (env.canon p = Option.none →
      (load env p st).1.2.has_error = true ∧
      (load env p st).1.2.items = ItemList.nil) ∧
    (∀ c ek, env.canon p = Option.some c →
      cacheLookup c st.cache = Option.none →
      env.parseFile c = Except.error ek →
      (load env p st).1.2.has_error = true ∧
      (load env p st).1.2.items = ItemList.nil) := by
  constructor
  · intro h
    simp [load, h, Module.has_error, Module.items]
  · intro c ek hc hl hp
    simp [load, hc, hl, hp, Module.has_error, Module.items]

/-- Witness environment for C2: `"gone"` fails to canonicalize; `"bad"`
canonicalizes to itself but fails to parse. -/
def c2Env : LoadEnv :=
  { canon := fun p => if p = "gone" then Option.none else Option.some p
    parseFile := fun _ => Except.error ErrorKind.Syntax }

/-- Witness for C2 at both failure modes. -/
theorem load_failure_yields_flagged_empty_module_witness :
    ((load c2Env "gone" st0).1.2.has_error = true ∧
      (load c2Env "gone" st0).1.2.items = ItemList.nil) ∧
    ((load c2Env "bad" st0).1.2.has_error = true ∧
      (load c2Env "bad" st0).1.2.items = ItemList.nil) :=
  ⟨(load_failure_yields_flagged_empty_module c2Env st0 "gone").1 rfl,
   (load_failure_yields_flagged_empty_module c2Env st0 "bad").2 "bad"
     ErrorKind.Syntax rfl rfl rfl⟩

/-- Whether loading `p` fails: canonicalization fails, or the canonical
file fails to parse. -/
def loadFailed (env : LoadEnv) (p : String) : Bool :=
  match env.canon p with
  | Option.none => true
  | Option.some c =>
    match env.parseFile c with
    | .ok _ => false
    | .error _ => true

/-- Every module in the cache satisfies the module invariant
(`has_error → items empty`). -/
def cacheInv (st : LoaderState) : Prop :=
  ∀ k nm, (k, nm) ∈ st.cache → nm.2.has_error = true →
    nm.2.items = ItemList.nil

/-- A successful `cacheLookup` comes from a cache entry. -/
theorem cacheLookup_mem (c : String) (l : List (String × NodeModule))
    (nm : NodeModule) (h : cacheLookup c l = Option.some nm) :
    (c, nm) ∈ l := by
  induction l with
  | nil => simp [cacheLookup] at h
  | cons kv rest ih =>
    obtain ⟨k, nm'⟩ := kv
    by_cases hk : k = c
    · subst hk
      simp [cacheLookup] at h
      subst h
      exact List.mem_cons_self _ _
    · simp [cacheLookup, hk] at h
      exact List.mem_cons_of_mem _ (ih h)

/-- C3: for a fresh (non-cache-hit) load, the returned module's
`has_error` flag is set exactly when loading failed; the module invariant
`has_error → items empty` holds for the returned module and is preserved
for every cached module. -/
theorem load_has_error_iff_load_failed (env : LoadEnv) (st : LoaderState)
    (p : String) (hinv : cacheInv st) :
    ((∀ c, env.canon p = Option.some c →
        cacheLookup c st.cache = Option.none) →
      (load env p st).1.2.has_error = loadFailed env p) ∧
    ((load env p st).1.2.has_error = true →
      (load env p st).1.2.items = ItemList.nil) ∧
    cacheInv (load env p st).2 := by
  cases hc : env.canon p with
  | none =>
    refine ⟨fun _ => ?_, fun _ => ?_, ?_⟩
    · simp [load, hc, loadFailed, Module.has_error]
    · simp [load, hc, Module.items]
    · intro k nm hmem herr
      simp only [load, hc] at hmem
      rcases List.mem_cons.mp hmem with heq | hmem'
      · cases heq
        simp [Module.items]
      · exact hinv k nm hmem' herr
  | some c =>
    cases hl : cacheLookup c st.cache with
    | some nm =>
      refine ⟨fun hfresh => ?_, fun herr => ?_, ?_⟩
      · exact absurd hl (by simp [hfresh c rfl])
      · have hres : load env p st = (nm, st) := load_hit env p c st nm hc hl
        rw [hres] at herr ⊢
        exact hinv c nm (cacheLookup_mem c st.cache nm hl) herr
      · have hres : load env p st = (nm, st) := load_hit env p c st nm hc hl
        rw [hres]
        exact hinv
    | none =>
      cases hp : env.parseFile c with
      | ok items =>
        refine ⟨fun _ => ?_, fun herr => ?_, ?_⟩
        · simp [load, hc, hl, hp, loadFailed, Module.has_error]
        · exact absurd herr (by simp [load, hc, hl, hp, Module.has_error])
        · intro k nm hmem herr
          simp only [load, hc, hl, hp] at hmem
          rcases List.mem_cons.mp hmem with heq | hmem'
          · cases heq
            simp [Module.has_error] at herr
          · exact hinv k nm hmem' herr
      | error ek =>
        refine ⟨fun _ => ?_, fun _ => ?_, ?_⟩
        · simp [load, hc, hl, hp, loadFailed, Module.has_error]
        · simp [load, hc, hl, hp, Module.items]
        · intro k nm hmem herr
          simp only [load, hc, hl, hp] at hmem
          rcases List.mem_cons.mp hmem with heq | hmem'
          · cases heq
            simp [Module.items]
          · exact hinv k nm hmem' herr

/-- Witness for C3: the empty cache trivially satisfies the invariant, and
a fresh failing load of `"bad"` carries `has_error = loadFailed`. -/
theorem load_has_error_iff_load_failed_witness :
    ((∀ c, c2Env.canon "bad" = Option.some c →
        cacheLookup c st0.cache = Option.none) →
      (load c2Env "bad" st0).1.2.has_error = loadFailed c2Env "bad") ∧
    ((load c2Env "bad" st0).1.2.has_error = true →
      (load c2Env "bad" st0).1.2.items = ItemList.nil) ∧
    cacheInv (load c2Env "bad" st0).2 :=
  load_has_error_iff_load_failed c2Env st0 "bad"
    (fun k nm hmem _ => absurd hmem (List.not_mem_nil (k, nm)))

/-- C4 (amended): when the broken file's path *does* canonicalize (the file
exists but fails to read or parse), the failed result is cached under the
canonical key, so any number of loads via any spellings resolving to that
canonical path emits exactly one diagnostic and invokes the parser exactly
once. -/
theorem load_failed_parse_cached_once (env : LoadEnv) (c : String)
    (ek : ErrorKind) (ps : List String) (st : LoaderState)
    (hne : ps ≠ [])
    (hcanon : ∀ p ∈ ps, env.canon p = Option.some c)
    (hparse : env.parseFile c = Except.error ek)
    (hfresh : cacheLookup c st.cache = Option.none) :
    (loadAll env ps st).diags = st.diags ++ [(c, ek)] ∧
    (loadAll env ps st).parses = st.parses ++ [c] := by
  cases ps with
  | nil => exact absurd rfl hne
  | cons p rest =>
    have hp := hcanon p (List.mem_cons_self p rest)
    have hfirst :
        (load env p st).2 =
          { cache := (c, (st.next_id, Module.mk c ItemList.nil true)) :: st.cache
            next_id := st.next_id + 1
            parses := st.parses ++ [c]
            diags := st.diags ++ [(c, ek)] } := by
      simp [load, hp, hfresh, hparse]
    have hcached :
        cacheLookup c (load env p st).2.cache =
          Option.some (st.next_id, Module.mk c ItemList.nil true) := by
      rw [hfirst]
      simp [cacheLookup]
    have hrest : loadAll env rest (load env p st).2 = (load env p st).2 :=
      loadAll_stable env c rest (load env p st).2 _
        (fun q hq => hcanon q (List.mem_cons_of_mem p hq)) hcached
    have : loadAll env (p :: rest) st = (load env p st).2 := by
      simp only [loadAll, List.foldl_cons]
      exact hrest
    rw [this, hfirst]
    exact ⟨rfl, rfl⟩

/-- Witness environment for the amended C4: `"x"` and `"y"` both
canonicalize to `"c"`, which fails to parse. -/
def c4Env : LoadEnv :=
  { canon := fun _ => Option.some "c"
    parseFile := fun _ => Except.error ErrorKind.Syntax }

/-- Witness for the amended C4: three loads via two spellings, one
diagnostic, one parse. -/
theorem load_failed_parse_cached_once_witness :
    (loadAll c4Env ["x", "y", "x"] st0).diags =
      st0.diags ++ [("c", ErrorKind.Syntax)] ∧
    (loadAll c4Env ["x", "y", "x"] st0).parses = st0.parses ++ ["c"] :=
  load_failed_parse_cached_once c4Env "c" ErrorKind.Syntax ["x", "y", "x"]
    st0 (by simp) (fun p _ => rfl) rfl rfl

/-- Environment of the C4 counterexample: a path that cannot be
canonicalized at all (a nonexistent file). -/
def missingEnv : LoadEnv :=
  { canon := fun _ => Option.none
    parseFile := fun _ => Except.error ErrorKind.Io }

/-- C4 counterexample: for a file whose path cannot be canonicalized,
`Module::load` never consults the cache (the lookup happens only after a
successful `canonicalize`), so loading the same broken path twice emits
*two* diagnostic lines, not one. -/
theorem load_missing_file_diag_counterexample :
    (loadAll missingEnv ["a", "a"] st0).diags =
      [("a", ErrorKind.Io), ("a", ErrorKind.Io)] ∧
    (loadAll missingEnv ["a", "a"] st0).diags.length ≠ 1 := by
  constructor
  · rfl
  · decide

/-! ## Operator enumeration and spelling (C8, C9) -/

/-- `from_usize` returns `None` from index 8 on (the `BoolBinOp` stream is
exhausted). -/
theorem bool_from_usize_none (n : Nat) (h : 8 ≤ n) :
    BoolBinOp.from_usize n = Option.none := by
  match n, h with
  | n + 8, _ => rfl

/-- `from_usize` returns `None` from index 12 on (the `ValueBinOp` stream
is exhausted). -/
theorem value_from_usize_none (n : Nat) (h : 12 ≤ n) :
    ValueBinOp.from_usize n = Option.none := by
  match n, h with
  | n + 12, _ => rfl

/-- C8: `BoolBinOp::values()` enumerates exactly the eight boolean binary
operators and `ValueBinOp::values()` exactly the twelve value binary
operators, each in declaration order with every variant exactly once;
`BinOp::values()` is the booleans, then the values, then the compound
assignments `Assign(Some(v))` for each value operator `v` in order,
then plain `Assign(None)` — 28 operators, no duplicates, every `BinOp`
among them.  The sequences are finite (the backing `from_usize` streams
are `None` from the variant count on — `bool_from_usize_none`,
`value_from_usize_none`) and restartable (`values` is a pure value: every
re-invocation denotes the same list). -/
theorem binop_values_enumeration :
    BoolBinOp.values =
      [.Or, .And, .Eq, .Ne, .Ge, .Gt, .Le, .Lt] ∧
    ValueBinOp.values =
      [.IfNull, .Add, .Sub, .Mul, .Div, .Mod, .TruncDiv, .Lsh, .Rsh,
       .BitAnd, .BitXor, .BitOr] ∧
    BinOp.values =
      [.Bool .Or, .Bool .And, .Bool .Eq, .Bool .Ne, .Bool .Ge, .Bool .Gt,
       .Bool .Le, .Bool .Lt,
       .Value .IfNull, .Value .Add, .Value .Sub, .Value .Mul, .Value .Div,
       .Value .Mod, .Value .TruncDiv, .Value .Lsh, .Value .Rsh,
       .Value .BitAnd, .Value .BitXor, .Value .BitOr,
       .Assign (Option.some .IfNull), .Assign (Option.some .Add),
       .Assign (Option.some .Sub), .Assign (Option.some .Mul),
       .Assign (Option.some .Div), .Assign (Option.some .Mod),
       .Assign (Option.some .TruncDiv), .Assign (Option.some .Lsh),
       .Assign (Option.some .Rsh), .Assign (Option.some .BitAnd),
       .Assign (Option.some .BitXor), .Assign (Option.some .BitOr),
       .Assign Option.none] ∧
    BinOp.values.Nodup ∧
    (∀ b : BinOp, b ∈ BinOp.values) := by
  refine ⟨rfl, rfl, rfl, by decide, ?_⟩
  intro b
  cases b with
  | Bool op => cases op <;> decide
  | Value op => cases op <;> decide
  | Assign op =>
    cases op with
    | none => decide
    | some v => cases v <;> decide

/-- C9: each compound assignment `Assign(Some(v))` prints as the value
operator's spelling followed by `"="`, plain `Assign(None)` prints `"="`,
and the boolean and value constructors print the taxonomy's spellings. -/
theorem binop_as_str_spellings :
    (∀ v : ValueBinOp,
      (BinOp.Assign (Option.some v)).as_str = (BinOp.Value v).as_str ++ "=") ∧
    (BinOp.Assign Option.none).as_str = "=" ∧
    BoolBinOp.values.map (fun op => (BinOp.Bool op).as_str) =
      ["||", "&&", "==", "!=", ">=", ">", "<=", "<"] ∧
    ValueBinOp.values.map (fun op => (BinOp.Value op).as_str) =
      ["??", "+", "-", "*", "/", "%", "~/", "<<", ">>", "&", "^", "|"] := by
  refine ⟨?_, rfl, rfl, rfl⟩
  intro v
  cases v <;> rfl

/-! ## `StringLiteral::get_simple_string` (C10) -/

/-- The two panics `get_simple_string` can hit: the `assert!` on an
interpolation-free literal, and `.unwrap()` on a span the codemap cannot
resolve. -/
inductive StrPanic where
  | assertInterpolatedNonEmpty
  | spanNotRegistered
  deriving DecidableEq, Repr

/-- `StringLiteral::get_simple_string` (`ast.rs` lines 392-397):
`assert!(self.interpolated.is_empty())`, then
`codemap().span_to_snippet(self.prefix).unwrap()`.  The global codemap is
the oracle `cm`; panics are `Except.error`. -/
def StringLiteral.get_simple_string (sl : StringLiteral)
    (cm : Span → Option String) : Except StrPanic String :=
  match sl with
  | .mk _ _ _ pre interp =>
    match interp with
    | .nil =>
      match cm pre with
      | Option.some s => Except.ok s
      | Option.none => Except.error StrPanic.spanNotRegistered
    | .cons _ _ _ => Except.error StrPanic.assertInterpolatedNonEmpty

/-- C10: on a literal with no interpolations whose prefix span the codemap
resolves, `get_simple_string` returns the snippet; on a literal with a
non-empty interpolation list it fails the `assert!` (never returns a
value). -/
theorem get_simple_string_spec (cm : Span → Option String)
    (sl : StringLiteral) (s : String)
    (hni : sl.interpolated = InterpList.nil)
    (hcm : cm sl.prefix_ = Option.some s) :
    sl.get_simple_string cm = Except.ok s ∧
    StringLiteral.get_simple_string
        (.mk false false 'x' 0
          (InterpList.cons (Expr.Identifier "e") 1 InterpList.nil))
        cm
      = Except.error StrPanic.assertInterpolatedNonEmpty := by
  constructor
  · obtain ⟨raw, triple, q, pre, interp⟩ := sl
    simp only [StringLiteral.interpolated] at hni
    simp only [StringLiteral.prefix_] at hcm
    subst hni
    simp [StringLiteral.get_simple_string, hcm]
  · rfl

/-- Witness for C10 at a concrete literal and codemap. -/
theorem get_simple_string_spec_witness :
    StringLiteral.get_simple_string (.mk false false 'x' 7 InterpList.nil)
        (fun sp => if sp = 7 then Option.some "hello" else Option.none)
      = Except.ok "hello" ∧
    StringLiteral.get_simple_string
        (.mk false false 'x' 0
          (InterpList.cons (Expr.Identifier "e") 1 InterpList.nil))
        (fun sp => if sp = 7 then Option.some "hello" else Option.none)
      = Except.error StrPanic.assertInterpolatedNonEmpty :=
  get_simple_string_spec
    (fun sp => if sp = 7 then Option.some "hello" else Option.none)
    (.mk false false 'x' 7 InterpList.nil) "hello" rfl rfl

/-! ## The traversal framework (`src/dart/visit.rs`)

The `Visitor` trait (`visit.rs` lines 6-67) has one overridable method per
node kind; each defaults to that kind's structural recursion
(`super_visit`).  The *default* traversal — every hook left at its default
— is embedded as a family of functions producing the trace of hook
invocations in order: `visitX x = Event.dart_X x :: (super-visit of x)`.
An observation-only visitor (one that overrides hooks to record what it
sees and then continues with the default recursion, like the
identifier-collector of C5) sees exactly this trace.

Adaptations forced by the revision skew between `visit.rs` and `ast.rs`
(the data model of `ast.rs` is authoritative for node shapes):

* `visit.rs` names metadata `Meta`/`MetaItem` with an extra `Comments`
  variant, and has `Comments` variants on `Statement`/`Expr`; `ast.rs` has
  `Metadata`/`MetadataItem` and no comment nodes — the `Attribute` arm
  (visit qualified, then arguments if present) is the embedded behavior.
* `visit.rs` visits an `Item::Function`/`Item::Vars` metadata field and
  per-value `Enum` metadata; those fields do not exist in `ast.rs`.
* `ClassMember::Redirect` has `ty` in `ast.rs` where `visit.rs` visits
  `path`; the embedded recursion visits `ty`.
* `TryPart`'s catch binders (`catch.exception`, `catch.trace`) are plain
  `Symbol`s in `ast.rs`; the `Visitor` trait has no hook for a bare
  symbol, so their visits contribute no trace events.

Lists with a hook of their own (`dart_generics` for
`&[Node<TypeParameter>]`, `dart_block` for `&[Node<Statement>]`,
`dart_meta` for `Metadata`) emit their hook event before their elements;
lists iterated with a plain `for` loop in the source contribute only their
elements' events. -/

/-- One `Visitor`-trait hook invocation, named after the trait method
(`visit.rs` lines 6-67), carrying the node it was invoked on. -/
inductive Event where
  | dart_module (m : Module)
  | dart_item (i : Item)
  | dart_class_member (c : ClassMember)
  | dart_constructor_initializer (ci : ConstructorInitializer)
  | dart_meta (ml : MetadataList)
  | dart_qualified (q : Qualified)
  | dart_generics (g : TypeParameterList)
  | dart_type (t : DartType)
  | dart_function (f : Function)
  | dart_fn_sig (sig : FnSig)
  | dart_fn_body (b : FnBody)
  | dart_try_part (tp : TryPart)
  | dart_statement (st : Statement)
  | dart_block (sts : StatementList)
  | dart_var_def (v : VarDef)
  | dart_expr (e : Expr)
  | dart_args (a : Args)
  | dart_suffix (s : Suffix)
  | dart_string_literal (sl : StringLiteral)

/-- The disjoint union of the recursive-core node kinds: the
packed argument type of the traversal and identifier-collection
recursions (one recursive function each, instead of ~40 mutual
ones, with one named dispatch wrapper per node kind). -/
inductive NodeA where
  | qualified (x : Qualified)
  | optionQualified (x : OptionQualified)
  | dartType (x : DartType)
  | optionDartType (x : OptionDartType)
  | typeList (x : TypeList)
  | typeParameterList (x : TypeParameterList)
  | function (x : Function)
  | fnSig (x : FnSig)
  | argDefList (x : ArgDefList)
  | fnBody (x : FnBody)
  | optionFnBody (x : OptionFnBody)
  | varDef (x : VarDef)
  | optionExpr (x : OptionExpr)
  | varDefList (x : VarDefList)
  | metadataList (x : MetadataList)
  | args (x : Args)
  | namedArgList (x : NamedArgList)
  | optionArgs (x : OptionArgs)
  | expr (x : Expr)
  | exprList (x : ExprList)
  | kvTypes (x : KVTypes)
  | exprPairList (x : ExprPairList)
  | stringLiteral (x : StringLiteral)
  | interpList (x : InterpList)
  | stringLiteralList (x : StringLiteralList)
  | optionStringLiteral (x : OptionStringLiteral)
  | suffix (x : Suffix)
  | suffixList (x : SuffixList)
  | cascade (x : Cascade)
  | cascadeAssign (x : CascadeAssign)
  | statement (x : Statement)
  | forLoop (x : ForLoop)
  | statementList (x : StatementList)
  | optionStatement (x : OptionStatement)
  | switchCaseList (x : SwitchCaseList)
  | tryPart (x : TryPart)
  | tryPartList (x : TryPartList)

set_option maxHeartbeats 3200000 in
/-- The default-traversal trace (`src/dart/visit.rs`): each arm is
that node kind's `visit`/`super_visit` (hook event, then the
grammar-mandated children in declaration order); see the `@[simp]`
equations below for the per-kind readable form. -/
def visitStep : (n : NodeA) →
    ((m : NodeA) → sizeOf m < sizeOf n → List Event) →
    List Event
  | .qualified (.mk prefix_ name params), cb =>
    Event.dart_qualified (.mk prefix_ name params) :: (cb (.optionQualified prefix_) (by simp <;> omega) ++ cb (.typeList params) (by simp <;> omega))
  | .optionQualified (.none), _cb =>
    ([] : List Event)
  | .optionQualified (.some q), cb =>
    cb (.qualified q) (by simp <;> omega)
  | .dartType (.Path q), cb =>
    Event.dart_type (.Path q) :: cb (.qualified q) (by simp <;> omega)
  | .dartType (.FunctionOld sig), cb =>
    Event.dart_type (.FunctionOld sig) :: cb (.fnSig sig) (by simp <;> omega)
  | .dartType (.Function sig), cb =>
    Event.dart_type (.Function sig) :: cb (.fnSig sig) (by simp <;> omega)
  | .dartType (.Infer), _cb =>
    [Event.dart_type .Infer]
  | .optionDartType (.none), _cb =>
    ([] : List Event)
  | .optionDartType (.some t), cb =>
    cb (.dartType t) (by simp <;> omega)
  | .typeList (.nil), _cb =>
    ([] : List Event)
  | .typeList (.cons t ts), cb =>
    cb (.dartType t) (by simp <;> omega) ++ cb (.typeList ts) (by simp <;> omega)
  | .typeParameterList (.nil), _cb =>
    ([] : List Event)
  | .typeParameterList (.cons (.mk _metadata _name extends_) tps), cb =>
    cb (.optionQualified extends_) (by simp <;> omega) ++ cb (.typeParameterList tps) (by simp <;> omega)
  | .function (.mk name generics sig body), cb =>
    Event.dart_function (.mk name generics sig body) :: ((Event.dart_generics generics :: cb (.typeParameterList generics) (by simp <;> omega)) ++ cb (.fnSig sig) (by simp <;> omega) ++ cb (.optionFnBody body) (by simp <;> omega))
  | .fnSig (.mk return_type required optional optional_kind async generator), cb =>
    Event.dart_fn_sig (.mk return_type required optional optional_kind async generator) :: (cb (.dartType return_type) (by simp <;> omega) ++ cb (.argDefList required) (by simp <;> omega) ++ cb (.argDefList optional) (by simp <;> omega))
  | .argDefList (.nil), _cb =>
    ([] : List Event)
  | .argDefList (.cons (.mk _metadata _covariant (.mk _fcv ty) _field var) rest), cb =>
    cb (.dartType ty) (by simp <;> omega) ++ cb (.varDef var) (by simp <;> omega) ++ cb (.argDefList rest) (by simp <;> omega)
  | .fnBody (.Arrow e), cb =>
    Event.dart_fn_body (.Arrow e) :: cb (.expr e) (by simp <;> omega)
  | .fnBody (.Block st), cb =>
    Event.dart_fn_body (.Block st) :: cb (.statement st) (by simp <;> omega)
  | .fnBody (.Native osl), cb =>
    Event.dart_fn_body (.Native osl) :: cb (.optionStringLiteral osl) (by simp <;> omega)
  | .optionFnBody (.none), _cb =>
    ([] : List Event)
  | .optionFnBody (.some b), cb =>
    cb (.fnBody b) (by simp <;> omega)
  | .varDef (.mk name init), cb =>
    Event.dart_var_def (.mk name init) :: cb (.optionExpr init) (by simp <;> omega)
  | .optionExpr (.none), _cb =>
    ([] : List Event)
  | .optionExpr (.some e), cb =>
    cb (.expr e) (by simp <;> omega)
  | .varDefList (.nil), _cb =>
    ([] : List Event)
  | .varDefList (.cons v vs), cb =>
    cb (.varDef v) (by simp <;> omega) ++ cb (.varDefList vs) (by simp <;> omega)
  | .metadataList (.nil), _cb =>
    ([] : List Event)
  | .metadataList (.cons (.mk qualified arguments) ms), cb =>
    cb (.qualified qualified) (by simp <;> omega) ++ cb (.optionArgs arguments) (by simp <;> omega) ++ cb (.metadataList ms) (by simp <;> omega)
  | .args (.mk unnamed named), cb =>
    Event.dart_args (.mk unnamed named) :: (cb (.exprList unnamed) (by simp <;> omega) ++ cb (.namedArgList named) (by simp <;> omega))
  | .namedArgList (.nil), _cb =>
    ([] : List Event)
  | .namedArgList (.cons (.mk _name expr) ns), cb =>
    cb (.expr expr) (by simp <;> omega) ++ cb (.namedArgList ns) (by simp <;> omega)
  | .optionArgs (.none), _cb =>
    ([] : List Event)
  | .optionArgs (.some a), cb =>
    cb (.args a) (by simp <;> omega)
  | .expr (.Unary op e), cb =>
    Event.dart_expr (.Unary op e) :: cb (.expr e) (by simp <;> omega)
  | .expr (.Binary op a b), cb =>
    Event.dart_expr (.Binary op a b) :: (cb (.expr a) (by simp <;> omega) ++ cb (.expr b) (by simp <;> omega))
  | .expr (.Conditional a b c), cb =>
    Event.dart_expr (.Conditional a b c) :: (cb (.expr a) (by simp <;> omega) ++ cb (.expr b) (by simp <;> omega) ++ cb (.expr c) (by simp <;> omega))
  | .expr (.Is e ty), cb =>
    Event.dart_expr (.Is e ty) :: (cb (.expr e) (by simp <;> omega) ++ cb (.dartType ty) (by simp <;> omega))
  | .expr (.IsNot e ty), cb =>
    Event.dart_expr (.IsNot e ty) :: (cb (.expr e) (by simp <;> omega) ++ cb (.dartType ty) (by simp <;> omega))
  | .expr (.As e ty), cb =>
    Event.dart_expr (.As e ty) :: (cb (.expr e) (by simp <;> omega) ++ cb (.dartType ty) (by simp <;> omega))
  | .expr (.Suffix e sfx), cb =>
    Event.dart_expr (.Suffix e sfx) :: (cb (.expr e) (by simp <;> omega) ++ cb (.suffix sfx) (by simp <;> omega))
  | .expr (.Identifier s), _cb =>
    [Event.dart_expr (.Identifier s)]
  | .expr (.Closure sig body), cb =>
    Event.dart_expr (.Closure sig body) :: (cb (.fnSig sig) (by simp <;> omega) ++ cb (.fnBody body) (by simp <;> omega))
  | .expr (.New const_ path args_), cb =>
    Event.dart_expr (.New const_ path args_) :: (cb (.qualified path) (by simp <;> omega) ++ cb (.args args_) (by simp <;> omega))
  | .expr (.List const_ element_ty elements), cb =>
    Event.dart_expr (.List const_ element_ty elements) :: (cb (.optionDartType element_ty) (by simp <;> omega) ++ cb (.exprList elements) (by simp <;> omega))
  | .expr (.Map const_ kv_ty kv), cb =>
    Event.dart_expr (.Map const_ kv_ty kv) :: (cb (.kvTypes kv_ty) (by simp <;> omega) ++ cb (.exprPairList kv) (by simp <;> omega))
  | .expr (.Number n), _cb =>
    [Event.dart_expr (.Number n)]
  | .expr (.String literals), cb =>
    Event.dart_expr (.String literals) :: cb (.stringLiteralList literals) (by simp <;> omega)
  | .expr (.Symbol sl), _cb =>
    [Event.dart_expr (.Symbol sl)]
  | .expr (.Paren e), cb =>
    Event.dart_expr (.Paren e) :: cb (.expr e) (by simp <;> omega)
  | .expr (.Throw e), cb =>
    Event.dart_expr (.Throw e) :: cb (.expr e) (by simp <;> omega)
  | .expr (.Cascade e casc), cb =>
    Event.dart_expr (.Cascade e casc) :: (cb (.expr e) (by simp <;> omega) ++ cb (.cascade casc) (by simp <;> omega))
  | .exprList (.nil), _cb =>
    ([] : List Event)
  | .exprList (.cons e es), cb =>
    cb (.expr e) (by simp <;> omega) ++ cb (.exprList es) (by simp <;> omega)
  | .kvTypes (.none), _cb =>
    ([] : List Event)
  | .kvTypes (.some k v), cb =>
    cb (.dartType k) (by simp <;> omega) ++ cb (.dartType v) (by simp <;> omega)
  | .exprPairList (.nil), _cb =>
    ([] : List Event)
  | .exprPairList (.cons k v rest), cb =>
    cb (.expr k) (by simp <;> omega) ++ cb (.expr v) (by simp <;> omega) ++ cb (.exprPairList rest) (by simp <;> omega)
  | .stringLiteral (.mk raw triple quote prefix_ interpolated), cb =>
    Event.dart_string_literal (.mk raw triple quote prefix_ interpolated) :: cb (.interpList interpolated) (by simp <;> omega)
  | .interpList (.nil), _cb =>
    ([] : List Event)
  | .interpList (.cons e _sp rest), cb =>
    cb (.expr e) (by simp <;> omega) ++ cb (.interpList rest) (by simp <;> omega)
  | .stringLiteralList (.nil), _cb =>
    ([] : List Event)
  | .stringLiteralList (.cons sl sls), cb =>
    cb (.stringLiteral sl) (by simp <;> omega) ++ cb (.stringLiteralList sls) (by simp <;> omega)
  | .optionStringLiteral (.none), _cb =>
    ([] : List Event)
  | .optionStringLiteral (.some sl), cb =>
    cb (.stringLiteral sl) (by simp <;> omega)
  | .suffix (.Index e), cb =>
    Event.dart_suffix (.Index e) :: cb (.expr e) (by simp <;> omega)
  | .suffix (.Field name), _cb =>
    [Event.dart_suffix (.Field name)]
  | .suffix (.FieldIfNotNull name), _cb =>
    [Event.dart_suffix (.FieldIfNotNull name)]
  | .suffix (.Call types args_), cb =>
    Event.dart_suffix (.Call types args_) :: (cb (.typeList types) (by simp <;> omega) ++ cb (.args args_) (by simp <;> omega))
  | .suffixList (.nil), _cb =>
    ([] : List Event)
  | .suffixList (.cons sfx ss), cb =>
    cb (.suffix sfx) (by simp <;> omega) ++ cb (.suffixList ss) (by simp <;> omega)
  | .cascade (.mk suffixes assign), cb =>
    cb (.suffixList suffixes) (by simp <;> omega) ++ cb (.cascadeAssign assign) (by simp <;> omega)
  | .cascadeAssign (.none), _cb =>
    ([] : List Event)
  | .cascadeAssign (.some _op e), cb =>
    cb (.expr e) (by simp <;> omega)
  | .statement (.Block statements), cb =>
    Event.dart_statement (.Block statements) :: Event.dart_block statements :: cb (.statementList statements) (by simp <;> omega)
  | .statement (.Vars (.mk fcv ty) vars), cb =>
    Event.dart_statement (.Vars (.mk fcv ty) vars) :: (cb (.dartType ty) (by simp <;> omega) ++ cb (.varDefList vars) (by simp <;> omega))
  | .statement (.Function f), cb =>
    Event.dart_statement (.Function f) :: cb (.function f) (by simp <;> omega)
  | .statement (.For await_ loop body), cb =>
    Event.dart_statement (.For await_ loop body) :: (cb (.forLoop loop) (by simp <;> omega) ++ cb (.statement body) (by simp <;> omega))
  | .statement (.While cond body), cb =>
    Event.dart_statement (.While cond body) :: (cb (.expr cond) (by simp <;> omega) ++ cb (.statement body) (by simp <;> omega))
  | .statement (.DoWhile body cond), cb =>
    Event.dart_statement (.DoWhile body cond) :: (cb (.statement body) (by simp <;> omega) ++ cb (.expr cond) (by simp <;> omega))
  | .statement (.Switch e cs), cb =>
    Event.dart_statement (.Switch e cs) :: (cb (.expr e) (by simp <;> omega) ++ cb (.switchCaseList cs) (by simp <;> omega))
  | .statement (.If cond then_ else_), cb =>
    Event.dart_statement (.If cond then_ else_) :: (cb (.expr cond) (by simp <;> omega) ++ cb (.statement then_) (by simp <;> omega) ++ cb (.optionStatement else_) (by simp <;> omega))
  | .statement (.Rethrow), _cb =>
    [Event.dart_statement .Rethrow]
  | .statement (.Try block parts), cb =>
    Event.dart_statement (.Try block parts) :: (cb (.statement block) (by simp <;> omega) ++ cb (.tryPartList parts) (by simp <;> omega))
  | .statement (.Break label), _cb =>
    [Event.dart_statement (.Break label)]
  | .statement (.Continue label), _cb =>
    [Event.dart_statement (.Continue label)]
  | .statement (.Return e), cb =>
    Event.dart_statement (.Return e) :: cb (.optionExpr e) (by simp <;> omega)
  | .statement (.Yield e), cb =>
    Event.dart_statement (.Yield e) :: cb (.expr e) (by simp <;> omega)
  | .statement (.YieldEach e), cb =>
    Event.dart_statement (.YieldEach e) :: cb (.expr e) (by simp <;> omega)
  | .statement (.Expression e), cb =>
    Event.dart_statement (.Expression e) :: cb (.optionExpr e) (by simp <;> omega)
  | .statement (.Assert args_), cb =>
    Event.dart_statement (.Assert args_) :: cb (.args args_) (by simp <;> omega)
  | .statement (.Labelled label st), cb =>
    Event.dart_statement (.Labelled label st) :: cb (.statement st) (by simp <;> omega)
  | .forLoop (.CLike init cond updates), cb =>
    cb (.statement init) (by simp <;> omega) ++ cb (.optionExpr cond) (by simp <;> omega) ++ cb (.exprList updates) (by simp <;> omega)
  | .forLoop (.In _name e), cb =>
    cb (.expr e) (by simp <;> omega)
  | .forLoop (.InVar (.mk _fcv ty) var e), cb =>
    cb (.dartType ty) (by simp <;> omega) ++ cb (.varDef var) (by simp <;> omega) ++ cb (.expr e) (by simp <;> omega)
  | .statementList (.nil), _cb =>
    ([] : List Event)
  | .statementList (.cons st sts), cb =>
    cb (.statement st) (by simp <;> omega) ++ cb (.statementList sts) (by simp <;> omega)
  | .optionStatement (.none), _cb =>
    ([] : List Event)
  | .optionStatement (.some st), cb =>
    cb (.statement st) (by simp <;> omega)
  | .switchCaseList (.nil), _cb =>
    ([] : List Event)
  | .switchCaseList (.cons (.mk _labels value statements) cs), cb =>
    cb (.optionExpr value) (by simp <;> omega) ++ cb (.statementList statements) (by simp <;> omega) ++ cb (.switchCaseList cs) (by simp <;> omega)
  | .tryPart (.mk on_ catch_ block), cb =>
    Event.dart_try_part (.mk on_ catch_ block) :: (cb (.optionDartType on_) (by simp <;> omega) ++ cb (.statement block) (by simp <;> omega))
  | .tryPartList (.nil), _cb =>
    ([] : List Event)
  | .tryPartList (.cons p ps), cb =>
    cb (.tryPart p) (by simp <;> omega) ++ cb (.tryPartList ps) (by simp <;> omega)

/-- The packed recursion: one well-founded definition with a
single recursive call site, stepping through `visitStep`. -/
def visitA (n : NodeA) : List Event :=
  visitStep n (fun m _ => visitA m)
termination_by sizeOf n
decreasing_by assumption

unseal visitA in
/-- One-step unfolding of the packed recursion (the fixpoint
equation of `visitA`). -/
theorem visitA_unfold : ∀ n : NodeA,
    visitA n = visitStep n (fun m _ => visitA m) := fun n =>
  WellFounded.fix_eq _ _ n

/-- Dispatch wrapper for `visitQualified` into the packed
recursion `visitA`. -/
def visitQualified (x : Qualified) : List Event :=
  visitA (.qualified x)

/-- Dispatch wrapper for `visitOptionQualified` into the packed
recursion `visitA`. -/
def visitOptionQualified (x : OptionQualified) : List Event :=
  visitA (.optionQualified x)

/-- Dispatch wrapper for `visitType` into the packed
recursion `visitA`. -/
def visitType (x : DartType) : List Event :=
  visitA (.dartType x)

/-- Dispatch wrapper for `visitOptionType` into the packed
recursion `visitA`. -/
def visitOptionType (x : OptionDartType) : List Event :=
  visitA (.optionDartType x)

/-- Dispatch wrapper for `visitTypeList` into the packed
recursion `visitA`. -/
def visitTypeList (x : TypeList) : List Event :=
  visitA (.typeList x)

/-- Dispatch wrapper for `superGenerics` into the packed
recursion `visitA`. -/
def superGenerics (x : TypeParameterList) : List Event :=
  visitA (.typeParameterList x)

/-- Dispatch wrapper for `visitFunction` into the packed
recursion `visitA`. -/
def visitFunction (x : Function) : List Event :=
  visitA (.function x)

/-- Dispatch wrapper for `visitFnSig` into the packed
recursion `visitA`. -/
def visitFnSig (x : FnSig) : List Event :=
  visitA (.fnSig x)

/-- Dispatch wrapper for `visitArgDefList` into the packed
recursion `visitA`. -/
def visitArgDefList (x : ArgDefList) : List Event :=
  visitA (.argDefList x)

/-- Dispatch wrapper for `visitFnBody` into the packed
recursion `visitA`. -/
def visitFnBody (x : FnBody) : List Event :=
  visitA (.fnBody x)

/-- Dispatch wrapper for `visitOptionFnBody` into the packed
recursion `visitA`. -/
def visitOptionFnBody (x : OptionFnBody) : List Event :=
  visitA (.optionFnBody x)

/-- Dispatch wrapper for `visitVarDef` into the packed
recursion `visitA`. -/
def visitVarDef (x : VarDef) : List Event :=
  visitA (.varDef x)

/-- Dispatch wrapper for `visitOptionInit` into the packed
recursion `visitA`. -/
def visitOptionInit (x : OptionExpr) : List Event :=
  visitA (.optionExpr x)

/-- Dispatch wrapper for `visitVarDefList` into the packed
recursion `visitA`. -/
def visitVarDefList (x : VarDefList) : List Event :=
  visitA (.varDefList x)

/-- Dispatch wrapper for `superMeta` into the packed
recursion `visitA`. -/
def superMeta (x : MetadataList) : List Event :=
  visitA (.metadataList x)

/-- Dispatch wrapper for `visitArgs` into the packed
recursion `visitA`. -/
def visitArgs (x : Args) : List Event :=
  visitA (.args x)

/-- Dispatch wrapper for `visitNamedArgList` into the packed
recursion `visitA`. -/
def visitNamedArgList (x : NamedArgList) : List Event :=
  visitA (.namedArgList x)

/-- Dispatch wrapper for `visitOptionArgs` into the packed
recursion `visitA`. -/
def visitOptionArgs (x : OptionArgs) : List Event :=
  visitA (.optionArgs x)

/-- Dispatch wrapper for `visitExpr` into the packed
recursion `visitA`. -/
def visitExpr (x : Expr) : List Event :=
  visitA (.expr x)

/-- Dispatch wrapper for `visitExprList` into the packed
recursion `visitA`. -/
def visitExprList (x : ExprList) : List Event :=
  visitA (.exprList x)

/-- Dispatch wrapper for `visitKVTypes` into the packed
recursion `visitA`. -/
def visitKVTypes (x : KVTypes) : List Event :=
  visitA (.kvTypes x)

/-- Dispatch wrapper for `visitExprPairList` into the packed
recursion `visitA`. -/
def visitExprPairList (x : ExprPairList) : List Event :=
  visitA (.exprPairList x)

/-- Dispatch wrapper for `visitStringLiteral` into the packed
recursion `visitA`. -/
def visitStringLiteral (x : StringLiteral) : List Event :=
  visitA (.stringLiteral x)

/-- Dispatch wrapper for `visitInterpList` into the packed
recursion `visitA`. -/
def visitInterpList (x : InterpList) : List Event :=
  visitA (.interpList x)

/-- Dispatch wrapper for `visitStringLiteralList` into the packed
recursion `visitA`. -/
def visitStringLiteralList (x : StringLiteralList) : List Event :=
  visitA (.stringLiteralList x)

/-- Dispatch wrapper for `visitOptionStringLiteral` into the packed
recursion `visitA`. -/
def visitOptionStringLiteral (x : OptionStringLiteral) : List Event :=
  visitA (.optionStringLiteral x)

/-- Dispatch wrapper for `visitSuffix` into the packed
recursion `visitA`. -/
def visitSuffix (x : Suffix) : List Event :=
  visitA (.suffix x)

/-- Dispatch wrapper for `visitSuffixList` into the packed
recursion `visitA`. -/
def visitSuffixList (x : SuffixList) : List Event :=
  visitA (.suffixList x)

/-- Dispatch wrapper for `visitCascade` into the packed
recursion `visitA`. -/
def visitCascade (x : Cascade) : List Event :=
  visitA (.cascade x)

/-- Dispatch wrapper for `visitCascadeAssign` into the packed
recursion `visitA`. -/
def visitCascadeAssign (x : CascadeAssign) : List Event :=
  visitA (.cascadeAssign x)

/-- Dispatch wrapper for `visitStatement` into the packed
recursion `visitA`. -/
def visitStatement (x : Statement) : List Event :=
  visitA (.statement x)

/-- Dispatch wrapper for `visitForLoop` into the packed
recursion `visitA`. -/
def visitForLoop (x : ForLoop) : List Event :=
  visitA (.forLoop x)

/-- Dispatch wrapper for `visitStatements` into the packed
recursion `visitA`. -/
def visitStatements (x : StatementList) : List Event :=
  visitA (.statementList x)

/-- Dispatch wrapper for `visitOptionStatement` into the packed
recursion `visitA`. -/
def visitOptionStatement (x : OptionStatement) : List Event :=
  visitA (.optionStatement x)

/-- Dispatch wrapper for `visitSwitchCaseList` into the packed
recursion `visitA`. -/
def visitSwitchCaseList (x : SwitchCaseList) : List Event :=
  visitA (.switchCaseList x)

/-- Dispatch wrapper for `visitTryPart` into the packed
recursion `visitA`. -/
def visitTryPart (x : TryPart) : List Event :=
  visitA (.tryPart x)

/-- Dispatch wrapper for `visitTryPartList` into the packed
recursion `visitA`. -/
def visitTryPartList (x : TryPartList) : List Event :=
  visitA (.tryPartList x)

@[simp] theorem visitQualified_eq_1 :
    ∀ prefix_ name params,
    visitQualified (.mk prefix_ name params) = Event.dart_qualified (.mk prefix_ name params) :: (visitOptionQualified prefix_ ++ visitTypeList params) := by
  intro prefix_ name params
  dsimp only [visitQualified, visitOptionQualified, visitTypeList]
  rw [visitA_unfold]
  dsimp only [visitStep]

@[simp] theorem visitOptionQualified_eq_1 :
    visitOptionQualified (.none) = ([] : List Event) := by
  dsimp only [visitOptionQualified]
  rw [visitA_unfold]
  dsimp only [visitStep]

@[simp] theorem visitOptionQualified_eq_2 :
    ∀ q,
    visitOptionQualified (.some q) = visitQualified q := by
  intro q
  dsimp only [visitOptionQualified, visitQualified]
  rw [visitA_unfold]
  dsimp only [visitStep]

@[simp] theorem visitType_eq_1 :
    ∀ q,
    visitType (.Path q) = Event.dart_type (.Path q) :: visitQualified q := by
  intro q
  dsimp only [visitType, visitQualified]
  rw [visitA_unfold]
  dsimp only [visitStep]

@[simp] theorem visitType_eq_2 :
    ∀ sig,
    visitType (.FunctionOld sig) = Event.dart_type (.FunctionOld sig) :: visitFnSig sig := by
  intro sig
  dsimp only [visitType, visitFnSig]
  rw [visitA_unfold]
  dsimp only [visitStep]

@[simp] theorem visitType_eq_3 :
    ∀ sig,
    visitType (.Function sig) = Event.dart_type (.Function sig) :: visitFnSig sig := by
  intro sig
  dsimp only [visitType, visitFnSig]
  rw [visitA_unfold]
  dsimp only [visitStep]

@[simp] theorem visitType_eq_4 :
    visitType (.Infer) = [Event.dart_type .Infer] := by
  dsimp only [visitType]
  rw [visitA_unfold]
  dsimp only [visitStep]

@[simp] theorem visitOptionType_eq_1 :
    visitOptionType (.none) = ([] : List Event) := by
  dsimp only [visitOptionType]
  rw [visitA_unfold]
  dsimp only [visitStep]

@[simp] theorem visitOptionType_eq_2 :
    ∀ t,
    visitOptionType (.some t) = visitType t := by
  intro t
  dsimp only [visitOptionType, visitType]
  rw [visitA_unfold]
  dsimp only [visitStep]

@[simp] theorem visitTypeList_eq_1 :
    visitTypeList (.nil) = ([] : List Event) := by
  dsimp only [visitTypeList]
  rw [visitA_unfold]
  dsimp only [visitStep]

@[simp] theorem visitTypeList_eq_2 :
    ∀ t ts,
    visitTypeList (.cons t ts) = visitType t ++ visitTypeList ts := by
  intro t ts
  dsimp only [visitTypeList, visitType]
  rw [visitA_unfold]
  dsimp only [visitStep]

@[simp] theorem superGenerics_eq_1 :
    superGenerics (.nil) = ([] : List Event) := by
  dsimp only [superGenerics]
  rw [visitA_unfold]
  dsimp only [visitStep]

@[simp] theorem superGenerics_eq_2 :
    ∀ metadata name extends_ tps,
    superGenerics (.cons (.mk metadata name extends_) tps) = visitOptionQualified extends_ ++ superGenerics tps := by
  intro metadata name extends_ tps
  dsimp only [superGenerics, visitOptionQualified]
  rw [visitA_unfold]
  dsimp only [visitStep]

@[simp] theorem visitFunction_eq_1 :
    ∀ name generics sig body,
    visitFunction (.mk name generics sig body) = Event.dart_function (.mk name generics sig body) :: ((Event.dart_generics generics :: superGenerics generics) ++ visitFnSig sig ++ visitOptionFnBody body) := by
  intro name generics sig body
  dsimp only [visitFunction, superGenerics, visitFnSig, visitOptionFnBody]
  rw [visitA_unfold]
  dsimp only [visitStep]

@[simp] theorem visitFnSig_eq_1 :
    ∀ return_type required optional optional_kind async generator,
    visitFnSig (.mk return_type required optional optional_kind async generator) = Event.dart_fn_sig (.mk return_type required optional optional_kind async generator) :: (visitType return_type ++ visitArgDefList required ++ visitArgDefList optional) := by
  intro return_type required optional optional_kind async generator
  dsimp only [visitFnSig, visitArgDefList, visitType]
  rw [visitA_unfold]
  dsimp only [visitStep]

@[simp] theorem visitArgDefList_eq_1 :
    visitArgDefList (.nil) = ([] : List Event) := by
  dsimp only [visitArgDefList]
  rw [visitA_unfold]
  dsimp only [visitStep]

@[simp] theorem visitArgDefList_eq_2 :
    ∀ metadata covariant fcv ty field var rest,
    visitArgDefList (.cons (.mk metadata covariant (.mk fcv ty) field var) rest) = visitType ty ++ visitVarDef var ++ visitArgDefList rest := by
  intro metadata covariant fcv ty field var rest
  dsimp only [visitArgDefList, visitType, visitVarDef]
  rw [visitA_unfold]
  dsimp only [visitStep]

@[simp] theorem visitFnBody_eq_1 :
    ∀ e,
    visitFnBody (.Arrow e) = Event.dart_fn_body (.Arrow e) :: visitExpr e := by
  intro e
  dsimp only [visitFnBody, visitExpr]
  rw [visitA_unfold]
  dsimp only [visitStep]

@[simp] theorem visitFnBody_eq_2 :
    ∀ st,
    visitFnBody (.Block st) = Event.dart_fn_body (.Block st) :: visitStatement st := by
  intro st
  dsimp only [visitFnBody, visitStatement]
  rw [visitA_unfold]
  dsimp only [visitStep]

@[simp] theorem visitFnBody_eq_3 :
    ∀ osl,
    visitFnBody (.Native osl) = Event.dart_fn_body (.Native osl) :: visitOptionStringLiteral osl := by
  intro osl
  dsimp only [visitFnBody, visitOptionStringLiteral]
  rw [visitA_unfold]
  dsimp only [visitStep]

@[simp] theorem visitOptionFnBody_eq_1 :
    visitOptionFnBody (.none) = ([] : List Event) := by
  dsimp only [visitOptionFnBody]
  rw [visitA_unfold]
  dsimp only [visitStep]

@[simp] theorem visitOptionFnBody_eq_2 :
    ∀ b,
    visitOptionFnBody (.some b) = visitFnBody b := by
  intro b
  dsimp only [visitOptionFnBody, visitFnBody]
  rw [visitA_unfold]
  dsimp only [visitStep]

@[simp] theorem visitVarDef_eq_1 :
    ∀ name init,
    visitVarDef (.mk name init) = Event.dart_var_def (.mk name init) :: visitOptionInit init := by
  intro name init
  dsimp only [visitVarDef, visitOptionInit]
  rw [visitA_unfold]
  dsimp only [visitStep]

@[simp] theorem visitOptionInit_eq_1 :
    visitOptionInit (.none) = ([] : List Event) := by
  dsimp only [visitOptionInit]
  rw [visitA_unfold]
  dsimp only [visitStep]

@[simp] theorem visitOptionInit_eq_2 :
    ∀ e,
    visitOptionInit (.some e) = visitExpr e := by
  intro e
  dsimp only [visitOptionInit, visitExpr]
  rw [visitA_unfold]
  dsimp only [visitStep]

@[simp] theorem visitVarDefList_eq_1 :
    visitVarDefList (.nil) = ([] : List Event) := by
  dsimp only [visitVarDefList]
  rw [visitA_unfold]
  dsimp only [visitStep]

@[simp] theorem visitVarDefList_eq_2 :
    ∀ v vs,
    visitVarDefList (.cons v vs) = visitVarDef v ++ visitVarDefList vs := by
  intro v vs
  dsimp only [visitVarDefList, visitVarDef]
  rw [visitA_unfold]
  dsimp only [visitStep]

@[simp] theorem superMeta_eq_1 :
    superMeta (.nil) = ([] : List Event) := by
  dsimp only [superMeta]
  rw [visitA_unfold]
  dsimp only [visitStep]

@[simp] theorem superMeta_eq_2 :
    ∀ qualified arguments ms,
    superMeta (.cons (.mk qualified arguments) ms) = visitQualified qualified ++ visitOptionArgs arguments ++ superMeta ms := by
  intro qualified arguments ms
  dsimp only [superMeta, visitOptionArgs, visitQualified]
  rw [visitA_unfold]
  dsimp only [visitStep]

@[simp] theorem visitArgs_eq_1 :
    ∀ unnamed named,
    visitArgs (.mk unnamed named) = Event.dart_args (.mk unnamed named) :: (visitExprList unnamed ++ visitNamedArgList named) := by
  intro unnamed named
  dsimp only [visitArgs, visitExprList, visitNamedArgList]
  rw [visitA_unfold]
  dsimp only [visitStep]

@[simp] theorem visitNamedArgList_eq_1 :
    visitNamedArgList (.nil) = ([] : List Event) := by
  dsimp only [visitNamedArgList]
  rw [visitA_unfold]
  dsimp only [visitStep]

@[simp] theorem visitNamedArgList_eq_2 :
    ∀ name expr ns,
    visitNamedArgList (.cons (.mk name expr) ns) = visitExpr expr ++ visitNamedArgList ns := by
  intro name expr ns
  dsimp only [visitNamedArgList, visitExpr]
  rw [visitA_unfold]
  dsimp only [visitStep]

@[simp] theorem visitOptionArgs_eq_1 :
    visitOptionArgs (.none) = ([] : List Event) := by
  dsimp only [visitOptionArgs]
  rw [visitA_unfold]
  dsimp only [visitStep]

@[simp] theorem visitOptionArgs_eq_2 :
    ∀ a,
    visitOptionArgs (.some a) = visitArgs a := by
  intro a
  dsimp only [visitOptionArgs, visitArgs]
  rw [visitA_unfold]
  dsimp only [visitStep]

@[simp] theorem visitExpr_eq_1 :
    ∀ op e,
    visitExpr (.Unary op e) = Event.dart_expr (.Unary op e) :: visitExpr e := by
  intro op e
  dsimp only [visitExpr]
  rw [visitA_unfold]
  dsimp only [visitStep]

@[simp] theorem visitExpr_eq_2 :
    ∀ op a b,
    visitExpr (.Binary op a b) = Event.dart_expr (.Binary op a b) :: (visitExpr a ++ visitExpr b) := by
  intro op a b
  dsimp only [visitExpr]
  rw [visitA_unfold]
  dsimp only [visitStep]

@[simp] theorem visitExpr_eq_3 :
    ∀ a b c,
    visitExpr (.Conditional a b c) = Event.dart_expr (.Conditional a b c) :: (visitExpr a ++ visitExpr b ++ visitExpr c) := by
  intro a b c
  dsimp only [visitExpr]
  rw [visitA_unfold]
  dsimp only [visitStep]

@[simp] theorem visitExpr_eq_4 :
    ∀ e ty,
    visitExpr (.Is e ty) = Event.dart_expr (.Is e ty) :: (visitExpr e ++ visitType ty) := by
  intro e ty
  dsimp only [visitExpr, visitType]
  rw [visitA_unfold]
  dsimp only [visitStep]

@[simp] theorem visitExpr_eq_5 :
    ∀ e ty,
    visitExpr (.IsNot e ty) = Event.dart_expr (.IsNot e ty) :: (visitExpr e ++ visitType ty) := by
  intro e ty
  dsimp only [visitExpr, visitType]
  rw [visitA_unfold]
  dsimp only [visitStep]

@[simp] theorem visitExpr_eq_6 :
    ∀ e ty,
    visitExpr (.As e ty) = Event.dart_expr (.As e ty) :: (visitExpr e ++ visitType ty) := by
  intro e ty
  dsimp only [visitExpr, visitType]
  rw [visitA_unfold]
  dsimp only [visitStep]

@[simp] theorem visitExpr_eq_7 :
    ∀ e sfx,
    visitExpr (.Suffix e sfx) = Event.dart_expr (.Suffix e sfx) :: (visitExpr e ++ visitSuffix sfx) := by
  intro e sfx
  dsimp only [visitExpr, visitSuffix]
  rw [visitA_unfold]
  dsimp only [visitStep]

@[simp] theorem visitExpr_eq_8 :
    ∀ s,
    visitExpr (.Identifier s) = [Event.dart_expr (.Identifier s)] := by
  intro s
  dsimp only [visitExpr]
  rw [visitA_unfold]
  dsimp only [visitStep]

@[simp] theorem visitExpr_eq_9 :
    ∀ sig body,
    visitExpr (.Closure sig body) = Event.dart_expr (.Closure sig body) :: (visitFnSig sig ++ visitFnBody body) := by
  intro sig body
  dsimp only [visitExpr, visitFnBody, visitFnSig]
  rw [visitA_unfold]
  dsimp only [visitStep]

@[simp] theorem visitExpr_eq_10 :
    ∀ const_ path args_,
    visitExpr (.New const_ path args_) = Event.dart_expr (.New const_ path args_) :: (visitQualified path ++ visitArgs args_) := by
  intro const_ path args_
  dsimp only [visitExpr, visitArgs, visitQualified]
  rw [visitA_unfold]
  dsimp only [visitStep]

@[simp] theorem visitExpr_eq_11 :
    ∀ const_ element_ty elements,
    visitExpr (.List const_ element_ty elements) = Event.dart_expr (.List const_ element_ty elements) :: (visitOptionType element_ty ++ visitExprList elements) := by
  intro const_ element_ty elements
  dsimp only [visitExpr, visitExprList, visitOptionType]
  rw [visitA_unfold]
  dsimp only [visitStep]

@[simp] theorem visitExpr_eq_12 :
    ∀ const_ kv_ty kv,
    visitExpr (.Map const_ kv_ty kv) = Event.dart_expr (.Map const_ kv_ty kv) :: (visitKVTypes kv_ty ++ visitExprPairList kv) := by
  intro const_ kv_ty kv
  dsimp only [visitExpr, visitExprPairList, visitKVTypes]
  rw [visitA_unfold]
  dsimp only [visitStep]

@[simp] theorem visitExpr_eq_13 :
    ∀ n,
    visitExpr (.Number n) = [Event.dart_expr (.Number n)] := by
  intro n
  dsimp only [visitExpr]
  rw [visitA_unfold]
  dsimp only [visitStep]

@[simp] theorem visitExpr_eq_14 :
    ∀ literals,
    visitExpr (.String literals) = Event.dart_expr (.String literals) :: visitStringLiteralList literals := by
  intro literals
  dsimp only [visitExpr, visitStringLiteralList]
  rw [visitA_unfold]
  dsimp only [visitStep]

@[simp] theorem visitExpr_eq_15 :
    ∀ sl,
    visitExpr (.Symbol sl) = [Event.dart_expr (.Symbol sl)] := by
  intro sl
  dsimp only [visitExpr]
  rw [visitA_unfold]
  dsimp only [visitStep]

@[simp] theorem visitExpr_eq_16 :
    ∀ e,
    visitExpr (.Paren e) = Event.dart_expr (.Paren e) :: visitExpr e := by
  intro e
  dsimp only [visitExpr]
  rw [visitA_unfold]
  dsimp only [visitStep]

@[simp] theorem visitExpr_eq_17 :
    ∀ e,
    visitExpr (.Throw e) = Event.dart_expr (.Throw e) :: visitExpr e := by
  intro e
  dsimp only [visitExpr]
  rw [visitA_unfold]
  dsimp only [visitStep]

@[simp] theorem visitExpr_eq_18 :
    ∀ e casc,
    visitExpr (.Cascade e casc) = Event.dart_expr (.Cascade e casc) :: (visitExpr e ++ visitCascade casc) := by
  intro e casc
  dsimp only [visitExpr, visitCascade]
  rw [visitA_unfold]
  dsimp only [visitStep]

@[simp] theorem visitExprList_eq_1 :
    visitExprList (.nil) = ([] : List Event) := by
  dsimp only [visitExprList]
  rw [visitA_unfold]
  dsimp only [visitStep]

@[simp] theorem visitExprList_eq_2 :
    ∀ e es,
    visitExprList (.cons e es) = visitExpr e ++ visitExprList es := by
  intro e es
  dsimp only [visitExprList, visitExpr]
  rw [visitA_unfold]
  dsimp only [visitStep]

@[simp] theorem visitKVTypes_eq_1 :
    visitKVTypes (.none) = ([] : List Event) := by
  dsimp only [visitKVTypes]
  rw [visitA_unfold]
  dsimp only [visitStep]

@[simp] theorem visitKVTypes_eq_2 :
    ∀ k v,
    visitKVTypes (.some k v) = visitType k ++ visitType v := by
  intro k v
  dsimp only [visitKVTypes, visitType]
  rw [visitA_unfold]
  dsimp only [visitStep]

@[simp] theorem visitExprPairList_eq_1 :
    visitExprPairList (.nil) = ([] : List Event) := by
  dsimp only [visitExprPairList]
  rw [visitA_unfold]
  dsimp only [visitStep]

@[simp] theorem visitExprPairList_eq_2 :
    ∀ k v rest,
    visitExprPairList (.cons k v rest) = visitExpr k ++ visitExpr v ++ visitExprPairList rest := by
  intro k v rest
  dsimp only [visitExprPairList, visitExpr]
  rw [visitA_unfold]
  dsimp only [visitStep]

@[simp] theorem visitStringLiteral_eq_1 :
    ∀ raw triple quote prefix_ interpolated,
    visitStringLiteral (.mk raw triple quote prefix_ interpolated) = Event.dart_string_literal (.mk raw triple quote prefix_ interpolated) :: visitInterpList interpolated := by
  intro raw triple quote prefix_ interpolated
  dsimp only [visitStringLiteral, visitInterpList]
  rw [visitA_unfold]
  dsimp only [visitStep]

@[simp] theorem visitInterpList_eq_1 :
    visitInterpList (.nil) = ([] : List Event) := by
  dsimp only [visitInterpList]
  rw [visitA_unfold]
  dsimp only [visitStep]

@[simp] theorem visitInterpList_eq_2 :
    ∀ e sp rest,
    visitInterpList (.cons e sp rest) = visitExpr e ++ visitInterpList rest := by
  intro e sp rest
  dsimp only [visitInterpList, visitExpr]
  rw [visitA_unfold]
  dsimp only [visitStep]

@[simp] theorem visitStringLiteralList_eq_1 :
    visitStringLiteralList (.nil) = ([] : List Event) := by
  dsimp only [visitStringLiteralList]
  rw [visitA_unfold]
  dsimp only [visitStep]

@[simp] theorem visitStringLiteralList_eq_2 :
    ∀ sl sls,
    visitStringLiteralList (.cons sl sls) = visitStringLiteral sl ++ visitStringLiteralList sls := by
  intro sl sls
  dsimp only [visitStringLiteralList, visitStringLiteral]
  rw [visitA_unfold]
  dsimp only [visitStep]

@[simp] theorem visitOptionStringLiteral_eq_1 :
    visitOptionStringLiteral (.none) = ([] : List Event) := by
  dsimp only [visitOptionStringLiteral]
  rw [visitA_unfold]
  dsimp only [visitStep]

@[simp] theorem visitOptionStringLiteral_eq_2 :
    ∀ sl,
    visitOptionStringLiteral (.some sl) = visitStringLiteral sl := by
  intro sl
  dsimp only [visitOptionStringLiteral, visitStringLiteral]
  rw [visitA_unfold]
  dsimp only [visitStep]

@[simp] theorem visitSuffix_eq_1 :
    ∀ e,
    visitSuffix (.Index e) = Event.dart_suffix (.Index e) :: visitExpr e := by
  intro e
  dsimp only [visitSuffix, visitExpr]
  rw [visitA_unfold]
  dsimp only [visitStep]

@[simp] theorem visitSuffix_eq_2 :
    ∀ name,
    visitSuffix (.Field name) = [Event.dart_suffix (.Field name)] := by
  intro name
  dsimp only [visitSuffix]
  rw [visitA_unfold]
  dsimp only [visitStep]

@[simp] theorem visitSuffix_eq_3 :
    ∀ name,
    visitSuffix (.FieldIfNotNull name) = [Event.dart_suffix (.FieldIfNotNull name)] := by
  intro name
  dsimp only [visitSuffix]
  rw [visitA_unfold]
  dsimp only [visitStep]

@[simp] theorem visitSuffix_eq_4 :
    ∀ types args_,
    visitSuffix (.Call types args_) = Event.dart_suffix (.Call types args_) :: (visitTypeList types ++ visitArgs args_) := by
  intro types args_
  dsimp only [visitSuffix, visitArgs, visitTypeList]
  rw [visitA_unfold]
  dsimp only [visitStep]

@[simp] theorem visitSuffixList_eq_1 :
    visitSuffixList (.nil) = ([] : List Event) := by
  dsimp only [visitSuffixList]
  rw [visitA_unfold]
  dsimp only [visitStep]

@[simp] theorem visitSuffixList_eq_2 :
    ∀ sfx ss,
    visitSuffixList (.cons sfx ss) = visitSuffix sfx ++ visitSuffixList ss := by
  intro sfx ss
  dsimp only [visitSuffixList, visitSuffix]
  rw [visitA_unfold]
  dsimp only [visitStep]

@[simp] theorem visitCascade_eq_1 :
    ∀ suffixes assign,
    visitCascade (.mk suffixes assign) = visitSuffixList suffixes ++ visitCascadeAssign assign := by
  intro suffixes assign
  dsimp only [visitCascade, visitCascadeAssign, visitSuffixList]
  rw [visitA_unfold]
  dsimp only [visitStep]

@[simp] theorem visitCascadeAssign_eq_1 :
    visitCascadeAssign (.none) = ([] : List Event) := by
  dsimp only [visitCascadeAssign]
  rw [visitA_unfold]
  dsimp only [visitStep]

@[simp] theorem visitCascadeAssign_eq_2 :
    ∀ op e,
    visitCascadeAssign (.some op e) = visitExpr e := by
  intro op e
  dsimp only [visitCascadeAssign, visitExpr]
  rw [visitA_unfold]
  dsimp only [visitStep]

@[simp] theorem visitStatement_eq_1 :
    ∀ statements,
    visitStatement (.Block statements) = Event.dart_statement (.Block statements) :: Event.dart_block statements :: visitStatements statements := by
  intro statements
  dsimp only [visitStatement, visitStatements]
  rw [visitA_unfold]
  dsimp only [visitStep]

@[simp] theorem visitStatement_eq_2 :
    ∀ fcv ty vars,
    visitStatement (.Vars (.mk fcv ty) vars) = Event.dart_statement (.Vars (.mk fcv ty) vars) :: (visitType ty ++ visitVarDefList vars) := by
  intro fcv ty vars
  dsimp only [visitStatement, visitType, visitVarDefList]
  rw [visitA_unfold]
  dsimp only [visitStep]

@[simp] theorem visitStatement_eq_3 :
    ∀ f,
    visitStatement (.Function f) = Event.dart_statement (.Function f) :: visitFunction f := by
  intro f
  dsimp only [visitStatement, visitFunction]
  rw [visitA_unfold]
  dsimp only [visitStep]

@[simp] theorem visitStatement_eq_4 :
    ∀ await_ loop body,
    visitStatement (.For await_ loop body) = Event.dart_statement (.For await_ loop body) :: (visitForLoop loop ++ visitStatement body) := by
  intro await_ loop body
  dsimp only [visitStatement, visitForLoop]
  rw [visitA_unfold]
  dsimp only [visitStep]

@[simp] theorem visitStatement_eq_5 :
    ∀ cond body,
    visitStatement (.While cond body) = Event.dart_statement (.While cond body) :: (visitExpr cond ++ visitStatement body) := by
  intro cond body
  dsimp only [visitStatement, visitExpr]
  rw [visitA_unfold]
  dsimp only [visitStep]

@[simp] theorem visitStatement_eq_6 :
    ∀ body cond,
    visitStatement (.DoWhile body cond) = Event.dart_statement (.DoWhile body cond) :: (visitStatement body ++ visitExpr cond) := by
  intro body cond
  dsimp only [visitStatement, visitExpr]
  rw [visitA_unfold]
  dsimp only [visitStep]

@[simp] theorem visitStatement_eq_7 :
    ∀ e cs,
    visitStatement (.Switch e cs) = Event.dart_statement (.Switch e cs) :: (visitExpr e ++ visitSwitchCaseList cs) := by
  intro e cs
  dsimp only [visitStatement, visitExpr, visitSwitchCaseList]
  rw [visitA_unfold]
  dsimp only [visitStep]

@[simp] theorem visitStatement_eq_8 :
    ∀ cond then_ else_,
    visitStatement (.If cond then_ else_) = Event.dart_statement (.If cond then_ else_) :: (visitExpr cond ++ visitStatement then_ ++ visitOptionStatement else_) := by
  intro cond then_ else_
  dsimp only [visitStatement, visitExpr, visitOptionStatement]
  rw [visitA_unfold]
  dsimp only [visitStep]

@[simp] theorem visitStatement_eq_9 :
    visitStatement (.Rethrow) = [Event.dart_statement .Rethrow] := by
  dsimp only [visitStatement]
  rw [visitA_unfold]
  dsimp only [visitStep]

@[simp] theorem visitStatement_eq_10 :
    ∀ block parts,
    visitStatement (.Try block parts) = Event.dart_statement (.Try block parts) :: (visitStatement block ++ visitTryPartList parts) := by
  intro block parts
  dsimp only [visitStatement, visitTryPartList]
  rw [visitA_unfold]
  dsimp only [visitStep]

@[simp] theorem visitStatement_eq_11 :
    ∀ label,
    visitStatement (.Break label) = [Event.dart_statement (.Break label)] := by
  intro label
  dsimp only [visitStatement]
  rw [visitA_unfold]
  dsimp only [visitStep]

@[simp] theorem visitStatement_eq_12 :
    ∀ label,
    visitStatement (.Continue label) = [Event.dart_statement (.Continue label)] := by
  intro label
  dsimp only [visitStatement]
  rw [visitA_unfold]
  dsimp only [visitStep]

@[simp] theorem visitStatement_eq_13 :
    ∀ e,
    visitStatement (.Return e) = Event.dart_statement (.Return e) :: visitOptionInit e := by
  intro e
  dsimp only [visitStatement, visitOptionInit]
  rw [visitA_unfold]
  dsimp only [visitStep]

@[simp] theorem visitStatement_eq_14 :
    ∀ e,
    visitStatement (.Yield e) = Event.dart_statement (.Yield e) :: visitExpr e := by
  intro e
  dsimp only [visitStatement, visitExpr]
  rw [visitA_unfold]
  dsimp only [visitStep]

@[simp] theorem visitStatement_eq_15 :
    ∀ e,
    visitStatement (.YieldEach e) = Event.dart_statement (.YieldEach e) :: visitExpr e := by
  intro e
  dsimp only [visitStatement, visitExpr]
  rw [visitA_unfold]
  dsimp only [visitStep]

@[simp] theorem visitStatement_eq_16 :
    ∀ e,
    visitStatement (.Expression e) = Event.dart_statement (.Expression e) :: visitOptionInit e := by
  intro e
  dsimp only [visitStatement, visitOptionInit]
  rw [visitA_unfold]
  dsimp only [visitStep]

@[simp] theorem visitStatement_eq_17 :
    ∀ args_,
    visitStatement (.Assert args_) = Event.dart_statement (.Assert args_) :: visitArgs args_ := by
  intro args_
  dsimp only [visitStatement, visitArgs]
  rw [visitA_unfold]
  dsimp only [visitStep]

@[simp] theorem visitStatement_eq_18 :
    ∀ label st,
    visitStatement (.Labelled label st) = Event.dart_statement (.Labelled label st) :: visitStatement st := by
  intro label st
  dsimp only [visitStatement]
  rw [visitA_unfold]
  dsimp only [visitStep]

@[simp] theorem visitForLoop_eq_1 :
    ∀ init cond updates,
    visitForLoop (.CLike init cond updates) = visitStatement init ++ visitOptionInit cond ++ visitExprList updates := by
  intro init cond updates
  dsimp only [visitForLoop, visitExprList, visitOptionInit, visitStatement]
  rw [visitA_unfold]
  dsimp only [visitStep]

@[simp] theorem visitForLoop_eq_2 :
    ∀ name e,
    visitForLoop (.In name e) = visitExpr e := by
  intro name e
  dsimp only [visitForLoop, visitExpr]
  rw [visitA_unfold]
  dsimp only [visitStep]

@[simp] theorem visitForLoop_eq_3 :
    ∀ fcv ty var e,
    visitForLoop (.InVar (.mk fcv ty) var e) = visitType ty ++ visitVarDef var ++ visitExpr e := by
  intro fcv ty var e
  dsimp only [visitForLoop, visitExpr, visitType, visitVarDef]
  rw [visitA_unfold]
  dsimp only [visitStep]

@[simp] theorem visitStatements_eq_1 :
    visitStatements (.nil) = ([] : List Event) := by
  dsimp only [visitStatements]
  rw [visitA_unfold]
  dsimp only [visitStep]

@[simp] theorem visitStatements_eq_2 :
    ∀ st sts,
    visitStatements (.cons st sts) = visitStatement st ++ visitStatements sts := by
  intro st sts
  dsimp only [visitStatements, visitStatement]
  rw [visitA_unfold]
  dsimp only [visitStep]

@[simp] theorem visitOptionStatement_eq_1 :
    visitOptionStatement (.none) = ([] : List Event) := by
  dsimp only [visitOptionStatement]
  rw [visitA_unfold]
  dsimp only [visitStep]

@[simp] theorem visitOptionStatement_eq_2 :
    ∀ st,
    visitOptionStatement (.some st) = visitStatement st := by
  intro st
  dsimp only [visitOptionStatement, visitStatement]
  rw [visitA_unfold]
  dsimp only [visitStep]

@[simp] theorem visitSwitchCaseList_eq_1 :
    visitSwitchCaseList (.nil) = ([] : List Event) := by
  dsimp only [visitSwitchCaseList]
  rw [visitA_unfold]
  dsimp only [visitStep]

@[simp] theorem visitSwitchCaseList_eq_2 :
    ∀ labels value statements cs,
    visitSwitchCaseList (.cons (.mk labels value statements) cs) = visitOptionInit value ++ visitStatements statements ++ visitSwitchCaseList cs := by
  intro labels value statements cs
  dsimp only [visitSwitchCaseList, visitOptionInit, visitStatements]
  rw [visitA_unfold]
  dsimp only [visitStep]

@[simp] theorem visitTryPart_eq_1 :
    ∀ on_ catch_ block,
    visitTryPart (.mk on_ catch_ block) = Event.dart_try_part (.mk on_ catch_ block) :: (visitOptionType on_ ++ visitStatement block) := by
  intro on_ catch_ block
  dsimp only [visitTryPart, visitOptionType, visitStatement]
  rw [visitA_unfold]
  dsimp only [visitStep]

@[simp] theorem visitTryPartList_eq_1 :
    visitTryPartList (.nil) = ([] : List Event) := by
  dsimp only [visitTryPartList]
  rw [visitA_unfold]
  dsimp only [visitStep]

@[simp] theorem visitTryPartList_eq_2 :
    ∀ p ps,
    visitTryPartList (.cons p ps) = visitTryPart p ++ visitTryPartList ps := by
  intro p ps
  dsimp only [visitTryPartList, visitTryPart]
  rw [visitA_unfold]
  dsimp only [visitStep]

/-- Trace of `[Node<TypeParameter>]::visit` (`visit.rs` lines 311-322):
the `dart_generics` hook, then the structural recursion. -/
def visitGenerics (g : TypeParameterList) : List Event :=
  Event.dart_generics g :: superGenerics g

/-- Trace of `Meta::visit` (`visit.rs` lines 275-295): the `dart_meta`
hook, then the structural recursion. -/
def visitMeta (ml : MetadataList) : List Event :=
  Event.dart_meta ml :: superMeta ml

/-- Trace of `[Node<Statement>]::visit` (`visit.rs` lines 505-514): the
`dart_block` hook, then each statement. -/
def visitBlock (sts : StatementList) : List Event :=
  Event.dart_block sts :: visitStatements sts

/-- Trace of `ConstructorInitializer::visit` (`visit.rs` lines
257-273). -/
def visitConstructorInitializer : ConstructorInitializer → List Event
  | .Super name args =>
    Event.dart_constructor_initializer (.Super name args) :: visitArgs args
  | .This name args =>
    Event.dart_constructor_initializer (.This name args) :: visitArgs args
  | .Assert args =>
    Event.dart_constructor_initializer (.Assert args) :: visitArgs args
  | .Field this_ name e =>
    Event.dart_constructor_initializer (.Field this_ name e) :: visitExpr e

/-- `for initializer in initializers { initializer.visit(visitor) }`. -/
def visitConstructorInitializerList :
    List ConstructorInitializer → List Event
  | [] => []
  | ci :: cis =>
    visitConstructorInitializer ci ++ visitConstructorInitializerList cis

/-- Trace of `ClassMember::visit` (`visit.rs` lines 205-255).
`Redirect` visits its metadata, signature and redirect type (`ty` in
`ast.rs`, where `visit.rs` names it `path`). -/
def visitClassMember : ClassMember → List Event
  | .Redirect metadata mq name sig ty =>
    Event.dart_class_member (.Redirect metadata mq name sig ty)
      :: (visitMeta metadata ++ visitFnSig sig ++ visitType ty)
  | .Constructor metadata mq name sig initializers function_body =>
    Event.dart_class_member
        (.Constructor metadata mq name sig initializers function_body)
      :: (visitMeta metadata ++ visitFnSig sig
            ++ visitConstructorInitializerList initializers
            ++ visitOptionFnBody function_body)
  | .Method metadata q f =>
    Event.dart_class_member (.Method metadata q f)
      :: (visitMeta metadata ++ visitFunction f)
  | .Fields metadata static_ (.mk fcv ty) initializers =>
    Event.dart_class_member
        (.Fields metadata static_ (.mk fcv ty) initializers)
      :: (visitMeta metadata ++ visitType ty
            ++ visitVarDefList initializers)

/-- `for member in members { member.visit(visitor) }`. -/
def visitClassMemberList : List ClassMember → List Event
  | [] => []
  | m :: ms => visitClassMember m ++ visitClassMemberList ms

/-- `for mixin in mixins { mixin.visit(visitor) }` (also interfaces). -/
def visitQualifiedList : List Qualified → List Event
  | [] => []
  | q :: qs => visitQualified q ++ visitQualifiedList qs

mutual

/-- Trace of `Module::visit` (`visit.rs` lines 88-98): the `dart_module`
hook, then each item. -/
def visitModule : Module → List Event
  | .mk path items has_error =>
    Event.dart_module (.mk path items has_error) :: visitItemList items

/-- Trace of `Item::visit` (`visit.rs` lines 100-203). -/
def visitItem : Item → List Event
  | .LibraryName metadata path =>
    Event.dart_item (.LibraryName metadata path) :: visitMeta metadata
  | .Import metadata import_ =>
    Event.dart_item (.Import metadata import_)
      :: (visitMeta metadata ++ visitStringLiteral import_.uri)
  | .Export metadata uri filters =>
    Event.dart_item (.Export metadata uri filters)
      :: (visitMeta metadata ++ visitStringLiteral uri)
  | .Part metadata uri module =>
    Event.dart_item (.Part metadata uri module)
      :: (visitMeta metadata ++ visitStringLiteral uri
            ++ visitModule module)
  | .PartOf metadata path =>
    Event.dart_item (.PartOf metadata path) :: visitMeta metadata
  | .Class metadata abstract_ name generics superclass mixins interfaces
      members =>
    Event.dart_item
        (.Class metadata abstract_ name generics superclass mixins
          interfaces members)
      :: (visitMeta metadata ++ visitGenerics generics
            ++ visitOptionQualified superclass ++ visitQualifiedList mixins
            ++ visitQualifiedList interfaces
            ++ visitClassMemberList members)
  | .MixinClass metadata abstract_ name generics mixins interfaces =>
    Event.dart_item
        (.MixinClass metadata abstract_ name generics mixins interfaces)
      :: (visitMeta metadata ++ visitGenerics generics
            ++ visitQualifiedList mixins ++ visitQualifiedList interfaces)
  | .Enum metadata name values =>
    Event.dart_item (.Enum metadata name values) :: visitMeta metadata
  | .TypeAlias metadata name generics ty =>
    Event.dart_item (.TypeAlias metadata name generics ty)
      :: (visitMeta metadata ++ visitGenerics generics ++ visitType ty)
  | .Function f => Event.dart_item (.Function f) :: visitFunction f
  | .Vars (.mk fcv ty) vars =>
    Event.dart_item (.Vars (.mk fcv ty) vars)
      :: (visitType ty ++ visitVarDefList vars)

/-- `for item in &module.items { item.visit(visitor) }`. -/
def visitItemList : ItemList → List Event
  | .nil => []
  | .cons i rest => visitItem i ++ visitItemList rest

end

/-- C6: default traversal is pre-order (a node's own hook event heads its
trace, before any child's) and follows declaration order within a node:
a `Class` item's structural recursion visits its metadata, generic
parameters, optional superclass, mixins, interfaces, then members, in that
fixed order; a `Try` statement visits the protected block and then each
catch clause in order, a catch clause contributing its guard type and then
its body (its exception/trace binders are plain symbols with no hook). -/
theorem visit_preorder_fixed_order :
    (∀ i : Item, (visitItem i).head? = Option.some (Event.dart_item i)) ∧
    (∀ st : Statement,
      (visitStatement st).head? = Option.some (Event.dart_statement st)) ∧
    (∀ e : Expr, (visitExpr e).head? = Option.some (Event.dart_expr e)) ∧
    (∀ metadata abstract_ name generics superclass mixins interfaces
        members,
      visitItem
          (.Class metadata abstract_ name generics superclass mixins
            interfaces members) =
        Event.dart_item
            (.Class metadata abstract_ name generics superclass mixins
              interfaces members)
          :: (visitMeta metadata ++ visitGenerics generics
                ++ visitOptionQualified superclass
                ++ visitQualifiedList mixins
                ++ visitQualifiedList interfaces
                ++ visitClassMemberList members)) ∧
    (∀ block parts,
      visitStatement (.Try block parts) =
        Event.dart_statement (.Try block parts)
          :: (visitStatement block ++ visitTryPartList parts)) ∧
    (∀ p ps,
      visitTryPartList (.cons p ps) =
        visitTryPart p ++ visitTryPartList ps) ∧
    (∀ on_ catch_ blk,
      visitTryPart (.mk on_ catch_ blk) =
        Event.dart_try_part (.mk on_ catch_ blk)
          :: (visitOptionType on_ ++ visitStatement blk)) := by
  refine ⟨?_, ?_, ?_, ?_, ?_, ?_, ?_⟩
  · intro i
    cases i with
    | Vars vt vars => cases vt with | mk fcv ty => simp [visitItem]
    | _ => simp [visitItem]
  · intro st
    cases st with
    | Vars vt vars => cases vt with | mk fcv ty => simp
    | _ => simp
  · intro e
    cases e <;> simp
  · intro metadata abstract_ name generics superclass mixins interfaces
      members
    simp [visitItem]
  · intro block parts
    simp
  · intro p ps
    simp
  · intro on_ catch_ blk
    simp

/-! ### Totality and boundedness of the default traversal (C7)

Every traversal function above is a total structural recursion accepted by
Lean's termination checker, and the trace it produces is bounded by the
size of the tree: hook-bearing nodes satisfy `length ≤ sizeOf`, helper
loops/options the strict `length < sizeOf`. -/

set_option maxHeartbeats 3200000 in
mutual

theorem visitQualified_len : ∀ q : Qualified,
    (visitQualified q).length ≤ sizeOf q
  | .mk prefix_ name params => by
    have h1 := visitOptionQualified_len prefix_
    have h2 := visitTypeList_len params
    simp <;> omega

theorem visitOptionQualified_len : ∀ o : OptionQualified,
    (visitOptionQualified o).length < sizeOf o
  | .none => by simp <;> omega
  | .some q => by
    have h1 := visitQualified_len q
    simp <;> omega

theorem visitType_len : ∀ t : DartType, (visitType t).length ≤ sizeOf t
  | .Path q => by
    have h1 := visitQualified_len q
    simp <;> omega
  | .FunctionOld sig => by
    have h1 := visitFnSig_len sig
    simp <;> omega
  | .Function sig => by
    have h1 := visitFnSig_len sig
    simp <;> omega
  | .Infer => by simp <;> omega

theorem visitOptionType_len : ∀ o : OptionDartType,
    (visitOptionType o).length < sizeOf o
  | .none => by simp <;> omega
  | .some t => by
    have h1 := visitType_len t
    simp <;> omega

theorem visitTypeList_len : ∀ l : TypeList,
    (visitTypeList l).length < sizeOf l
  | .nil => by simp <;> omega
  | .cons t ts => by
    have h1 := visitType_len t
    have h2 := visitTypeList_len ts
    simp <;> omega

theorem superGenerics_len : ∀ g : TypeParameterList,
    (superGenerics g).length < sizeOf g
  | .nil => by simp <;> omega
  | .cons (.mk metadata name extends_) tps => by
    have h1 := visitOptionQualified_len extends_
    have h2 := superGenerics_len tps
    simp <;> omega

theorem visitFunction_len : ∀ f : Function,
    (visitFunction f).length ≤ sizeOf f
  | .mk name generics sig body => by
    have h1 := superGenerics_len generics
    have h2 := visitFnSig_len sig
    have h3 := visitOptionFnBody_len body
    simp [visitGenerics] <;> omega

theorem visitFnSig_len : ∀ sig : FnSig,
    (visitFnSig sig).length ≤ sizeOf sig
  | .mk return_type required optional optional_kind async generator => by
    have h1 := visitType_len return_type
    have h2 := visitArgDefList_len required
    have h3 := visitArgDefList_len optional
    simp <;> omega

theorem visitArgDefList_len : ∀ l : ArgDefList,
    (visitArgDefList l).length < sizeOf l
  | .nil => by simp <;> omega
  | .cons (.mk metadata covariant (.mk fcv ty) field var) rest => by
    have h1 := visitType_len ty
    have h2 := visitVarDef_len var
    have h3 := visitArgDefList_len rest
    simp <;> omega

theorem visitFnBody_len : ∀ b : FnBody, (visitFnBody b).length ≤ sizeOf b
  | .Arrow e => by
    have h1 := visitExpr_len e
    simp <;> omega
  | .Block st => by
    have h1 := visitStatement_len st
    simp <;> omega
  | .Native osl => by
    have h1 := visitOptionStringLiteral_len osl
    simp <;> omega

theorem visitOptionFnBody_len : ∀ o : OptionFnBody,
    (visitOptionFnBody o).length < sizeOf o
  | .none => by simp <;> omega
  | .some b => by
    have h1 := visitFnBody_len b
    simp <;> omega

theorem visitVarDef_len : ∀ v : VarDef, (visitVarDef v).length ≤ sizeOf v
  | .mk name init => by
    have h1 := visitOptionInit_len init
    simp <;> omega

theorem visitOptionInit_len : ∀ o : OptionExpr,
    (visitOptionInit o).length < sizeOf o
  | .none => by simp <;> omega
  | .some e => by
    have h1 := visitExpr_len e
    simp <;> omega

theorem visitVarDefList_len : ∀ l : VarDefList,
    (visitVarDefList l).length < sizeOf l
  | .nil => by simp <;> omega
  | .cons v vs => by
    have h1 := visitVarDef_len v
    have h2 := visitVarDefList_len vs
    simp <;> omega

theorem superMeta_len : ∀ ml : MetadataList,
    (superMeta ml).length < sizeOf ml
  | .nil => by simp <;> omega
  | .cons (.mk qualified arguments) ms => by
    have h1 := visitQualified_len qualified
    have h2 := visitOptionArgs_len arguments
    have h3 := superMeta_len ms
    simp <;> omega

theorem visitArgs_len : ∀ a : Args, (visitArgs a).length ≤ sizeOf a
  | .mk unnamed named => by
    have h1 := visitExprList_len unnamed
    have h2 := visitNamedArgList_len named
    simp <;> omega

theorem visitNamedArgList_len : ∀ l : NamedArgList,
    (visitNamedArgList l).length < sizeOf l
  | .nil => by simp <;> omega
  | .cons (.mk name expr) ns => by
    have h1 := visitExpr_len expr
    have h2 := visitNamedArgList_len ns
    simp <;> omega

theorem visitOptionArgs_len : ∀ o : OptionArgs,
    (visitOptionArgs o).length < sizeOf o
  | .none => by simp <;> omega
  | .some a => by
    have h1 := visitArgs_len a
    simp <;> omega

theorem visitExpr_len : ∀ e : Expr, (visitExpr e).length ≤ sizeOf e
  | .Unary op e => by
    have h1 := visitExpr_len e
    simp <;> omega
  | .Binary op a b => by
    have h1 := visitExpr_len a
    have h2 := visitExpr_len b
    simp <;> omega
  | .Conditional a b c => by
    have h1 := visitExpr_len a
    have h2 := visitExpr_len b
    have h3 := visitExpr_len c
    simp <;> omega
  | .Is e ty => by
    have h1 := visitExpr_len e
    have h2 := visitType_len ty
    simp <;> omega
  | .IsNot e ty => by
    have h1 := visitExpr_len e
    have h2 := visitType_len ty
    simp <;> omega
  | .As e ty => by
    have h1 := visitExpr_len e
    have h2 := visitType_len ty
    simp <;> omega
  | .Suffix e s => by
    have h1 := visitExpr_len e
    have h2 := visitSuffix_len s
    simp <;> omega
  | .Identifier s => by simp <;> omega
  | .Closure sig body => by
    have h1 := visitFnSig_len sig
    have h2 := visitFnBody_len body
    simp <;> omega
  | .New const_ path args => by
    have h1 := visitQualified_len path
    have h2 := visitArgs_len args
    simp <;> omega
  | .List const_ element_ty elements => by
    have h1 := visitOptionType_len element_ty
    have h2 := visitExprList_len elements
    simp <;> omega
  | .Map const_ kv_ty kv => by
    have h1 := visitKVTypes_len kv_ty
    have h2 := visitExprPairList_len kv
    simp <;> omega
  | .Number n => by simp <;> omega
  | .String literals => by
    have h1 := visitStringLiteralList_len literals
    simp <;> omega
  | .Symbol sl => by simp <;> omega
  | .Paren e => by
    have h1 := visitExpr_len e
    simp <;> omega
  | .Throw e => by
    have h1 := visitExpr_len e
    simp <;> omega
  | .Cascade e casc => by
    have h1 := visitExpr_len e
    have h2 := visitCascade_len casc
    simp <;> omega

theorem visitExprList_len : ∀ l : ExprList,
    (visitExprList l).length < sizeOf l
  | .nil => by simp <;> omega
  | .cons e es => by
    have h1 := visitExpr_len e
    have h2 := visitExprList_len es
    simp <;> omega

theorem visitKVTypes_len : ∀ o : KVTypes,
    (visitKVTypes o).length < sizeOf o
  | .none => by simp <;> omega
  | .some k v => by
    have h1 := visitType_len k
    have h2 := visitType_len v
    simp <;> omega

theorem visitExprPairList_len : ∀ l : ExprPairList,
    (visitExprPairList l).length < sizeOf l
  | .nil => by simp <;> omega
  | .cons k v rest => by
    have h1 := visitExpr_len k
    have h2 := visitExpr_len v
    have h3 := visitExprPairList_len rest
    simp <;> omega

theorem visitStringLiteral_len : ∀ sl : StringLiteral,
    (visitStringLiteral sl).length ≤ sizeOf sl
  | .mk raw triple quote prefix_ interpolated => by
    have h1 := visitInterpList_len interpolated
    simp <;> omega

theorem visitInterpList_len : ∀ l : InterpList,
    (visitInterpList l).length < sizeOf l
  | .nil => by simp <;> omega
  | .cons e sp rest => by
    have h1 := visitExpr_len e
    have h2 := visitInterpList_len rest
    simp <;> omega

theorem visitStringLiteralList_len : ∀ l : StringLiteralList,
    (visitStringLiteralList l).length < sizeOf l
  | .nil => by simp <;> omega
  | .cons sl sls => by
    have h1 := visitStringLiteral_len sl
    have h2 := visitStringLiteralList_len sls
    simp <;> omega

theorem visitOptionStringLiteral_len : ∀ o : OptionStringLiteral,
    (visitOptionStringLiteral o).length < sizeOf o
  | .none => by simp <;> omega
  | .some sl => by
    have h1 := visitStringLiteral_len sl
    simp <;> omega

theorem visitSuffix_len : ∀ s : Suffix, (visitSuffix s).length ≤ sizeOf s
  | .Index e => by
    have h1 := visitExpr_len e
    simp <;> omega
  | .Field name => by simp <;> omega
  | .FieldIfNotNull name => by simp <;> omega
  | .Call types args => by
    have h1 := visitTypeList_len types
    have h2 := visitArgs_len args
    simp <;> omega

theorem visitSuffixList_len : ∀ l : SuffixList,
    (visitSuffixList l).length < sizeOf l
  | .nil => by simp <;> omega
  | .cons s ss => by
    have h1 := visitSuffix_len s
    have h2 := visitSuffixList_len ss
    simp <;> omega

theorem visitCascade_len : ∀ c : Cascade,
    (visitCascade c).length < sizeOf c
  | .mk suffixes assign => by
    have h1 := visitSuffixList_len suffixes
    have h2 := visitCascadeAssign_len assign
    simp <;> omega

theorem visitCascadeAssign_len : ∀ o : CascadeAssign,
    (visitCascadeAssign o).length < sizeOf o
  | .none => by simp <;> omega
  | .some op e => by
    have h1 := visitExpr_len e
    simp <;> omega

theorem visitStatement_len : ∀ st : Statement,
    (visitStatement st).length ≤ sizeOf st
  | .Block statements => by
    have h1 := visitStatements_len statements
    simp [visitBlock] <;> omega
  | .Vars (.mk fcv ty) vars => by
    have h1 := visitType_len ty
    have h2 := visitVarDefList_len vars
    simp <;> omega
  | .Function f => by
    have h1 := visitFunction_len f
    simp <;> omega
  | .For await_ loop body => by
    have h1 := visitForLoop_len loop
    have h2 := visitStatement_len body
    simp <;> omega
  | .While cond body => by
    have h1 := visitExpr_len cond
    have h2 := visitStatement_len body
    simp <;> omega
  | .DoWhile body cond => by
    have h1 := visitStatement_len body
    have h2 := visitExpr_len cond
    simp <;> omega
  | .Switch e cases => by
    have h1 := visitExpr_len e
    have h2 := visitSwitchCaseList_len cases
    simp <;> omega
  | .If cond then_ else_ => by
    have h1 := visitExpr_len cond
    have h2 := visitStatement_len then_
    have h3 := visitOptionStatement_len else_
    simp <;> omega
  | .Rethrow => by simp <;> omega
  | .Try block parts => by
    have h1 := visitStatement_len block
    have h2 := visitTryPartList_len parts
    simp <;> omega
  | .Break label => by simp <;> omega
  | .Continue label => by simp <;> omega
  | .Return e => by
    have h1 := visitOptionInit_len e
    simp <;> omega
  | .Yield e => by
    have h1 := visitExpr_len e
    simp <;> omega
  | .YieldEach e => by
    have h1 := visitExpr_len e
    simp <;> omega
  | .Expression e => by
    have h1 := visitOptionInit_len e
    simp <;> omega
  | .Assert args => by
    have h1 := visitArgs_len args
    simp <;> omega
  | .Labelled label st => by
    have h1 := visitStatement_len st
    simp <;> omega

theorem visitForLoop_len : ∀ fl : ForLoop,
    (visitForLoop fl).length < sizeOf fl
  | .CLike init cond updates => by
    have h1 := visitStatement_len init
    have h2 := visitOptionInit_len cond
    have h3 := visitExprList_len updates
    simp <;> omega
  | .In name e => by
    have h1 := visitExpr_len e
    simp <;> omega
  | .InVar (.mk fcv ty) var e => by
    have h1 := visitType_len ty
    have h2 := visitVarDef_len var
    have h3 := visitExpr_len e
    simp <;> omega

theorem visitStatements_len : ∀ l : StatementList,
    (visitStatements l).length < sizeOf l
  | .nil => by simp <;> omega
  | .cons st sts => by
    have h1 := visitStatement_len st
    have h2 := visitStatements_len sts
    simp <;> omega

theorem visitOptionStatement_len : ∀ o : OptionStatement,
    (visitOptionStatement o).length < sizeOf o
  | .none => by simp <;> omega
  | .some st => by
    have h1 := visitStatement_len st
    simp <;> omega

theorem visitSwitchCaseList_len : ∀ l : SwitchCaseList,
    (visitSwitchCaseList l).length < sizeOf l
  | .nil => by simp <;> omega
  | .cons (.mk labels value statements) cs => by
    have h1 := visitOptionInit_len value
    have h2 := visitStatements_len statements
    have h3 := visitSwitchCaseList_len cs
    simp <;> omega

theorem visitTryPart_len : ∀ tp : TryPart,
    (visitTryPart tp).length ≤ sizeOf tp
  | .mk on_ catch_ block => by
    have h1 := visitOptionType_len on_
    have h2 := visitStatement_len block
    simp <;> omega

theorem visitTryPartList_len : ∀ l : TryPartList,
    (visitTryPartList l).length < sizeOf l
  | .nil => by simp <;> omega
  | .cons p ps => by
    have h1 := visitTryPart_len p
    have h2 := visitTryPartList_len ps
    simp <;> omega

end

theorem visitGenerics_len (g : TypeParameterList) :
    (visitGenerics g).length ≤ sizeOf g := by
  have h1 := superGenerics_len g
  simp [visitGenerics] <;> omega

theorem visitMeta_len (ml : MetadataList) :
    (visitMeta ml).length ≤ sizeOf ml := by
  have h1 := superMeta_len ml
  simp [visitMeta] <;> omega

theorem visitBlock_len (sts : StatementList) :
    (visitBlock sts).length ≤ sizeOf sts := by
  have h1 := visitStatements_len sts
  simp [visitBlock] <;> omega

theorem visitConstructorInitializer_len (ci : ConstructorInitializer) :
    (visitConstructorInitializer ci).length ≤ sizeOf ci := by
  cases ci with
  | Super name args =>
    have h1 := visitArgs_len args
    simp [visitConstructorInitializer] <;> omega
  | This name args =>
    have h1 := visitArgs_len args
    simp [visitConstructorInitializer] <;> omega
  | Assert args =>
    have h1 := visitArgs_len args
    simp [visitConstructorInitializer] <;> omega
  | Field this_ name e =>
    have h1 := visitExpr_len e
    simp [visitConstructorInitializer] <;> omega

theorem visitConstructorInitializerList_len
    (l : List ConstructorInitializer) :
    (visitConstructorInitializerList l).length < sizeOf l := by
  induction l with
  | nil => simp [visitConstructorInitializerList] <;> omega
  | cons ci cis ih =>
    have h1 := visitConstructorInitializer_len ci
    simp [visitConstructorInitializerList] <;> omega

theorem visitClassMember_len (m : ClassMember) :
    (visitClassMember m).length ≤ sizeOf m := by
  cases m with
  | Redirect metadata mq name sig ty =>
    have h1 := visitMeta_len metadata
    have h2 := visitFnSig_len sig
    have h3 := visitType_len ty
    simp [visitClassMember] <;> omega
  | Constructor metadata mq name sig initializers function_body =>
    have h1 := visitMeta_len metadata
    have h2 := visitFnSig_len sig
    have h3 := visitConstructorInitializerList_len initializers
    have h4 := visitOptionFnBody_len function_body
    simp [visitClassMember] <;> omega
  | Method metadata q f =>
    have h1 := visitMeta_len metadata
    have h2 := visitFunction_len f
    simp [visitClassMember] <;> omega
  | Fields metadata static_ var_type initializers =>
    obtain ⟨fcv, ty⟩ := var_type
    have h1 := visitMeta_len metadata
    have h2 := visitType_len ty
    have h3 := visitVarDefList_len initializers
    simp [visitClassMember] <;> omega

theorem visitClassMemberList_len (l : List ClassMember) :
    (visitClassMemberList l).length < sizeOf l := by
  induction l with
  | nil => simp [visitClassMemberList] <;> omega
  | cons m ms ih =>
    have h1 := visitClassMember_len m
    simp [visitClassMemberList] <;> omega

theorem visitQualifiedList_len (l : List Qualified) :
    (visitQualifiedList l).length < sizeOf l := by
  induction l with
  | nil => simp [visitQualifiedList] <;> omega
  | cons q qs ih =>
    have h1 := visitQualified_len q
    simp [visitQualifiedList] <;> omega

mutual

theorem visitModule_len : ∀ m : Module, (visitModule m).length ≤ sizeOf m
  | .mk path items has_error => by
    have h1 := visitItemList_len items
    simp [visitModule] <;> omega

theorem visitItem_len : ∀ i : Item, (visitItem i).length ≤ sizeOf i
  | .LibraryName metadata path => by
    have h1 := visitMeta_len metadata
    simp [visitItem] <;> omega
  | .Import metadata import_ => by
    obtain ⟨uri, deferred, as_ident, filters⟩ := import_
    have h1 := visitMeta_len metadata
    have h2 := visitStringLiteral_len uri
    simp [visitItem] <;> omega
  | .Export metadata uri filters => by
    have h1 := visitMeta_len metadata
    have h2 := visitStringLiteral_len uri
    simp [visitItem] <;> omega
  | .Part metadata uri module => by
    have h1 := visitMeta_len metadata
    have h2 := visitStringLiteral_len uri
    have h3 := visitModule_len module
    simp [visitItem] <;> omega
  | .PartOf metadata path => by
    have h1 := visitMeta_len metadata
    simp [visitItem] <;> omega
  | .Class metadata abstract_ name generics superclass mixins interfaces
      members => by
    have h1 := visitMeta_len metadata
    have h2 := visitGenerics_len generics
    have h3 := visitOptionQualified_len superclass
    have h4 := visitQualifiedList_len mixins
    have h5 := visitQualifiedList_len interfaces
    have h6 := visitClassMemberList_len members
    simp [visitItem] <;> omega
  | .MixinClass metadata abstract_ name generics mixins interfaces => by
    have h1 := visitMeta_len metadata
    have h2 := visitGenerics_len generics
    have h3 := visitQualifiedList_len mixins
    have h4 := visitQualifiedList_len interfaces
    simp [visitItem] <;> omega
  | .Enum metadata name values => by
    have h1 := visitMeta_len metadata
    simp [visitItem] <;> omega
  | .TypeAlias metadata name generics ty => by
    have h1 := visitMeta_len metadata
    have h2 := visitGenerics_len generics
    have h3 := visitType_len ty
    simp [visitItem] <;> omega
  | .Function f => by
    have h1 := visitFunction_len f
    simp [visitItem] <;> omega
  | .Vars (.mk fcv ty) vars => by
    have h1 := visitType_len ty
    have h2 := visitVarDefList_len vars
    simp [visitItem] <;> omega

theorem visitItemList_len : ∀ l : ItemList,
    (visitItemList l).length < sizeOf l
  | .nil => by simp [visitItemList] <;> omega
  | .cons i rest => by
    have h1 := visitItem_len i
    have h2 := visitItemList_len rest
    simp [visitItemList] <;> omega

end

/-! ### Identifier occurrences (C5)

`identsX` collects, in order, the `Expr::Identifier` symbols occurring
*anywhere* in a node — following every structural position of the data
model of `ast.rs`, including the two positions the default traversal does
not descend into (`ArgDef.metadata` and `TypeParameter.metadata`).  This
is the spec-side notion "every identifier expression occurring anywhere in
the tree".

`skippedX` collects exactly the identifiers occurring under those two
untraversed metadata positions (anywhere in the node, including inside
nested closures' signatures). -/

set_option maxHeartbeats 3200000 in
/-- All `Expr::Identifier` symbols occurring anywhere in a node,
following every structural position of `ast.rs` (including the
`ArgDef.metadata` / `TypeParameter.metadata` positions the traversal
skips). -/
def identsStep : (n : NodeA) →
    ((m : NodeA) → sizeOf m < sizeOf n → List Symbol) →
    List Symbol
  | .qualified (.mk prefix_ _name params), cb =>
    cb (.optionQualified prefix_) (by simp <;> omega) ++ cb (.typeList params) (by simp <;> omega)
  | .optionQualified (.none), _cb =>
    ([] : List Symbol)
  | .optionQualified (.some q), cb =>
    cb (.qualified q) (by simp <;> omega)
  | .dartType (.Path q), cb =>
    cb (.qualified q) (by simp <;> omega)
  | .dartType (.FunctionOld sig), cb =>
    cb (.fnSig sig) (by simp <;> omega)
  | .dartType (.Function sig), cb =>
    cb (.fnSig sig) (by simp <;> omega)
  | .dartType (.Infer), _cb =>
    ([] : List Symbol)
  | .optionDartType (.none), _cb =>
    ([] : List Symbol)
  | .optionDartType (.some t), cb =>
    cb (.dartType t) (by simp <;> omega)
  | .typeList (.nil), _cb =>
    ([] : List Symbol)
  | .typeList (.cons t ts), cb =>
    cb (.dartType t) (by simp <;> omega) ++ cb (.typeList ts) (by simp <;> omega)
  | .typeParameterList (.nil), _cb =>
    ([] : List Symbol)
  | .typeParameterList (.cons (.mk metadata _name extends_) tps), cb =>
    cb (.metadataList metadata) (by simp <;> omega) ++ cb (.optionQualified extends_) (by simp <;> omega) ++ cb (.typeParameterList tps) (by simp <;> omega)
  | .function (.mk _name generics sig body), cb =>
    cb (.typeParameterList generics) (by simp <;> omega) ++ cb (.fnSig sig) (by simp <;> omega) ++ cb (.optionFnBody body) (by simp <;> omega)
  | .fnSig (.mk return_type required optional _optional_kind _async _generator), cb =>
    cb (.dartType return_type) (by simp <;> omega) ++ cb (.argDefList required) (by simp <;> omega) ++ cb (.argDefList optional) (by simp <;> omega)
  | .argDefList (.nil), _cb =>
    ([] : List Symbol)
  | .argDefList (.cons (.mk metadata _covariant (.mk _fcv ty) _field var) rest), cb =>
    cb (.metadataList metadata) (by simp <;> omega) ++ cb (.dartType ty) (by simp <;> omega) ++ cb (.varDef var) (by simp <;> omega) ++ cb (.argDefList rest) (by simp <;> omega)
  | .fnBody (.Arrow e), cb =>
    cb (.expr e) (by simp <;> omega)
  | .fnBody (.Block st), cb =>
    cb (.statement st) (by simp <;> omega)
  | .fnBody (.Native osl), cb =>
    cb (.optionStringLiteral osl) (by simp <;> omega)
  | .optionFnBody (.none), _cb =>
    ([] : List Symbol)
  | .optionFnBody (.some b), cb =>
    cb (.fnBody b) (by simp <;> omega)
  | .varDef (.mk _name init), cb =>
    cb (.optionExpr init) (by simp <;> omega)
  | .optionExpr (.none), _cb =>
    ([] : List Symbol)
  | .optionExpr (.some e), cb =>
    cb (.expr e) (by simp <;> omega)
  | .varDefList (.nil), _cb =>
    ([] : List Symbol)
  | .varDefList (.cons v vs), cb =>
    cb (.varDef v) (by simp <;> omega) ++ cb (.varDefList vs) (by simp <;> omega)
  | .metadataList (.nil), _cb =>
    ([] : List Symbol)
  | .metadataList (.cons (.mk qualified arguments) ms), cb =>
    cb (.qualified qualified) (by simp <;> omega) ++ cb (.optionArgs arguments) (by simp <;> omega) ++ cb (.metadataList ms) (by simp <;> omega)
  | .args (.mk unnamed named), cb =>
    cb (.exprList unnamed) (by simp <;> omega) ++ cb (.namedArgList named) (by simp <;> omega)
  | .namedArgList (.nil), _cb =>
    ([] : List Symbol)
  | .namedArgList (.cons (.mk _name expr) ns), cb =>
    cb (.expr expr) (by simp <;> omega) ++ cb (.namedArgList ns) (by simp <;> omega)
  | .optionArgs (.none), _cb =>
    ([] : List Symbol)
  | .optionArgs (.some a), cb =>
    cb (.args a) (by simp <;> omega)
  | .expr (.Unary _op e), cb =>
    cb (.expr e) (by simp <;> omega)
  | .expr (.Binary _op a b), cb =>
    cb (.expr a) (by simp <;> omega) ++ cb (.expr b) (by simp <;> omega)
  | .expr (.Conditional a b c), cb =>
    cb (.expr a) (by simp <;> omega) ++ cb (.expr b) (by simp <;> omega) ++ cb (.expr c) (by simp <;> omega)
  | .expr (.Is e ty), cb =>
    cb (.expr e) (by simp <;> omega) ++ cb (.dartType ty) (by simp <;> omega)
  | .expr (.IsNot e ty), cb =>
    cb (.expr e) (by simp <;> omega) ++ cb (.dartType ty) (by simp <;> omega)
  | .expr (.As e ty), cb =>
    cb (.expr e) (by simp <;> omega) ++ cb (.dartType ty) (by simp <;> omega)
  | .expr (.Suffix e sfx), cb =>
    cb (.expr e) (by simp <;> omega) ++ cb (.suffix sfx) (by simp <;> omega)
  | .expr (.Identifier s), _cb =>
    [s]
  | .expr (.Closure sig body), cb =>
    cb (.fnSig sig) (by simp <;> omega) ++ cb (.fnBody body) (by simp <;> omega)
  | .expr (.New _const_ path args_), cb =>
    cb (.qualified path) (by simp <;> omega) ++ cb (.args args_) (by simp <;> omega)
  | .expr (.List _const_ element_ty elements), cb =>
    cb (.optionDartType element_ty) (by simp <;> omega) ++ cb (.exprList elements) (by simp <;> omega)
  | .expr (.Map _const_ kv_ty kv), cb =>
    cb (.kvTypes kv_ty) (by simp <;> omega) ++ cb (.exprPairList kv) (by simp <;> omega)
  | .expr (.Number _n), _cb =>
    ([] : List Symbol)
  | .expr (.String literals), cb =>
    cb (.stringLiteralList literals) (by simp <;> omega)
  | .expr (.Symbol _sl), _cb =>
    ([] : List Symbol)
  | .expr (.Paren e), cb =>
    cb (.expr e) (by simp <;> omega)
  | .expr (.Throw e), cb =>
    cb (.expr e) (by simp <;> omega)
  | .expr (.Cascade e casc), cb =>
    cb (.expr e) (by simp <;> omega) ++ cb (.cascade casc) (by simp <;> omega)
  | .exprList (.nil), _cb =>
    ([] : List Symbol)
  | .exprList (.cons e es), cb =>
    cb (.expr e) (by simp <;> omega) ++ cb (.exprList es) (by simp <;> omega)
  | .kvTypes (.none), _cb =>
    ([] : List Symbol)
  | .kvTypes (.some k v), cb =>
    cb (.dartType k) (by simp <;> omega) ++ cb (.dartType v) (by simp <;> omega)
  | .exprPairList (.nil), _cb =>
    ([] : List Symbol)
  | .exprPairList (.cons k v rest), cb =>
    cb (.expr k) (by simp <;> omega) ++ cb (.expr v) (by simp <;> omega) ++ cb (.exprPairList rest) (by simp <;> omega)
  | .stringLiteral (.mk _raw _triple _quote _prefix_ interpolated), cb =>
    cb (.interpList interpolated) (by simp <;> omega)
  | .interpList (.nil), _cb =>
    ([] : List Symbol)
  | .interpList (.cons e _sp rest), cb =>
    cb (.expr e) (by simp <;> omega) ++ cb (.interpList rest) (by simp <;> omega)
  | .stringLiteralList (.nil), _cb =>
    ([] : List Symbol)
  | .stringLiteralList (.cons sl sls), cb =>
    cb (.stringLiteral sl) (by simp <;> omega) ++ cb (.stringLiteralList sls) (by simp <;> omega)
  | .optionStringLiteral (.none), _cb =>
    ([] : List Symbol)
  | .optionStringLiteral (.some sl), cb =>
    cb (.stringLiteral sl) (by simp <;> omega)
  | .suffix (.Index e), cb =>
    cb (.expr e) (by simp <;> omega)
  | .suffix (.Field _name), _cb =>
    ([] : List Symbol)
  | .suffix (.FieldIfNotNull _name), _cb =>
    ([] : List Symbol)
  | .suffix (.Call types args_), cb =>
    cb (.typeList types) (by simp <;> omega) ++ cb (.args args_) (by simp <;> omega)
  | .suffixList (.nil), _cb =>
    ([] : List Symbol)
  | .suffixList (.cons sfx ss), cb =>
    cb (.suffix sfx) (by simp <;> omega) ++ cb (.suffixList ss) (by simp <;> omega)
  | .cascade (.mk suffixes assign), cb =>
    cb (.suffixList suffixes) (by simp <;> omega) ++ cb (.cascadeAssign assign) (by simp <;> omega)
  | .cascadeAssign (.none), _cb =>
    ([] : List Symbol)
  | .cascadeAssign (.some _op e), cb =>
    cb (.expr e) (by simp <;> omega)
  | .statement (.Block statements), cb =>
    cb (.statementList statements) (by simp <;> omega)
  | .statement (.Vars (.mk _fcv ty) vars), cb =>
    cb (.dartType ty) (by simp <;> omega) ++ cb (.varDefList vars) (by simp <;> omega)
  | .statement (.Function f), cb =>
    cb (.function f) (by simp <;> omega)
  | .statement (.For _await_ loop body), cb =>
    cb (.forLoop loop) (by simp <;> omega) ++ cb (.statement body) (by simp <;> omega)
  | .statement (.While cond body), cb =>
    cb (.expr cond) (by simp <;> omega) ++ cb (.statement body) (by simp <;> omega)
  | .statement (.DoWhile body cond), cb =>
    cb (.statement body) (by simp <;> omega) ++ cb (.expr cond) (by simp <;> omega)
  | .statement (.Switch e cs), cb =>
    cb (.expr e) (by simp <;> omega) ++ cb (.switchCaseList cs) (by simp <;> omega)
  | .statement (.If cond then_ else_), cb =>
    cb (.expr cond) (by simp <;> omega) ++ cb (.statement then_) (by simp <;> omega) ++ cb (.optionStatement else_) (by simp <;> omega)
  | .statement (.Rethrow), _cb =>
    ([] : List Symbol)
  | .statement (.Try block parts), cb =>
    cb (.statement block) (by simp <;> omega) ++ cb (.tryPartList parts) (by simp <;> omega)
  | .statement (.Break _label), _cb =>
    ([] : List Symbol)
  | .statement (.Continue _label), _cb =>
    ([] : List Symbol)
  | .statement (.Return e), cb =>
    cb (.optionExpr e) (by simp <;> omega)
  | .statement (.Yield e), cb =>
    cb (.expr e) (by simp <;> omega)
  | .statement (.YieldEach e), cb =>
    cb (.expr e) (by simp <;> omega)
  | .statement (.Expression e), cb =>
    cb (.optionExpr e) (by simp <;> omega)
  | .statement (.Assert args_), cb =>
    cb (.args args_) (by simp <;> omega)
  | .statement (.Labelled _label st), cb =>
    cb (.statement st) (by simp <;> omega)
  | .forLoop (.CLike init cond updates), cb =>
    cb (.statement init) (by simp <;> omega) ++ cb (.optionExpr cond) (by simp <;> omega) ++ cb (.exprList updates) (by simp <;> omega)
  | .forLoop (.In _name e), cb =>
    cb (.expr e) (by simp <;> omega)
  | .forLoop (.InVar (.mk _fcv ty) var e), cb =>
    cb (.dartType ty) (by simp <;> omega) ++ cb (.varDef var) (by simp <;> omega) ++ cb (.expr e) (by simp <;> omega)
  | .statementList (.nil), _cb =>
    ([] : List Symbol)
  | .statementList (.cons st sts), cb =>
    cb (.statement st) (by simp <;> omega) ++ cb (.statementList sts) (by simp <;> omega)
  | .optionStatement (.none), _cb =>
    ([] : List Symbol)
  | .optionStatement (.some st), cb =>
    cb (.statement st) (by simp <;> omega)
  | .switchCaseList (.nil), _cb =>
    ([] : List Symbol)
  | .switchCaseList (.cons (.mk _labels value statements) cs), cb =>
    cb (.optionExpr value) (by simp <;> omega) ++ cb (.statementList statements) (by simp <;> omega) ++ cb (.switchCaseList cs) (by simp <;> omega)
  | .tryPart (.mk on_ _catch_ block), cb =>
    cb (.optionDartType on_) (by simp <;> omega) ++ cb (.statement block) (by simp <;> omega)
  | .tryPartList (.nil), _cb =>
    ([] : List Symbol)
  | .tryPartList (.cons p ps), cb =>
    cb (.tryPart p) (by simp <;> omega) ++ cb (.tryPartList ps) (by simp <;> omega)

/-- The packed recursion: one well-founded definition with a
single recursive call site, stepping through `identsStep`. -/
def identsA (n : NodeA) : List Symbol :=
  identsStep n (fun m _ => identsA m)
termination_by sizeOf n
decreasing_by assumption

unseal identsA in
/-- One-step unfolding of the packed recursion (the fixpoint
equation of `identsA`). -/
theorem identsA_unfold : ∀ n : NodeA,
    identsA n = identsStep n (fun m _ => identsA m) := fun n =>
  WellFounded.fix_eq _ _ n

/-- Dispatch wrapper for `identsQualified` into the packed
recursion `identsA`. -/
def identsQualified (x : Qualified) : List Symbol :=
  identsA (.qualified x)

/-- Dispatch wrapper for `identsOptionQualified` into the packed
recursion `identsA`. -/
def identsOptionQualified (x : OptionQualified) : List Symbol :=
  identsA (.optionQualified x)

/-- Dispatch wrapper for `identsType` into the packed
recursion `identsA`. -/
def identsType (x : DartType) : List Symbol :=
  identsA (.dartType x)

/-- Dispatch wrapper for `identsOptionType` into the packed
recursion `identsA`. -/
def identsOptionType (x : OptionDartType) : List Symbol :=
  identsA (.optionDartType x)

/-- Dispatch wrapper for `identsTypeList` into the packed
recursion `identsA`. -/
def identsTypeList (x : TypeList) : List Symbol :=
  identsA (.typeList x)

/-- Dispatch wrapper for `identsTypeParameterList` into the packed
recursion `identsA`. -/
def identsTypeParameterList (x : TypeParameterList) : List Symbol :=
  identsA (.typeParameterList x)

/-- Dispatch wrapper for `identsFunction` into the packed
recursion `identsA`. -/
def identsFunction (x : Function) : List Symbol :=
  identsA (.function x)

/-- Dispatch wrapper for `identsFnSig` into the packed
recursion `identsA`. -/
def identsFnSig (x : FnSig) : List Symbol :=
  identsA (.fnSig x)

/-- Dispatch wrapper for `identsArgDefList` into the packed
recursion `identsA`. -/
def identsArgDefList (x : ArgDefList) : List Symbol :=
  identsA (.argDefList x)

/-- Dispatch wrapper for `identsFnBody` into the packed
recursion `identsA`. -/
def identsFnBody (x : FnBody) : List Symbol :=
  identsA (.fnBody x)

/-- Dispatch wrapper for `identsOptionFnBody` into the packed
recursion `identsA`. -/
def identsOptionFnBody (x : OptionFnBody) : List Symbol :=
  identsA (.optionFnBody x)

/-- Dispatch wrapper for `identsVarDef` into the packed
recursion `identsA`. -/
def identsVarDef (x : VarDef) : List Symbol :=
  identsA (.varDef x)

/-- Dispatch wrapper for `identsOptionInit` into the packed
recursion `identsA`. -/
def identsOptionInit (x : OptionExpr) : List Symbol :=
  identsA (.optionExpr x)

/-- Dispatch wrapper for `identsVarDefList` into the packed
recursion `identsA`. -/
def identsVarDefList (x : VarDefList) : List Symbol :=
  identsA (.varDefList x)

/-- Dispatch wrapper for `identsMeta` into the packed
recursion `identsA`. -/
def identsMeta (x : MetadataList) : List Symbol :=
  identsA (.metadataList x)

/-- Dispatch wrapper for `identsArgs` into the packed
recursion `identsA`. -/
def identsArgs (x : Args) : List Symbol :=
  identsA (.args x)

/-- Dispatch wrapper for `identsNamedArgList` into the packed
recursion `identsA`. -/
def identsNamedArgList (x : NamedArgList) : List Symbol :=
  identsA (.namedArgList x)

/-- Dispatch wrapper for `identsOptionArgs` into the packed
recursion `identsA`. -/
def identsOptionArgs (x : OptionArgs) : List Symbol :=
  identsA (.optionArgs x)

/-- Dispatch wrapper for `identsExpr` into the packed
recursion `identsA`. -/
def identsExpr (x : Expr) : List Symbol :=
  identsA (.expr x)

/-- Dispatch wrapper for `identsExprList` into the packed
recursion `identsA`. -/
def identsExprList (x : ExprList) : List Symbol :=
  identsA (.exprList x)

/-- Dispatch wrapper for `identsKVTypes` into the packed
recursion `identsA`. -/
def identsKVTypes (x : KVTypes) : List Symbol :=
  identsA (.kvTypes x)

/-- Dispatch wrapper for `identsExprPairList` into the packed
recursion `identsA`. -/
def identsExprPairList (x : ExprPairList) : List Symbol :=
  identsA (.exprPairList x)

/-- Dispatch wrapper for `identsStringLiteral` into the packed
recursion `identsA`. -/
def identsStringLiteral (x : StringLiteral) : List Symbol :=
  identsA (.stringLiteral x)

/-- Dispatch wrapper for `identsInterpList` into the packed
recursion `identsA`. -/
def identsInterpList (x : InterpList) : List Symbol :=
  identsA (.interpList x)

/-- Dispatch wrapper for `identsStringLiteralList` into the packed
recursion `identsA`. -/
def identsStringLiteralList (x : StringLiteralList) : List Symbol :=
  identsA (.stringLiteralList x)

/-- Dispatch wrapper for `identsOptionStringLiteral` into the packed
recursion `identsA`. -/
def identsOptionStringLiteral (x : OptionStringLiteral) : List Symbol :=
  identsA (.optionStringLiteral x)

/-- Dispatch wrapper for `identsSuffix` into the packed
recursion `identsA`. -/
def identsSuffix (x : Suffix) : List Symbol :=
  identsA (.suffix x)

/-- Dispatch wrapper for `identsSuffixList` into the packed
recursion `identsA`. -/
def identsSuffixList (x : SuffixList) : List Symbol :=
  identsA (.suffixList x)

/-- Dispatch wrapper for `identsCascade` into the packed
recursion `identsA`. -/
def identsCascade (x : Cascade) : List Symbol :=
  identsA (.cascade x)

/-- Dispatch wrapper for `identsCascadeAssign` into the packed
recursion `identsA`. -/
def identsCascadeAssign (x : CascadeAssign) : List Symbol :=
  identsA (.cascadeAssign x)

/-- Dispatch wrapper for `identsStatement` into the packed
recursion `identsA`. -/
def identsStatement (x : Statement) : List Symbol :=
  identsA (.statement x)

/-- Dispatch wrapper for `identsForLoop` into the packed
recursion `identsA`. -/
def identsForLoop (x : ForLoop) : List Symbol :=
  identsA (.forLoop x)

/-- Dispatch wrapper for `identsStatements` into the packed
recursion `identsA`. -/
def identsStatements (x : StatementList) : List Symbol :=
  identsA (.statementList x)

/-- Dispatch wrapper for `identsOptionStatement` into the packed
recursion `identsA`. -/
def identsOptionStatement (x : OptionStatement) : List Symbol :=
  identsA (.optionStatement x)

/-- Dispatch wrapper for `identsSwitchCaseList` into the packed
recursion `identsA`. -/
def identsSwitchCaseList (x : SwitchCaseList) : List Symbol :=
  identsA (.switchCaseList x)

/-- Dispatch wrapper for `identsTryPart` into the packed
recursion `identsA`. -/
def identsTryPart (x : TryPart) : List Symbol :=
  identsA (.tryPart x)

/-- Dispatch wrapper for `identsTryPartList` into the packed
recursion `identsA`. -/
def identsTryPartList (x : TryPartList) : List Symbol :=
  identsA (.tryPartList x)

@[simp] theorem identsQualified_eq_1 :
    ∀ prefix_ name params,
    identsQualified (.mk prefix_ name params) = identsOptionQualified prefix_ ++ identsTypeList params := by
  intro prefix_ name params
  dsimp only [identsQualified, identsOptionQualified, identsTypeList]
  rw [identsA_unfold]
  dsimp only [identsStep]

@[simp] theorem identsOptionQualified_eq_1 :
    identsOptionQualified (.none) = ([] : List Symbol) := by
  dsimp only [identsOptionQualified]
  rw [identsA_unfold]
  dsimp only [identsStep]

@[simp] theorem identsOptionQualified_eq_2 :
    ∀ q,
    identsOptionQualified (.some q) = identsQualified q := by
  intro q
  dsimp only [identsOptionQualified, identsQualified]
  rw [identsA_unfold]
  dsimp only [identsStep]

@[simp] theorem identsType_eq_1 :
    ∀ q,
    identsType (.Path q) = identsQualified q := by
  intro q
  dsimp only [identsType, identsQualified]
  rw [identsA_unfold]
  dsimp only [identsStep]

@[simp] theorem identsType_eq_2 :
    ∀ sig,
    identsType (.FunctionOld sig) = identsFnSig sig := by
  intro sig
  dsimp only [identsType, identsFnSig]
  rw [identsA_unfold]
  dsimp only [identsStep]

@[simp] theorem identsType_eq_3 :
    ∀ sig,
    identsType (.Function sig) = identsFnSig sig := by
  intro sig
  dsimp only [identsType, identsFnSig]
  rw [identsA_unfold]
  dsimp only [identsStep]

@[simp] theorem identsType_eq_4 :
    identsType (.Infer) = ([] : List Symbol) := by
  dsimp only [identsType]
  rw [identsA_unfold]
  dsimp only [identsStep]

@[simp] theorem identsOptionType_eq_1 :
    identsOptionType (.none) = ([] : List Symbol) := by
  dsimp only [identsOptionType]
  rw [identsA_unfold]
  dsimp only [identsStep]

@[simp] theorem identsOptionType_eq_2 :
    ∀ t,
    identsOptionType (.some t) = identsType t := by
  intro t
  dsimp only [identsOptionType, identsType]
  rw [identsA_unfold]
  dsimp only [identsStep]

@[simp] theorem identsTypeList_eq_1 :
    identsTypeList (.nil) = ([] : List Symbol) := by
  dsimp only [identsTypeList]
  rw [identsA_unfold]
  dsimp only [identsStep]

@[simp] theorem identsTypeList_eq_2 :
    ∀ t ts,
    identsTypeList (.cons t ts) = identsType t ++ identsTypeList ts := by
  intro t ts
  dsimp only [identsTypeList, identsType]
  rw [identsA_unfold]
  dsimp only [identsStep]

@[simp] theorem identsTypeParameterList_eq_1 :
    identsTypeParameterList (.nil) = ([] : List Symbol) := by
  dsimp only [identsTypeParameterList]
  rw [identsA_unfold]
  dsimp only [identsStep]

@[simp] theorem identsTypeParameterList_eq_2 :
    ∀ metadata name extends_ tps,
    identsTypeParameterList (.cons (.mk metadata name extends_) tps) = identsMeta metadata ++ identsOptionQualified extends_ ++ identsTypeParameterList tps := by
  intro metadata name extends_ tps
  dsimp only [identsTypeParameterList, identsMeta, identsOptionQualified]
  rw [identsA_unfold]
  dsimp only [identsStep]

@[simp] theorem identsFunction_eq_1 :
    ∀ name generics sig body,
    identsFunction (.mk name generics sig body) = identsTypeParameterList generics ++ identsFnSig sig ++ identsOptionFnBody body := by
  intro name generics sig body
  dsimp only [identsFunction, identsFnSig, identsOptionFnBody, identsTypeParameterList]
  rw [identsA_unfold]
  dsimp only [identsStep]

@[simp] theorem identsFnSig_eq_1 :
    ∀ return_type required optional optional_kind async generator,
    identsFnSig (.mk return_type required optional optional_kind async generator) = identsType return_type ++ identsArgDefList required ++ identsArgDefList optional := by
  intro return_type required optional optional_kind async generator
  dsimp only [identsFnSig, identsArgDefList, identsType]
  rw [identsA_unfold]
  dsimp only [identsStep]

@[simp] theorem identsArgDefList_eq_1 :
    identsArgDefList (.nil) = ([] : List Symbol) := by
  dsimp only [identsArgDefList]
  rw [identsA_unfold]
  dsimp only [identsStep]

@[simp] theorem identsArgDefList_eq_2 :
    ∀ metadata covariant fcv ty field var rest,
    identsArgDefList (.cons (.mk metadata covariant (.mk fcv ty) field var) rest) = identsMeta metadata ++ identsType ty ++ identsVarDef var ++ identsArgDefList rest := by
  intro metadata covariant fcv ty field var rest
  dsimp only [identsArgDefList, identsMeta, identsType, identsVarDef]
  rw [identsA_unfold]
  dsimp only [identsStep]

@[simp] theorem identsFnBody_eq_1 :
    ∀ e,
    identsFnBody (.Arrow e) = identsExpr e := by
  intro e
  dsimp only [identsFnBody, identsExpr]
  rw [identsA_unfold]
  dsimp only [identsStep]

@[simp] theorem identsFnBody_eq_2 :
    ∀ st,
    identsFnBody (.Block st) = identsStatement st := by
  intro st
  dsimp only [identsFnBody, identsStatement]
  rw [identsA_unfold]
  dsimp only [identsStep]

@[simp] theorem identsFnBody_eq_3 :
    ∀ osl,
    identsFnBody (.Native osl) = identsOptionStringLiteral osl := by
  intro osl
  dsimp only [identsFnBody, identsOptionStringLiteral]
  rw [identsA_unfold]
  dsimp only [identsStep]

@[simp] theorem identsOptionFnBody_eq_1 :
    identsOptionFnBody (.none) = ([] : List Symbol) := by
  dsimp only [identsOptionFnBody]
  rw [identsA_unfold]
  dsimp only [identsStep]

@[simp] theorem identsOptionFnBody_eq_2 :
    ∀ b,
    identsOptionFnBody (.some b) = identsFnBody b := by
  intro b
  dsimp only [identsOptionFnBody, identsFnBody]
  rw [identsA_unfold]
  dsimp only [identsStep]

@[simp] theorem identsVarDef_eq_1 :
    ∀ name init,
    identsVarDef (.mk name init) = identsOptionInit init := by
  intro name init
  dsimp only [identsVarDef, identsOptionInit]
  rw [identsA_unfold]
  dsimp only [identsStep]

@[simp] theorem identsOptionInit_eq_1 :
    identsOptionInit (.none) = ([] : List Symbol) := by
  dsimp only [identsOptionInit]
  rw [identsA_unfold]
  dsimp only [identsStep]

@[simp] theorem identsOptionInit_eq_2 :
    ∀ e,
    identsOptionInit (.some e) = identsExpr e := by
  intro e
  dsimp only [identsOptionInit, identsExpr]
  rw [identsA_unfold]
  dsimp only [identsStep]

@[simp] theorem identsVarDefList_eq_1 :
    identsVarDefList (.nil) = ([] : List Symbol) := by
  dsimp only [identsVarDefList]
  rw [identsA_unfold]
  dsimp only [identsStep]

@[simp] theorem identsVarDefList_eq_2 :
    ∀ v vs,
    identsVarDefList (.cons v vs) = identsVarDef v ++ identsVarDefList vs := by
  intro v vs
  dsimp only [identsVarDefList, identsVarDef]
  rw [identsA_unfold]
  dsimp only [identsStep]

@[simp] theorem identsMeta_eq_1 :
    identsMeta (.nil) = ([] : List Symbol) := by
  dsimp only [identsMeta]
  rw [identsA_unfold]
  dsimp only [identsStep]

@[simp] theorem identsMeta_eq_2 :
    ∀ qualified arguments ms,
    identsMeta (.cons (.mk qualified arguments) ms) = identsQualified qualified ++ identsOptionArgs arguments ++ identsMeta ms := by
  intro qualified arguments ms
  dsimp only [identsMeta, identsOptionArgs, identsQualified]
  rw [identsA_unfold]
  dsimp only [identsStep]

@[simp] theorem identsArgs_eq_1 :
    ∀ unnamed named,
    identsArgs (.mk unnamed named) = identsExprList unnamed ++ identsNamedArgList named := by
  intro unnamed named
  dsimp only [identsArgs, identsExprList, identsNamedArgList]
  rw [identsA_unfold]
  dsimp only [identsStep]

@[simp] theorem identsNamedArgList_eq_1 :
    identsNamedArgList (.nil) = ([] : List Symbol) := by
  dsimp only [identsNamedArgList]
  rw [identsA_unfold]
  dsimp only [identsStep]

@[simp] theorem identsNamedArgList_eq_2 :
    ∀ name expr ns,
    identsNamedArgList (.cons (.mk name expr) ns) = identsExpr expr ++ identsNamedArgList ns := by
  intro name expr ns
  dsimp only [identsNamedArgList, identsExpr]
  rw [identsA_unfold]
  dsimp only [identsStep]

@[simp] theorem identsOptionArgs_eq_1 :
    identsOptionArgs (.none) = ([] : List Symbol) := by
  dsimp only [identsOptionArgs]
  rw [identsA_unfold]
  dsimp only [identsStep]

@[simp] theorem identsOptionArgs_eq_2 :
    ∀ a,
    identsOptionArgs (.some a) = identsArgs a := by
  intro a
  dsimp only [identsOptionArgs, identsArgs]
  rw [identsA_unfold]
  dsimp only [identsStep]

@[simp] theorem identsExpr_eq_1 :
    ∀ op e,
    identsExpr (.Unary op e) = identsExpr e := by
  intro op e
  dsimp only [identsExpr]
  rw [identsA_unfold]
  dsimp only [identsStep]

@[simp] theorem identsExpr_eq_2 :
    ∀ op a b,
    identsExpr (.Binary op a b) = identsExpr a ++ identsExpr b := by
  intro op a b
  dsimp only [identsExpr]
  rw [identsA_unfold]
  dsimp only [identsStep]

@[simp] theorem identsExpr_eq_3 :
    ∀ a b c,
    identsExpr (.Conditional a b c) = identsExpr a ++ identsExpr b ++ identsExpr c := by
  intro a b c
  dsimp only [identsExpr]
  rw [identsA_unfold]
  dsimp only [identsStep]

@[simp] theorem identsExpr_eq_4 :
    ∀ e ty,
    identsExpr (.Is e ty) = identsExpr e ++ identsType ty := by
  intro e ty
  dsimp only [identsExpr, identsType]
  rw [identsA_unfold]
  dsimp only [identsStep]

@[simp] theorem identsExpr_eq_5 :
    ∀ e ty,
    identsExpr (.IsNot e ty) = identsExpr e ++ identsType ty := by
  intro e ty
  dsimp only [identsExpr, identsType]
  rw [identsA_unfold]
  dsimp only [identsStep]

@[simp] theorem identsExpr_eq_6 :
    ∀ e ty,
    identsExpr (.As e ty) = identsExpr e ++ identsType ty := by
  intro e ty
  dsimp only [identsExpr, identsType]
  rw [identsA_unfold]
  dsimp only [identsStep]

@[simp] theorem identsExpr_eq_7 :
    ∀ e sfx,
    identsExpr (.Suffix e sfx) = identsExpr e ++ identsSuffix sfx := by
  intro e sfx
  dsimp only [identsExpr, identsSuffix]
  rw [identsA_unfold]
  dsimp only [identsStep]

@[simp] theorem identsExpr_eq_8 :
    ∀ s,
    identsExpr (.Identifier s) = [s] := by
  intro s
  dsimp only [identsExpr]
  rw [identsA_unfold]
  dsimp only [identsStep]

@[simp] theorem identsExpr_eq_9 :
    ∀ sig body,
    identsExpr (.Closure sig body) = identsFnSig sig ++ identsFnBody body := by
  intro sig body
  dsimp only [identsExpr, identsFnBody, identsFnSig]
  rw [identsA_unfold]
  dsimp only [identsStep]

@[simp] theorem identsExpr_eq_10 :
    ∀ const_ path args_,
    identsExpr (.New const_ path args_) = identsQualified path ++ identsArgs args_ := by
  intro const_ path args_
  dsimp only [identsExpr, identsArgs, identsQualified]
  rw [identsA_unfold]
  dsimp only [identsStep]

@[simp] theorem identsExpr_eq_11 :
    ∀ const_ element_ty elements,
    identsExpr (.List const_ element_ty elements) = identsOptionType element_ty ++ identsExprList elements := by
  intro const_ element_ty elements
  dsimp only [identsExpr, identsExprList, identsOptionType]
  rw [identsA_unfold]
  dsimp only [identsStep]

@[simp] theorem identsExpr_eq_12 :
    ∀ const_ kv_ty kv,
    identsExpr (.Map const_ kv_ty kv) = identsKVTypes kv_ty ++ identsExprPairList kv := by
  intro const_ kv_ty kv
  dsimp only [identsExpr, identsExprPairList, identsKVTypes]
  rw [identsA_unfold]
  dsimp only [identsStep]

@[simp] theorem identsExpr_eq_13 :
    ∀ n,
    identsExpr (.Number n) = ([] : List Symbol) := by
  intro n
  dsimp only [identsExpr]
  rw [identsA_unfold]
  dsimp only [identsStep]

@[simp] theorem identsExpr_eq_14 :
    ∀ literals,
    identsExpr (.String literals) = identsStringLiteralList literals := by
  intro literals
  dsimp only [identsExpr, identsStringLiteralList]
  rw [identsA_unfold]
  dsimp only [identsStep]

@[simp] theorem identsExpr_eq_15 :
    ∀ sl,
    identsExpr (.Symbol sl) = ([] : List Symbol) := by
  intro sl
  dsimp only [identsExpr]
  rw [identsA_unfold]
  dsimp only [identsStep]

@[simp] theorem identsExpr_eq_16 :
    ∀ e,
    identsExpr (.Paren e) = identsExpr e := by
  intro e
  dsimp only [identsExpr]
  rw [identsA_unfold]
  dsimp only [identsStep]

@[simp] theorem identsExpr_eq_17 :
    ∀ e,
    identsExpr (.Throw e) = identsExpr e := by
  intro e
  dsimp only [identsExpr]
  rw [identsA_unfold]
  dsimp only [identsStep]

@[simp] theorem identsExpr_eq_18 :
    ∀ e casc,
    identsExpr (.Cascade e casc) = identsExpr e ++ identsCascade casc := by
  intro e casc
  dsimp only [identsExpr, identsCascade]
  rw [identsA_unfold]
  dsimp only [identsStep]

@[simp] theorem identsExprList_eq_1 :
    identsExprList (.nil) = ([] : List Symbol) := by
  dsimp only [identsExprList]
  rw [identsA_unfold]
  dsimp only [identsStep]

@[simp] theorem identsExprList_eq_2 :
    ∀ e es,
    identsExprList (.cons e es) = identsExpr e ++ identsExprList es := by
  intro e es
  dsimp only [identsExprList, identsExpr]
  rw [identsA_unfold]
  dsimp only [identsStep]

@[simp] theorem identsKVTypes_eq_1 :
    identsKVTypes (.none) = ([] : List Symbol) := by
  dsimp only [identsKVTypes]
  rw [identsA_unfold]
  dsimp only [identsStep]

@[simp] theorem identsKVTypes_eq_2 :
    ∀ k v,
    identsKVTypes (.some k v) = identsType k ++ identsType v := by
  intro k v
  dsimp only [identsKVTypes, identsType]
  rw [identsA_unfold]
  dsimp only [identsStep]

@[simp] theorem identsExprPairList_eq_1 :
    identsExprPairList (.nil) = ([] : List Symbol) := by
  dsimp only [identsExprPairList]
  rw [identsA_unfold]
  dsimp only [identsStep]

@[simp] theorem identsExprPairList_eq_2 :
    ∀ k v rest,
    identsExprPairList (.cons k v rest) = identsExpr k ++ identsExpr v ++ identsExprPairList rest := by
  intro k v rest
  dsimp only [identsExprPairList, identsExpr]
  rw [identsA_unfold]
  dsimp only [identsStep]

@[simp] theorem identsStringLiteral_eq_1 :
    ∀ raw triple quote prefix_ interpolated,
    identsStringLiteral (.mk raw triple quote prefix_ interpolated) = identsInterpList interpolated := by
  intro raw triple quote prefix_ interpolated
  dsimp only [identsStringLiteral, identsInterpList]
  rw [identsA_unfold]
  dsimp only [identsStep]

@[simp] theorem identsInterpList_eq_1 :
    identsInterpList (.nil) = ([] : List Symbol) := by
  dsimp only [identsInterpList]
  rw [identsA_unfold]
  dsimp only [identsStep]

@[simp] theorem identsInterpList_eq_2 :
    ∀ e sp rest,
    identsInterpList (.cons e sp rest) = identsExpr e ++ identsInterpList rest := by
  intro e sp rest
  dsimp only [identsInterpList, identsExpr]
  rw [identsA_unfold]
  dsimp only [identsStep]

@[simp] theorem identsStringLiteralList_eq_1 :
    identsStringLiteralList (.nil) = ([] : List Symbol) := by
  dsimp only [identsStringLiteralList]
  rw [identsA_unfold]
  dsimp only [identsStep]

@[simp] theorem identsStringLiteralList_eq_2 :
    ∀ sl sls,
    identsStringLiteralList (.cons sl sls) = identsStringLiteral sl ++ identsStringLiteralList sls := by
  intro sl sls
  dsimp only [identsStringLiteralList, identsStringLiteral]
  rw [identsA_unfold]
  dsimp only [identsStep]

@[simp] theorem identsOptionStringLiteral_eq_1 :
    identsOptionStringLiteral (.none) = ([] : List Symbol) := by
  dsimp only [identsOptionStringLiteral]
  rw [identsA_unfold]
  dsimp only [identsStep]

@[simp] theorem identsOptionStringLiteral_eq_2 :
    ∀ sl,
    identsOptionStringLiteral (.some sl) = identsStringLiteral sl := by
  intro sl
  dsimp only [identsOptionStringLiteral, identsStringLiteral]
  rw [identsA_unfold]
  dsimp only [identsStep]

@[simp] theorem identsSuffix_eq_1 :
    ∀ e,
    identsSuffix (.Index e) = identsExpr e := by
  intro e
  dsimp only [identsSuffix, identsExpr]
  rw [identsA_unfold]
  dsimp only [identsStep]

@[simp] theorem identsSuffix_eq_2 :
    ∀ name,
    identsSuffix (.Field name) = ([] : List Symbol) := by
  intro name
  dsimp only [identsSuffix]
  rw [identsA_unfold]
  dsimp only [identsStep]

@[simp] theorem identsSuffix_eq_3 :
    ∀ name,
    identsSuffix (.FieldIfNotNull name) = ([] : List Symbol) := by
  intro name
  dsimp only [identsSuffix]
  rw [identsA_unfold]
  dsimp only [identsStep]

@[simp] theorem identsSuffix_eq_4 :
    ∀ types args_,
    identsSuffix (.Call types args_) = identsTypeList types ++ identsArgs args_ := by
  intro types args_
  dsimp only [identsSuffix, identsArgs, identsTypeList]
  rw [identsA_unfold]
  dsimp only [identsStep]

@[simp] theorem identsSuffixList_eq_1 :
    identsSuffixList (.nil) = ([] : List Symbol) := by
  dsimp only [identsSuffixList]
  rw [identsA_unfold]
  dsimp only [identsStep]

@[simp] theorem identsSuffixList_eq_2 :
    ∀ sfx ss,
    identsSuffixList (.cons sfx ss) = identsSuffix sfx ++ identsSuffixList ss := by
  intro sfx ss
  dsimp only [identsSuffixList, identsSuffix]
  rw [identsA_unfold]
  dsimp only [identsStep]

@[simp] theorem identsCascade_eq_1 :
    ∀ suffixes assign,
    identsCascade (.mk suffixes assign) = identsSuffixList suffixes ++ identsCascadeAssign assign := by
  intro suffixes assign
  dsimp only [identsCascade, identsCascadeAssign, identsSuffixList]
  rw [identsA_unfold]
  dsimp only [identsStep]

@[simp] theorem identsCascadeAssign_eq_1 :
    identsCascadeAssign (.none) = ([] : List Symbol) := by
  dsimp only [identsCascadeAssign]
  rw [identsA_unfold]
  dsimp only [identsStep]

@[simp] theorem identsCascadeAssign_eq_2 :
    ∀ op e,
    identsCascadeAssign (.some op e) = identsExpr e := by
  intro op e
  dsimp only [identsCascadeAssign, identsExpr]
  rw [identsA_unfold]
  dsimp only [identsStep]

@[simp] theorem identsStatement_eq_1 :
    ∀ statements,
    identsStatement (.Block statements) = identsStatements statements := by
  intro statements
  dsimp only [identsStatement, identsStatements]
  rw [identsA_unfold]
  dsimp only [identsStep]

@[simp] theorem identsStatement_eq_2 :
    ∀ fcv ty vars,
    identsStatement (.Vars (.mk fcv ty) vars) = identsType ty ++ identsVarDefList vars := by
  intro fcv ty vars
  dsimp only [identsStatement, identsType, identsVarDefList]
  rw [identsA_unfold]
  dsimp only [identsStep]

@[simp] theorem identsStatement_eq_3 :
    ∀ f,
    identsStatement (.Function f) = identsFunction f := by
  intro f
  dsimp only [identsStatement, identsFunction]
  rw [identsA_unfold]
  dsimp only [identsStep]

@[simp] theorem identsStatement_eq_4 :
    ∀ await_ loop body,
    identsStatement (.For await_ loop body) = identsForLoop loop ++ identsStatement body := by
  intro await_ loop body
  dsimp only [identsStatement, identsForLoop]
  rw [identsA_unfold]
  dsimp only [identsStep]

@[simp] theorem identsStatement_eq_5 :
    ∀ cond body,
    identsStatement (.While cond body) = identsExpr cond ++ identsStatement body := by
  intro cond body
  dsimp only [identsStatement, identsExpr]
  rw [identsA_unfold]
  dsimp only [identsStep]

@[simp] theorem identsStatement_eq_6 :
    ∀ body cond,
    identsStatement (.DoWhile body cond) = identsStatement body ++ identsExpr cond := by
  intro body cond
  dsimp only [identsStatement, identsExpr]
  rw [identsA_unfold]
  dsimp only [identsStep]

@[simp] theorem identsStatement_eq_7 :
    ∀ e cs,
    identsStatement (.Switch e cs) = identsExpr e ++ identsSwitchCaseList cs := by
  intro e cs
  dsimp only [identsStatement, identsExpr, identsSwitchCaseList]
  rw [identsA_unfold]
  dsimp only [identsStep]

@[simp] theorem identsStatement_eq_8 :
    ∀ cond then_ else_,
    identsStatement (.If cond then_ else_) = identsExpr cond ++ identsStatement then_ ++ identsOptionStatement else_ := by
  intro cond then_ else_
  dsimp only [identsStatement, identsExpr, identsOptionStatement]
  rw [identsA_unfold]
  dsimp only [identsStep]

@[simp] theorem identsStatement_eq_9 :
    identsStatement (.Rethrow) = ([] : List Symbol) := by
  dsimp only [identsStatement]
  rw [identsA_unfold]
  dsimp only [identsStep]

@[simp] theorem identsStatement_eq_10 :
    ∀ block parts,
    identsStatement (.Try block parts) = identsStatement block ++ identsTryPartList parts := by
  intro block parts
  dsimp only [identsStatement, identsTryPartList]
  rw [identsA_unfold]
  dsimp only [identsStep]

@[simp] theorem identsStatement_eq_11 :
    ∀ label,
    identsStatement (.Break label) = ([] : List Symbol) := by
  intro label
  dsimp only [identsStatement]
  rw [identsA_unfold]
  dsimp only [identsStep]

@[simp] theorem identsStatement_eq_12 :
    ∀ label,
    identsStatement (.Continue label) = ([] : List Symbol) := by
  intro label
  dsimp only [identsStatement]
  rw [identsA_unfold]
  dsimp only [identsStep]

@[simp] theorem identsStatement_eq_13 :
    ∀ e,
    identsStatement (.Return e) = identsOptionInit e := by
  intro e
  dsimp only [identsStatement, identsOptionInit]
  rw [identsA_unfold]
  dsimp only [identsStep]

@[simp] theorem identsStatement_eq_14 :
    ∀ e,
    identsStatement (.Yield e) = identsExpr e := by
  intro e
  dsimp only [identsStatement, identsExpr]
  rw [identsA_unfold]
  dsimp only [identsStep]

@[simp] theorem identsStatement_eq_15 :
    ∀ e,
    identsStatement (.YieldEach e) = identsExpr e := by
  intro e
  dsimp only [identsStatement, identsExpr]
  rw [identsA_unfold]
  dsimp only [identsStep]

@[simp] theorem identsStatement_eq_16 :
    ∀ e,
    identsStatement (.Expression e) = identsOptionInit e := by
  intro e
  dsimp only [identsStatement, identsOptionInit]
  rw [identsA_unfold]
  dsimp only [identsStep]

@[simp] theorem identsStatement_eq_17 :
    ∀ args_,
    identsStatement (.Assert args_) = identsArgs args_ := by
  intro args_
  dsimp only [identsStatement, identsArgs]
  rw [identsA_unfold]
  dsimp only [identsStep]

@[simp] theorem identsStatement_eq_18 :
    ∀ label st,
    identsStatement (.Labelled label st) = identsStatement st := by
  intro label st
  dsimp only [identsStatement]
  rw [identsA_unfold]
  dsimp only [identsStep]

@[simp] theorem identsForLoop_eq_1 :
    ∀ init cond updates,
    identsForLoop (.CLike init cond updates) = identsStatement init ++ identsOptionInit cond ++ identsExprList updates := by
  intro init cond updates
  dsimp only [identsForLoop, identsExprList, identsOptionInit, identsStatement]
  rw [identsA_unfold]
  dsimp only [identsStep]

@[simp] theorem identsForLoop_eq_2 :
    ∀ name e,
    identsForLoop (.In name e) = identsExpr e := by
  intro name e
  dsimp only [identsForLoop, identsExpr]
  rw [identsA_unfold]
  dsimp only [identsStep]

@[simp] theorem identsForLoop_eq_3 :
    ∀ fcv ty var e,
    identsForLoop (.InVar (.mk fcv ty) var e) = identsType ty ++ identsVarDef var ++ identsExpr e := by
  intro fcv ty var e
  dsimp only [identsForLoop, identsExpr, identsType, identsVarDef]
  rw [identsA_unfold]
  dsimp only [identsStep]

@[simp] theorem identsStatements_eq_1 :
    identsStatements (.nil) = ([] : List Symbol) := by
  dsimp only [identsStatements]
  rw [identsA_unfold]
  dsimp only [identsStep]

@[simp] theorem identsStatements_eq_2 :
    ∀ st sts,
    identsStatements (.cons st sts) = identsStatement st ++ identsStatements sts := by
  intro st sts
  dsimp only [identsStatements, identsStatement]
  rw [identsA_unfold]
  dsimp only [identsStep]

@[simp] theorem identsOptionStatement_eq_1 :
    identsOptionStatement (.none) = ([] : List Symbol) := by
  dsimp only [identsOptionStatement]
  rw [identsA_unfold]
  dsimp only [identsStep]

@[simp] theorem identsOptionStatement_eq_2 :
    ∀ st,
    identsOptionStatement (.some st) = identsStatement st := by
  intro st
  dsimp only [identsOptionStatement, identsStatement]
  rw [identsA_unfold]
  dsimp only [identsStep]

@[simp] theorem identsSwitchCaseList_eq_1 :
    identsSwitchCaseList (.nil) = ([] : List Symbol) := by
  dsimp only [identsSwitchCaseList]
  rw [identsA_unfold]
  dsimp only [identsStep]

@[simp] theorem identsSwitchCaseList_eq_2 :
    ∀ labels value statements cs,
    identsSwitchCaseList (.cons (.mk labels value statements) cs) = identsOptionInit value ++ identsStatements statements ++ identsSwitchCaseList cs := by
  intro labels value statements cs
  dsimp only [identsSwitchCaseList, identsOptionInit, identsStatements]
  rw [identsA_unfold]
  dsimp only [identsStep]

@[simp] theorem identsTryPart_eq_1 :
    ∀ on_ catch_ block,
    identsTryPart (.mk on_ catch_ block) = identsOptionType on_ ++ identsStatement block := by
  intro on_ catch_ block
  dsimp only [identsTryPart, identsOptionType, identsStatement]
  rw [identsA_unfold]
  dsimp only [identsStep]

@[simp] theorem identsTryPartList_eq_1 :
    identsTryPartList (.nil) = ([] : List Symbol) := by
  dsimp only [identsTryPartList]
  rw [identsA_unfold]
  dsimp only [identsStep]

@[simp] theorem identsTryPartList_eq_2 :
    ∀ p ps,
    identsTryPartList (.cons p ps) = identsTryPart p ++ identsTryPartList ps := by
  intro p ps
  dsimp only [identsTryPartList, identsTryPart]
  rw [identsA_unfold]
  dsimp only [identsStep]

def identsConstructorInitializer : ConstructorInitializer → List Symbol
  | .Super _ args => identsArgs args
  | .This _ args => identsArgs args
  | .Assert args => identsArgs args
  | .Field _ _ e => identsExpr e

def identsConstructorInitializerList :
    List ConstructorInitializer → List Symbol
  | [] => []
  | ci :: cis =>
    identsConstructorInitializer ci ++ identsConstructorInitializerList cis

def identsClassMember : ClassMember → List Symbol
  | .Redirect metadata _ _ sig ty =>
    identsMeta metadata ++ identsFnSig sig ++ identsType ty
  | .Constructor metadata _ _ sig initializers function_body =>
    identsMeta metadata ++ identsFnSig sig
      ++ identsConstructorInitializerList initializers
      ++ identsOptionFnBody function_body
  | .Method metadata _ f => identsMeta metadata ++ identsFunction f
  | .Fields metadata _ (.mk _ ty) initializers =>
    identsMeta metadata ++ identsType ty ++ identsVarDefList initializers

def identsClassMemberList : List ClassMember → List Symbol
  | [] => []
  | m :: ms => identsClassMember m ++ identsClassMemberList ms

def identsQualifiedList : List Qualified → List Symbol
  | [] => []
  | q :: qs => identsQualified q ++ identsQualifiedList qs

mutual

def identsModule : Module → List Symbol
  | .mk _ items _ => identsItemList items

def identsItem : Item → List Symbol
  | .LibraryName metadata _ => identsMeta metadata
  | .Import metadata import_ =>
    identsMeta metadata ++ identsStringLiteral import_.uri
  | .Export metadata uri _ =>
    identsMeta metadata ++ identsStringLiteral uri
  | .Part metadata uri module =>
    identsMeta metadata ++ identsStringLiteral uri ++ identsModule module
  | .PartOf metadata _ => identsMeta metadata
  | .Class metadata _ _ generics superclass mixins interfaces members =>
    identsMeta metadata ++ identsTypeParameterList generics
      ++ identsOptionQualified superclass ++ identsQualifiedList mixins
      ++ identsQualifiedList interfaces ++ identsClassMemberList members
  | .MixinClass metadata _ _ generics mixins interfaces =>
    identsMeta metadata ++ identsTypeParameterList generics
      ++ identsQualifiedList mixins ++ identsQualifiedList interfaces
  | .Enum metadata _ _ => identsMeta metadata
  | .TypeAlias metadata _ generics ty =>
    identsMeta metadata ++ identsTypeParameterList generics
      ++ identsType ty
  | .Function f => identsFunction f
  | .Vars (.mk _ ty) vars => identsType ty ++ identsVarDefList vars

def identsItemList : ItemList → List Symbol
  | .nil => []
  | .cons i rest => identsItem i ++ identsItemList rest

end

set_option maxHeartbeats 3200000 in
/-- The identifiers occurring under the two untraversed metadata
positions (`ArgDef.metadata`, `TypeParameter.metadata`), anywhere in
a node. -/
def skippedStep : (n : NodeA) →
    ((m : NodeA) → sizeOf m < sizeOf n → List Symbol) →
    List Symbol
  | .qualified (.mk prefix_ _name params), cb =>
    cb (.optionQualified prefix_) (by simp <;> omega) ++ cb (.typeList params) (by simp <;> omega)
  | .optionQualified (.none), _cb =>
    ([] : List Symbol)
  | .optionQualified (.some q), cb =>
    cb (.qualified q) (by simp <;> omega)
  | .dartType (.Path q), cb =>
    cb (.qualified q) (by simp <;> omega)
  | .dartType (.FunctionOld sig), cb =>
    cb (.fnSig sig) (by simp <;> omega)
  | .dartType (.Function sig), cb =>
    cb (.fnSig sig) (by simp <;> omega)
  | .dartType (.Infer), _cb =>
    ([] : List Symbol)
  | .optionDartType (.none), _cb =>
    ([] : List Symbol)
  | .optionDartType (.some t), cb =>
    cb (.dartType t) (by simp <;> omega)
  | .typeList (.nil), _cb =>
    ([] : List Symbol)
  | .typeList (.cons t ts), cb =>
    cb (.dartType t) (by simp <;> omega) ++ cb (.typeList ts) (by simp <;> omega)
  | .typeParameterList (.nil), _cb =>
    ([] : List Symbol)
  | .typeParameterList (.cons (.mk metadata _name extends_) tps), cb =>
    identsMeta metadata ++ cb (.optionQualified extends_) (by simp <;> omega) ++ cb (.typeParameterList tps) (by simp <;> omega)
  | .function (.mk _name generics sig body), cb =>
    cb (.typeParameterList generics) (by simp <;> omega) ++ cb (.fnSig sig) (by simp <;> omega) ++ cb (.optionFnBody body) (by simp <;> omega)
  | .fnSig (.mk return_type required optional _optional_kind _async _generator), cb =>
    cb (.dartType return_type) (by simp <;> omega) ++ cb (.argDefList required) (by simp <;> omega) ++ cb (.argDefList optional) (by simp <;> omega)
  | .argDefList (.nil), _cb =>
    ([] : List Symbol)
  | .argDefList (.cons (.mk metadata _covariant (.mk _fcv ty) _field var) rest), cb =>
    identsMeta metadata ++ cb (.dartType ty) (by simp <;> omega) ++ cb (.varDef var) (by simp <;> omega) ++ cb (.argDefList rest) (by simp <;> omega)
  | .fnBody (.Arrow e), cb =>
    cb (.expr e) (by simp <;> omega)
  | .fnBody (.Block st), cb =>
    cb (.statement st) (by simp <;> omega)
  | .fnBody (.Native osl), cb =>
    cb (.optionStringLiteral osl) (by simp <;> omega)
  | .optionFnBody (.none), _cb =>
    ([] : List Symbol)
  | .optionFnBody (.some b), cb =>
    cb (.fnBody b) (by simp <;> omega)
  | .varDef (.mk _name init), cb =>
    cb (.optionExpr init) (by simp <;> omega)
  | .optionExpr (.none), _cb =>
    ([] : List Symbol)
  | .optionExpr (.some e), cb =>
    cb (.expr e) (by simp <;> omega)
  | .varDefList (.nil), _cb =>
    ([] : List Symbol)
  | .varDefList (.cons v vs), cb =>
    cb (.varDef v) (by simp <;> omega) ++ cb (.varDefList vs) (by simp <;> omega)
  | .metadataList (.nil), _cb =>
    ([] : List Symbol)
  | .metadataList (.cons (.mk qualified arguments) ms), cb =>
    cb (.qualified qualified) (by simp <;> omega) ++ cb (.optionArgs arguments) (by simp <;> omega) ++ cb (.metadataList ms) (by simp <;> omega)
  | .args (.mk unnamed named), cb =>
    cb (.exprList unnamed) (by simp <;> omega) ++ cb (.namedArgList named) (by simp <;> omega)
  | .namedArgList (.nil), _cb =>
    ([] : List Symbol)
  | .namedArgList (.cons (.mk _name expr) ns), cb =>
    cb (.expr expr) (by simp <;> omega) ++ cb (.namedArgList ns) (by simp <;> omega)
  | .optionArgs (.none), _cb =>
    ([] : List Symbol)
  | .optionArgs (.some a), cb =>
    cb (.args a) (by simp <;> omega)
  | .expr (.Unary _op e), cb =>
    cb (.expr e) (by simp <;> omega)
  | .expr (.Binary _op a b), cb =>
    cb (.expr a) (by simp <;> omega) ++ cb (.expr b) (by simp <;> omega)
  | .expr (.Conditional a b c), cb =>
    cb (.expr a) (by simp <;> omega) ++ cb (.expr b) (by simp <;> omega) ++ cb (.expr c) (by simp <;> omega)
  | .expr (.Is e ty), cb =>
    cb (.expr e) (by simp <;> omega) ++ cb (.dartType ty) (by simp <;> omega)
  | .expr (.IsNot e ty), cb =>
    cb (.expr e) (by simp <;> omega) ++ cb (.dartType ty) (by simp <;> omega)
  | .expr (.As e ty), cb =>
    cb (.expr e) (by simp <;> omega) ++ cb (.dartType ty) (by simp <;> omega)
  | .expr (.Suffix e sfx), cb =>
    cb (.expr e) (by simp <;> omega) ++ cb (.suffix sfx) (by simp <;> omega)
  | .expr (.Identifier _s), _cb =>
    ([] : List Symbol)
  | .expr (.Closure sig body), cb =>
    cb (.fnSig sig) (by simp <;> omega) ++ cb (.fnBody body) (by simp <;> omega)
  | .expr (.New _const_ path args_), cb =>
    cb (.qualified path) (by simp <;> omega) ++ cb (.args args_) (by simp <;> omega)
  | .expr (.List _const_ element_ty elements), cb =>
    cb (.optionDartType element_ty) (by simp <;> omega) ++ cb (.exprList elements) (by simp <;> omega)
  | .expr (.Map _const_ kv_ty kv), cb =>
    cb (.kvTypes kv_ty) (by simp <;> omega) ++ cb (.exprPairList kv) (by simp <;> omega)
  | .expr (.Number _n), _cb =>
    ([] : List Symbol)
  | .expr (.String literals), cb =>
    cb (.stringLiteralList literals) (by simp <;> omega)
  | .expr (.Symbol _sl), _cb =>
    ([] : List Symbol)
  | .expr (.Paren e), cb =>
    cb (.expr e) (by simp <;> omega)
  | .expr (.Throw e), cb =>
    cb (.expr e) (by simp <;> omega)
  | .expr (.Cascade e casc), cb =>
    cb (.expr e) (by simp <;> omega) ++ cb (.cascade casc) (by simp <;> omega)
  | .exprList (.nil), _cb =>
    ([] : List Symbol)
  | .exprList (.cons e es), cb =>
    cb (.expr e) (by simp <;> omega) ++ cb (.exprList es) (by simp <;> omega)
  | .kvTypes (.none), _cb =>
    ([] : List Symbol)
  | .kvTypes (.some k v), cb =>
    cb (.dartType k) (by simp <;> omega) ++ cb (.dartType v) (by simp <;> omega)
  | .exprPairList (.nil), _cb =>
    ([] : List Symbol)
  | .exprPairList (.cons k v rest), cb =>
    cb (.expr k) (by simp <;> omega) ++ cb (.expr v) (by simp <;> omega) ++ cb (.exprPairList rest) (by simp <;> omega)
  | .stringLiteral (.mk _raw _triple _quote _prefix_ interpolated), cb =>
    cb (.interpList interpolated) (by simp <;> omega)
  | .interpList (.nil), _cb =>
    ([] : List Symbol)
  | .interpList (.cons e _sp rest), cb =>
    cb (.expr e) (by simp <;> omega) ++ cb (.interpList rest) (by simp <;> omega)
  | .stringLiteralList (.nil), _cb =>
    ([] : List Symbol)
  | .stringLiteralList (.cons sl sls), cb =>
    cb (.stringLiteral sl) (by simp <;> omega) ++ cb (.stringLiteralList sls) (by simp <;> omega)
  | .optionStringLiteral (.none), _cb =>
    ([] : List Symbol)
  | .optionStringLiteral (.some sl), cb =>
    cb (.stringLiteral sl) (by simp <;> omega)
  | .suffix (.Index e), cb =>
    cb (.expr e) (by simp <;> omega)
  | .suffix (.Field _name), _cb =>
    ([] : List Symbol)
  | .suffix (.FieldIfNotNull _name), _cb =>
    ([] : List Symbol)
  | .suffix (.Call types args_), cb =>
    cb (.typeList types) (by simp <;> omega) ++ cb (.args args_) (by simp <;> omega)
  | .suffixList (.nil), _cb =>
    ([] : List Symbol)
  | .suffixList (.cons sfx ss), cb =>
    cb (.suffix sfx) (by simp <;> omega) ++ cb (.suffixList ss) (by simp <;> omega)
  | .cascade (.mk suffixes assign), cb =>
    cb (.suffixList suffixes) (by simp <;> omega) ++ cb (.cascadeAssign assign) (by simp <;> omega)
  | .cascadeAssign (.none), _cb =>
    ([] : List Symbol)
  | .cascadeAssign (.some _op e), cb =>
    cb (.expr e) (by simp <;> omega)
  | .statement (.Block statements), cb =>
    cb (.statementList statements) (by simp <;> omega)
  | .statement (.Vars (.mk _fcv ty) vars), cb =>
    cb (.dartType ty) (by simp <;> omega) ++ cb (.varDefList vars) (by simp <;> omega)
  | .statement (.Function f), cb =>
    cb (.function f) (by simp <;> omega)
  | .statement (.For _await_ loop body), cb =>
    cb (.forLoop loop) (by simp <;> omega) ++ cb (.statement body) (by simp <;> omega)
  | .statement (.While cond body), cb =>
    cb (.expr cond) (by simp <;> omega) ++ cb (.statement body) (by simp <;> omega)
  | .statement (.DoWhile body cond), cb =>
    cb (.statement body) (by simp <;> omega) ++ cb (.expr cond) (by simp <;> omega)
  | .statement (.Switch e cs), cb =>
    cb (.expr e) (by simp <;> omega) ++ cb (.switchCaseList cs) (by simp <;> omega)
  | .statement (.If cond then_ else_), cb =>
    cb (.expr cond) (by simp <;> omega) ++ cb (.statement then_) (by simp <;> omega) ++ cb (.optionStatement else_) (by simp <;> omega)
  | .statement (.Rethrow), _cb =>
    ([] : List Symbol)
  | .statement (.Try block parts), cb =>
    cb (.statement block) (by simp <;> omega) ++ cb (.tryPartList parts) (by simp <;> omega)
  | .statement (.Break _label), _cb =>
    ([] : List Symbol)
  | .statement (.Continue _label), _cb =>
    ([] : List Symbol)
  | .statement (.Return e), cb =>
    cb (.optionExpr e) (by simp <;> omega)
  | .statement (.Yield e), cb =>
    cb (.expr e) (by simp <;> omega)
  | .statement (.YieldEach e), cb =>
    cb (.expr e) (by simp <;> omega)
  | .statement (.Expression e), cb =>
    cb (.optionExpr e) (by simp <;> omega)
  | .statement (.Assert args_), cb =>
    cb (.args args_) (by simp <;> omega)
  | .statement (.Labelled _label st), cb =>
    cb (.statement st) (by simp <;> omega)
  | .forLoop (.CLike init cond updates), cb =>
    cb (.statement init) (by simp <;> omega) ++ cb (.optionExpr cond) (by simp <;> omega) ++ cb (.exprList updates) (by simp <;> omega)
  | .forLoop (.In _name e), cb =>
    cb (.expr e) (by simp <;> omega)
  | .forLoop (.InVar (.mk _fcv ty) var e), cb =>
    cb (.dartType ty) (by simp <;> omega) ++ cb (.varDef var) (by simp <;> omega) ++ cb (.expr e) (by simp <;> omega)
  | .statementList (.nil), _cb =>
    ([] : List Symbol)
  | .statementList (.cons st sts), cb =>
    cb (.statement st) (by simp <;> omega) ++ cb (.statementList sts) (by simp <;> omega)
  | .optionStatement (.none), _cb =>
    ([] : List Symbol)
  | .optionStatement (.some st), cb =>
    cb (.statement st) (by simp <;> omega)
  | .switchCaseList (.nil), _cb =>
    ([] : List Symbol)
  | .switchCaseList (.cons (.mk _labels value statements) cs), cb =>
    cb (.optionExpr value) (by simp <;> omega) ++ cb (.statementList statements) (by simp <;> omega) ++ cb (.switchCaseList cs) (by simp <;> omega)
  | .tryPart (.mk on_ _catch_ block), cb =>
    cb (.optionDartType on_) (by simp <;> omega) ++ cb (.statement block) (by simp <;> omega)
  | .tryPartList (.nil), _cb =>
    ([] : List Symbol)
  | .tryPartList (.cons p ps), cb =>
    cb (.tryPart p) (by simp <;> omega) ++ cb (.tryPartList ps) (by simp <;> omega)

/-- The packed recursion: one well-founded definition with a
single recursive call site, stepping through `skippedStep`. -/
def skippedA (n : NodeA) : List Symbol :=
  skippedStep n (fun m _ => skippedA m)
termination_by sizeOf n
decreasing_by assumption

unseal skippedA in
/-- One-step unfolding of the packed recursion (the fixpoint
equation of `skippedA`). -/
theorem skippedA_unfold : ∀ n : NodeA,
    skippedA n = skippedStep n (fun m _ => skippedA m) := fun n =>
  WellFounded.fix_eq _ _ n

/-- Dispatch wrapper for `skippedQualified` into the packed
recursion `skippedA`. -/
def skippedQualified (x : Qualified) : List Symbol :=
  skippedA (.qualified x)

/-- Dispatch wrapper for `skippedOptionQualified` into the packed
recursion `skippedA`. -/
def skippedOptionQualified (x : OptionQualified) : List Symbol :=
  skippedA (.optionQualified x)

/-- Dispatch wrapper for `skippedType` into the packed
recursion `skippedA`. -/
def skippedType (x : DartType) : List Symbol :=
  skippedA (.dartType x)

/-- Dispatch wrapper for `skippedOptionType` into the packed
recursion `skippedA`. -/
def skippedOptionType (x : OptionDartType) : List Symbol :=
  skippedA (.optionDartType x)

/-- Dispatch wrapper for `skippedTypeList` into the packed
recursion `skippedA`. -/
def skippedTypeList (x : TypeList) : List Symbol :=
  skippedA (.typeList x)

/-- Dispatch wrapper for `skippedTypeParameterList` into the packed
recursion `skippedA`. -/
def skippedTypeParameterList (x : TypeParameterList) : List Symbol :=
  skippedA (.typeParameterList x)

/-- Dispatch wrapper for `skippedFunction` into the packed
recursion `skippedA`. -/
def skippedFunction (x : Function) : List Symbol :=
  skippedA (.function x)

/-- Dispatch wrapper for `skippedFnSig` into the packed
recursion `skippedA`. -/
def skippedFnSig (x : FnSig) : List Symbol :=
  skippedA (.fnSig x)

/-- Dispatch wrapper for `skippedArgDefList` into the packed
recursion `skippedA`. -/
def skippedArgDefList (x : ArgDefList) : List Symbol :=
  skippedA (.argDefList x)

/-- Dispatch wrapper for `skippedFnBody` into the packed
recursion `skippedA`. -/
def skippedFnBody (x : FnBody) : List Symbol :=
  skippedA (.fnBody x)

/-- Dispatch wrapper for `skippedOptionFnBody` into the packed
recursion `skippedA`. -/
def skippedOptionFnBody (x : OptionFnBody) : List Symbol :=
  skippedA (.optionFnBody x)

/-- Dispatch wrapper for `skippedVarDef` into the packed
recursion `skippedA`. -/
def skippedVarDef (x : VarDef) : List Symbol :=
  skippedA (.varDef x)

/-- Dispatch wrapper for `skippedOptionInit` into the packed
recursion `skippedA`. -/
def skippedOptionInit (x : OptionExpr) : List Symbol :=
  skippedA (.optionExpr x)

/-- Dispatch wrapper for `skippedVarDefList` into the packed
recursion `skippedA`. -/
def skippedVarDefList (x : VarDefList) : List Symbol :=
  skippedA (.varDefList x)

/-- Dispatch wrapper for `skippedMeta` into the packed
recursion `skippedA`. -/
def skippedMeta (x : MetadataList) : List Symbol :=
  skippedA (.metadataList x)

/-- Dispatch wrapper for `skippedArgs` into the packed
recursion `skippedA`. -/
def skippedArgs (x : Args) : List Symbol :=
  skippedA (.args x)

/-- Dispatch wrapper for `skippedNamedArgList` into the packed
recursion `skippedA`. -/
def skippedNamedArgList (x : NamedArgList) : List Symbol :=
  skippedA (.namedArgList x)

/-- Dispatch wrapper for `skippedOptionArgs` into the packed
recursion `skippedA`. -/
def skippedOptionArgs (x : OptionArgs) : List Symbol :=
  skippedA (.optionArgs x)

/-- Dispatch wrapper for `skippedExpr` into the packed
recursion `skippedA`. -/
def skippedExpr (x : Expr) : List Symbol :=
  skippedA (.expr x)

/-- Dispatch wrapper for `skippedExprList` into the packed
recursion `skippedA`. -/
def skippedExprList (x : ExprList) : List Symbol :=
  skippedA (.exprList x)

/-- Dispatch wrapper for `skippedKVTypes` into the packed
recursion `skippedA`. -/
def skippedKVTypes (x : KVTypes) : List Symbol :=
  skippedA (.kvTypes x)

/-- Dispatch wrapper for `skippedExprPairList` into the packed
recursion `skippedA`. -/
def skippedExprPairList (x : ExprPairList) : List Symbol :=
  skippedA (.exprPairList x)

/-- Dispatch wrapper for `skippedStringLiteral` into the packed
recursion `skippedA`. -/
def skippedStringLiteral (x : StringLiteral) : List Symbol :=
  skippedA (.stringLiteral x)

/-- Dispatch wrapper for `skippedInterpList` into the packed
recursion `skippedA`. -/
def skippedInterpList (x : InterpList) : List Symbol :=
  skippedA (.interpList x)

/-- Dispatch wrapper for `skippedStringLiteralList` into the packed
recursion `skippedA`. -/
def skippedStringLiteralList (x : StringLiteralList) : List Symbol :=
  skippedA (.stringLiteralList x)

/-- Dispatch wrapper for `skippedOptionStringLiteral` into the packed
recursion `skippedA`. -/
def skippedOptionStringLiteral (x : OptionStringLiteral) : List Symbol :=
  skippedA (.optionStringLiteral x)

/-- Dispatch wrapper for `skippedSuffix` into the packed
recursion `skippedA`. -/
def skippedSuffix (x : Suffix) : List Symbol :=
  skippedA (.suffix x)

/-- Dispatch wrapper for `skippedSuffixList` into the packed
recursion `skippedA`. -/
def skippedSuffixList (x : SuffixList) : List Symbol :=
  skippedA (.suffixList x)

/-- Dispatch wrapper for `skippedCascade` into the packed
recursion `skippedA`. -/
def skippedCascade (x : Cascade) : List Symbol :=
  skippedA (.cascade x)

/-- Dispatch wrapper for `skippedCascadeAssign` into the packed
recursion `skippedA`. -/
def skippedCascadeAssign (x : CascadeAssign) : List Symbol :=
  skippedA (.cascadeAssign x)

/-- Dispatch wrapper for `skippedStatement` into the packed
recursion `skippedA`. -/
def skippedStatement (x : Statement) : List Symbol :=
  skippedA (.statement x)

/-- Dispatch wrapper for `skippedForLoop` into the packed
recursion `skippedA`. -/
def skippedForLoop (x : ForLoop) : List Symbol :=
  skippedA (.forLoop x)

/-- Dispatch wrapper for `skippedStatements` into the packed
recursion `skippedA`. -/
def skippedStatements (x : StatementList) : List Symbol :=
  skippedA (.statementList x)

/-- Dispatch wrapper for `skippedOptionStatement` into the packed
recursion `skippedA`. -/
def skippedOptionStatement (x : OptionStatement) : List Symbol :=
  skippedA (.optionStatement x)

/-- Dispatch wrapper for `skippedSwitchCaseList` into the packed
recursion `skippedA`. -/
def skippedSwitchCaseList (x : SwitchCaseList) : List Symbol :=
  skippedA (.switchCaseList x)

/-- Dispatch wrapper for `skippedTryPart` into the packed
recursion `skippedA`. -/
def skippedTryPart (x : TryPart) : List Symbol :=
  skippedA (.tryPart x)

/-- Dispatch wrapper for `skippedTryPartList` into the packed
recursion `skippedA`. -/
def skippedTryPartList (x : TryPartList) : List Symbol :=
  skippedA (.tryPartList x)

@[simp] theorem skippedQualified_eq_1 :
    ∀ prefix_ name params,
    skippedQualified (.mk prefix_ name params) = skippedOptionQualified prefix_ ++ skippedTypeList params := by
  intro prefix_ name params
  dsimp only [skippedQualified, skippedOptionQualified, skippedTypeList]
  rw [skippedA_unfold]
  dsimp only [skippedStep]

@[simp] theorem skippedOptionQualified_eq_1 :
    skippedOptionQualified (.none) = ([] : List Symbol) := by
  dsimp only [skippedOptionQualified]
  rw [skippedA_unfold]
  dsimp only [skippedStep]

@[simp] theorem skippedOptionQualified_eq_2 :
    ∀ q,
    skippedOptionQualified (.some q) = skippedQualified q := by
  intro q
  dsimp only [skippedOptionQualified, skippedQualified]
  rw [skippedA_unfold]
  dsimp only [skippedStep]

@[simp] theorem skippedType_eq_1 :
    ∀ q,
    skippedType (.Path q) = skippedQualified q := by
  intro q
  dsimp only [skippedType, skippedQualified]
  rw [skippedA_unfold]
  dsimp only [skippedStep]

@[simp] theorem skippedType_eq_2 :
    ∀ sig,
    skippedType (.FunctionOld sig) = skippedFnSig sig := by
  intro sig
  dsimp only [skippedType, skippedFnSig]
  rw [skippedA_unfold]
  dsimp only [skippedStep]

@[simp] theorem skippedType_eq_3 :
    ∀ sig,
    skippedType (.Function sig) = skippedFnSig sig := by
  intro sig
  dsimp only [skippedType, skippedFnSig]
  rw [skippedA_unfold]
  dsimp only [skippedStep]

@[simp] theorem skippedType_eq_4 :
    skippedType (.Infer) = ([] : List Symbol) := by
  dsimp only [skippedType]
  rw [skippedA_unfold]
  dsimp only [skippedStep]

@[simp] theorem skippedOptionType_eq_1 :
    skippedOptionType (.none) = ([] : List Symbol) := by
  dsimp only [skippedOptionType]
  rw [skippedA_unfold]
  dsimp only [skippedStep]

@[simp] theorem skippedOptionType_eq_2 :
    ∀ t,
    skippedOptionType (.some t) = skippedType t := by
  intro t
  dsimp only [skippedOptionType, skippedType]
  rw [skippedA_unfold]
  dsimp only [skippedStep]

@[simp] theorem skippedTypeList_eq_1 :
    skippedTypeList (.nil) = ([] : List Symbol) := by
  dsimp only [skippedTypeList]
  rw [skippedA_unfold]
  dsimp only [skippedStep]

@[simp] theorem skippedTypeList_eq_2 :
    ∀ t ts,
    skippedTypeList (.cons t ts) = skippedType t ++ skippedTypeList ts := by
  intro t ts
  dsimp only [skippedTypeList, skippedType]
  rw [skippedA_unfold]
  dsimp only [skippedStep]

@[simp] theorem skippedTypeParameterList_eq_1 :
    skippedTypeParameterList (.nil) = ([] : List Symbol) := by
  dsimp only [skippedTypeParameterList]
  rw [skippedA_unfold]
  dsimp only [skippedStep]

@[simp] theorem skippedTypeParameterList_eq_2 :
    ∀ metadata name extends_ tps,
    skippedTypeParameterList (.cons (.mk metadata name extends_) tps) = identsMeta metadata ++ skippedOptionQualified extends_ ++ skippedTypeParameterList tps := by
  intro metadata name extends_ tps
  dsimp only [skippedTypeParameterList, skippedOptionQualified]
  rw [skippedA_unfold]
  dsimp only [skippedStep]

@[simp] theorem skippedFunction_eq_1 :
    ∀ name generics sig body,
    skippedFunction (.mk name generics sig body) = skippedTypeParameterList generics ++ skippedFnSig sig ++ skippedOptionFnBody body := by
  intro name generics sig body
  dsimp only [skippedFunction, skippedFnSig, skippedOptionFnBody, skippedTypeParameterList]
  rw [skippedA_unfold]
  dsimp only [skippedStep]

@[simp] theorem skippedFnSig_eq_1 :
    ∀ return_type required optional optional_kind async generator,
    skippedFnSig (.mk return_type required optional optional_kind async generator) = skippedType return_type ++ skippedArgDefList required ++ skippedArgDefList optional := by
  intro return_type required optional optional_kind async generator
  dsimp only [skippedFnSig, skippedArgDefList, skippedType]
  rw [skippedA_unfold]
  dsimp only [skippedStep]

@[simp] theorem skippedArgDefList_eq_1 :
    skippedArgDefList (.nil) = ([] : List Symbol) := by
  dsimp only [skippedArgDefList]
  rw [skippedA_unfold]
  dsimp only [skippedStep]

@[simp] theorem skippedArgDefList_eq_2 :
    ∀ metadata covariant fcv ty field var rest,
    skippedArgDefList (.cons (.mk metadata covariant (.mk fcv ty) field var) rest) = identsMeta metadata ++ skippedType ty ++ skippedVarDef var ++ skippedArgDefList rest := by
  intro metadata covariant fcv ty field var rest
  dsimp only [skippedArgDefList, skippedType, skippedVarDef]
  rw [skippedA_unfold]
  dsimp only [skippedStep]

@[simp] theorem skippedFnBody_eq_1 :
    ∀ e,
    skippedFnBody (.Arrow e) = skippedExpr e := by
  intro e
  dsimp only [skippedFnBody, skippedExpr]
  rw [skippedA_unfold]
  dsimp only [skippedStep]

@[simp] theorem skippedFnBody_eq_2 :
    ∀ st,
    skippedFnBody (.Block st) = skippedStatement st := by
  intro st
  dsimp only [skippedFnBody, skippedStatement]
  rw [skippedA_unfold]
  dsimp only [skippedStep]

@[simp] theorem skippedFnBody_eq_3 :
    ∀ osl,
    skippedFnBody (.Native osl) = skippedOptionStringLiteral osl := by
  intro osl
  dsimp only [skippedFnBody, skippedOptionStringLiteral]
  rw [skippedA_unfold]
  dsimp only [skippedStep]

@[simp] theorem skippedOptionFnBody_eq_1 :
    skippedOptionFnBody (.none) = ([] : List Symbol) := by
  dsimp only [skippedOptionFnBody]
  rw [skippedA_unfold]
  dsimp only [skippedStep]

@[simp] theorem skippedOptionFnBody_eq_2 :
    ∀ b,
    skippedOptionFnBody (.some b) = skippedFnBody b := by
  intro b
  dsimp only [skippedOptionFnBody, skippedFnBody]
  rw [skippedA_unfold]
  dsimp only [skippedStep]

@[simp] theorem skippedVarDef_eq_1 :
    ∀ name init,
    skippedVarDef (.mk name init) = skippedOptionInit init := by
  intro name init
  dsimp only [skippedVarDef, skippedOptionInit]
  rw [skippedA_unfold]
  dsimp only [skippedStep]

@[simp] theorem skippedOptionInit_eq_1 :
    skippedOptionInit (.none) = ([] : List Symbol) := by
  dsimp only [skippedOptionInit]
  rw [skippedA_unfold]
  dsimp only [skippedStep]

@[simp] theorem skippedOptionInit_eq_2 :
    ∀ e,
    skippedOptionInit (.some e) = skippedExpr e := by
  intro e
  dsimp only [skippedOptionInit, skippedExpr]
  rw [skippedA_unfold]
  dsimp only [skippedStep]

@[simp] theorem skippedVarDefList_eq_1 :
    skippedVarDefList (.nil) = ([] : List Symbol) := by
  dsimp only [skippedVarDefList]
  rw [skippedA_unfold]
  dsimp only [skippedStep]

@[simp] theorem skippedVarDefList_eq_2 :
    ∀ v vs,
    skippedVarDefList (.cons v vs) = skippedVarDef v ++ skippedVarDefList vs := by
  intro v vs
  dsimp only [skippedVarDefList, skippedVarDef]
  rw [skippedA_unfold]
  dsimp only [skippedStep]

@[simp] theorem skippedMeta_eq_1 :
    skippedMeta (.nil) = ([] : List Symbol) := by
  dsimp only [skippedMeta]
  rw [skippedA_unfold]
  dsimp only [skippedStep]

@[simp] theorem skippedMeta_eq_2 :
    ∀ qualified arguments ms,
    skippedMeta (.cons (.mk qualified arguments) ms) = skippedQualified qualified ++ skippedOptionArgs arguments ++ skippedMeta ms := by
  intro qualified arguments ms
  dsimp only [skippedMeta, skippedOptionArgs, skippedQualified]
  rw [skippedA_unfold]
  dsimp only [skippedStep]

@[simp] theorem skippedArgs_eq_1 :
    ∀ unnamed named,
    skippedArgs (.mk unnamed named) = skippedExprList unnamed ++ skippedNamedArgList named := by
  intro unnamed named
  dsimp only [skippedArgs, skippedExprList, skippedNamedArgList]
  rw [skippedA_unfold]
  dsimp only [skippedStep]

@[simp] theorem skippedNamedArgList_eq_1 :
    skippedNamedArgList (.nil) = ([] : List Symbol) := by
  dsimp only [skippedNamedArgList]
  rw [skippedA_unfold]
  dsimp only [skippedStep]

@[simp] theorem skippedNamedArgList_eq_2 :
    ∀ name expr ns,
    skippedNamedArgList (.cons (.mk name expr) ns) = skippedExpr expr ++ skippedNamedArgList ns := by
  intro name expr ns
  dsimp only [skippedNamedArgList, skippedExpr]
  rw [skippedA_unfold]
  dsimp only [skippedStep]

@[simp] theorem skippedOptionArgs_eq_1 :
    skippedOptionArgs (.none) = ([] : List Symbol) := by
  dsimp only [skippedOptionArgs]
  rw [skippedA_unfold]
  dsimp only [skippedStep]

@[simp] theorem skippedOptionArgs_eq_2 :
    ∀ a,
    skippedOptionArgs (.some a) = skippedArgs a := by
  intro a
  dsimp only [skippedOptionArgs, skippedArgs]
  rw [skippedA_unfold]
  dsimp only [skippedStep]

@[simp] theorem skippedExpr_eq_1 :
    ∀ op e,
    skippedExpr (.Unary op e) = skippedExpr e := by
  intro op e
  dsimp only [skippedExpr]
  rw [skippedA_unfold]
  dsimp only [skippedStep]

@[simp] theorem skippedExpr_eq_2 :
    ∀ op a b,
    skippedExpr (.Binary op a b) = skippedExpr a ++ skippedExpr b := by
  intro op a b
  dsimp only [skippedExpr]
  rw [skippedA_unfold]
  dsimp only [skippedStep]

@[simp] theorem skippedExpr_eq_3 :
    ∀ a b c,
    skippedExpr (.Conditional a b c) = skippedExpr a ++ skippedExpr b ++ skippedExpr c := by
  intro a b c
  dsimp only [skippedExpr]
  rw [skippedA_unfold]
  dsimp only [skippedStep]

@[simp] theorem skippedExpr_eq_4 :
    ∀ e ty,
    skippedExpr (.Is e ty) = skippedExpr e ++ skippedType ty := by
  intro e ty
  dsimp only [skippedExpr, skippedType]
  rw [skippedA_unfold]
  dsimp only [skippedStep]

@[simp] theorem skippedExpr_eq_5 :
    ∀ e ty,
    skippedExpr (.IsNot e ty) = skippedExpr e ++ skippedType ty := by
  intro e ty
  dsimp only [skippedExpr, skippedType]
  rw [skippedA_unfold]
  dsimp only [skippedStep]

@[simp] theorem skippedExpr_eq_6 :
    ∀ e ty,
    skippedExpr (.As e ty) = skippedExpr e ++ skippedType ty := by
  intro e ty
  dsimp only [skippedExpr, skippedType]
  rw [skippedA_unfold]
  dsimp only [skippedStep]

@[simp] theorem skippedExpr_eq_7 :
    ∀ e sfx,
    skippedExpr (.Suffix e sfx) = skippedExpr e ++ skippedSuffix sfx := by
  intro e sfx
  dsimp only [skippedExpr, skippedSuffix]
  rw [skippedA_unfold]
  dsimp only [skippedStep]

@[simp] theorem skippedExpr_eq_8 :
    ∀ s,
    skippedExpr (.Identifier s) = ([] : List Symbol) := by
  intro s
  dsimp only [skippedExpr]
  rw [skippedA_unfold]
  dsimp only [skippedStep]

@[simp] theorem skippedExpr_eq_9 :
    ∀ sig body,
    skippedExpr (.Closure sig body) = skippedFnSig sig ++ skippedFnBody body := by
  intro sig body
  dsimp only [skippedExpr, skippedFnBody, skippedFnSig]
  rw [skippedA_unfold]
  dsimp only [skippedStep]

@[simp] theorem skippedExpr_eq_10 :
    ∀ const_ path args_,
    skippedExpr (.New const_ path args_) = skippedQualified path ++ skippedArgs args_ := by
  intro const_ path args_
  dsimp only [skippedExpr, skippedArgs, skippedQualified]
  rw [skippedA_unfold]
  dsimp only [skippedStep]

@[simp] theorem skippedExpr_eq_11 :
    ∀ const_ element_ty elements,
    skippedExpr (.List const_ element_ty elements) = skippedOptionType element_ty ++ skippedExprList elements := by
  intro const_ element_ty elements
  dsimp only [skippedExpr, skippedExprList, skippedOptionType]
  rw [skippedA_unfold]
  dsimp only [skippedStep]

@[simp] theorem skippedExpr_eq_12 :
    ∀ const_ kv_ty kv,
    skippedExpr (.Map const_ kv_ty kv) = skippedKVTypes kv_ty ++ skippedExprPairList kv := by
  intro const_ kv_ty kv
  dsimp only [skippedExpr, skippedExprPairList, skippedKVTypes]
  rw [skippedA_unfold]
  dsimp only [skippedStep]

@[simp] theorem skippedExpr_eq_13 :
    ∀ n,
    skippedExpr (.Number n) = ([] : List Symbol) := by
  intro n
  dsimp only [skippedExpr]
  rw [skippedA_unfold]
  dsimp only [skippedStep]

@[simp] theorem skippedExpr_eq_14 :
    ∀ literals,
    skippedExpr (.String literals) = skippedStringLiteralList literals := by
  intro literals
  dsimp only [skippedExpr, skippedStringLiteralList]
  rw [skippedA_unfold]
  dsimp only [skippedStep]

@[simp] theorem skippedExpr_eq_15 :
    ∀ sl,
    skippedExpr (.Symbol sl) = ([] : List Symbol) := by
  intro sl
  dsimp only [skippedExpr]
  rw [skippedA_unfold]
  dsimp only [skippedStep]

@[simp] theorem skippedExpr_eq_16 :
    ∀ e,
    skippedExpr (.Paren e) = skippedExpr e := by
  intro e
  dsimp only [skippedExpr]
  rw [skippedA_unfold]
  dsimp only [skippedStep]

@[simp] theorem skippedExpr_eq_17 :
    ∀ e,
    skippedExpr (.Throw e) = skippedExpr e := by
  intro e
  dsimp only [skippedExpr]
  rw [skippedA_unfold]
  dsimp only [skippedStep]

@[simp] theorem skippedExpr_eq_18 :
    ∀ e casc,
    skippedExpr (.Cascade e casc) = skippedExpr e ++ skippedCascade casc := by
  intro e casc
  dsimp only [skippedExpr, skippedCascade]
  rw [skippedA_unfold]
  dsimp only [skippedStep]

@[simp] theorem skippedExprList_eq_1 :
    skippedExprList (.nil) = ([] : List Symbol) := by
  dsimp only [skippedExprList]
  rw [skippedA_unfold]
  dsimp only [skippedStep]

@[simp] theorem skippedExprList_eq_2 :
    ∀ e es,
    skippedExprList (.cons e es) = skippedExpr e ++ skippedExprList es := by
  intro e es
  dsimp only [skippedExprList, skippedExpr]
  rw [skippedA_unfold]
  dsimp only [skippedStep]

@[simp] theorem skippedKVTypes_eq_1 :
    skippedKVTypes (.none) = ([] : List Symbol) := by
  dsimp only [skippedKVTypes]
  rw [skippedA_unfold]
  dsimp only [skippedStep]

@[simp] theorem skippedKVTypes_eq_2 :
    ∀ k v,
    skippedKVTypes (.some k v) = skippedType k ++ skippedType v := by
  intro k v
  dsimp only [skippedKVTypes, skippedType]
  rw [skippedA_unfold]
  dsimp only [skippedStep]

@[simp] theorem skippedExprPairList_eq_1 :
    skippedExprPairList (.nil) = ([] : List Symbol) := by
  dsimp only [skippedExprPairList]
  rw [skippedA_unfold]
  dsimp only [skippedStep]

@[simp] theorem skippedExprPairList_eq_2 :
    ∀ k v rest,
    skippedExprPairList (.cons k v rest) = skippedExpr k ++ skippedExpr v ++ skippedExprPairList rest := by
  intro k v rest
  dsimp only [skippedExprPairList, skippedExpr]
  rw [skippedA_unfold]
  dsimp only [skippedStep]

@[simp] theorem skippedStringLiteral_eq_1 :
    ∀ raw triple quote prefix_ interpolated,
    skippedStringLiteral (.mk raw triple quote prefix_ interpolated) = skippedInterpList interpolated := by
  intro raw triple quote prefix_ interpolated
  dsimp only [skippedStringLiteral, skippedInterpList]
  rw [skippedA_unfold]
  dsimp only [skippedStep]

@[simp] theorem skippedInterpList_eq_1 :
    skippedInterpList (.nil) = ([] : List Symbol) := by
  dsimp only [skippedInterpList]
  rw [skippedA_unfold]
  dsimp only [skippedStep]

@[simp] theorem skippedInterpList_eq_2 :
    ∀ e sp rest,
    skippedInterpList (.cons e sp rest) = skippedExpr e ++ skippedInterpList rest := by
  intro e sp rest
  dsimp only [skippedInterpList, skippedExpr]
  rw [skippedA_unfold]
  dsimp only [skippedStep]

@[simp] theorem skippedStringLiteralList_eq_1 :
    skippedStringLiteralList (.nil) = ([] : List Symbol) := by
  dsimp only [skippedStringLiteralList]
  rw [skippedA_unfold]
  dsimp only [skippedStep]

@[simp] theorem skippedStringLiteralList_eq_2 :
    ∀ sl sls,
    skippedStringLiteralList (.cons sl sls) = skippedStringLiteral sl ++ skippedStringLiteralList sls := by
  intro sl sls
  dsimp only [skippedStringLiteralList, skippedStringLiteral]
  rw [skippedA_unfold]
  dsimp only [skippedStep]

@[simp] theorem skippedOptionStringLiteral_eq_1 :
    skippedOptionStringLiteral (.none) = ([] : List Symbol) := by
  dsimp only [skippedOptionStringLiteral]
  rw [skippedA_unfold]
  dsimp only [skippedStep]

@[simp] theorem skippedOptionStringLiteral_eq_2 :
    ∀ sl,
    skippedOptionStringLiteral (.some sl) = skippedStringLiteral sl := by
  intro sl
  dsimp only [skippedOptionStringLiteral, skippedStringLiteral]
  rw [skippedA_unfold]
  dsimp only [skippedStep]

@[simp] theorem skippedSuffix_eq_1 :
    ∀ e,
    skippedSuffix (.Index e) = skippedExpr e := by
  intro e
  dsimp only [skippedSuffix, skippedExpr]
  rw [skippedA_unfold]
  dsimp only [skippedStep]

@[simp] theorem skippedSuffix_eq_2 :
    ∀ name,
    skippedSuffix (.Field name) = ([] : List Symbol) := by
  intro name
  dsimp only [skippedSuffix]
  rw [skippedA_unfold]
  dsimp only [skippedStep]

@[simp] theorem skippedSuffix_eq_3 :
    ∀ name,
    skippedSuffix (.FieldIfNotNull name) = ([] : List Symbol) := by
  intro name
  dsimp only [skippedSuffix]
  rw [skippedA_unfold]
  dsimp only [skippedStep]

@[simp] theorem skippedSuffix_eq_4 :
    ∀ types args_,
    skippedSuffix (.Call types args_) = skippedTypeList types ++ skippedArgs args_ := by
  intro types args_
  dsimp only [skippedSuffix, skippedArgs, skippedTypeList]
  rw [skippedA_unfold]
  dsimp only [skippedStep]

@[simp] theorem skippedSuffixList_eq_1 :
    skippedSuffixList (.nil) = ([] : List Symbol) := by
  dsimp only [skippedSuffixList]
  rw [skippedA_unfold]
  dsimp only [skippedStep]

@[simp] theorem skippedSuffixList_eq_2 :
    ∀ sfx ss,
    skippedSuffixList (.cons sfx ss) = skippedSuffix sfx ++ skippedSuffixList ss := by
  intro sfx ss
  dsimp only [skippedSuffixList, skippedSuffix]
  rw [skippedA_unfold]
  dsimp only [skippedStep]

@[simp] theorem skippedCascade_eq_1 :
    ∀ suffixes assign,
    skippedCascade (.mk suffixes assign) = skippedSuffixList suffixes ++ skippedCascadeAssign assign := by
  intro suffixes assign
  dsimp only [skippedCascade, skippedCascadeAssign, skippedSuffixList]
  rw [skippedA_unfold]
  dsimp only [skippedStep]

@[simp] theorem skippedCascadeAssign_eq_1 :
    skippedCascadeAssign (.none) = ([] : List Symbol) := by
  dsimp only [skippedCascadeAssign]
  rw [skippedA_unfold]
  dsimp only [skippedStep]

@[simp] theorem skippedCascadeAssign_eq_2 :
    ∀ op e,
    skippedCascadeAssign (.some op e) = skippedExpr e := by
  intro op e
  dsimp only [skippedCascadeAssign, skippedExpr]
  rw [skippedA_unfold]
  dsimp only [skippedStep]

@[simp] theorem skippedStatement_eq_1 :
    ∀ statements,
    skippedStatement (.Block statements) = skippedStatements statements := by
  intro statements
  dsimp only [skippedStatement, skippedStatements]
  rw [skippedA_unfold]
  dsimp only [skippedStep]

@[simp] theorem skippedStatement_eq_2 :
    ∀ fcv ty vars,
    skippedStatement (.Vars (.mk fcv ty) vars) = skippedType ty ++ skippedVarDefList vars := by
  intro fcv ty vars
  dsimp only [skippedStatement, skippedType, skippedVarDefList]
  rw [skippedA_unfold]
  dsimp only [skippedStep]

@[simp] theorem skippedStatement_eq_3 :
    ∀ f,
    skippedStatement (.Function f) = skippedFunction f := by
  intro f
  dsimp only [skippedStatement, skippedFunction]
  rw [skippedA_unfold]
  dsimp only [skippedStep]

@[simp] theorem skippedStatement_eq_4 :
    ∀ await_ loop body,
    skippedStatement (.For await_ loop body) = skippedForLoop loop ++ skippedStatement body := by
  intro await_ loop body
  dsimp only [skippedStatement, skippedForLoop]
  rw [skippedA_unfold]
  dsimp only [skippedStep]

@[simp] theorem skippedStatement_eq_5 :
    ∀ cond body,
    skippedStatement (.While cond body) = skippedExpr cond ++ skippedStatement body := by
  intro cond body
  dsimp only [skippedStatement, skippedExpr]
  rw [skippedA_unfold]
  dsimp only [skippedStep]

@[simp] theorem skippedStatement_eq_6 :
    ∀ body cond,
    skippedStatement (.DoWhile body cond) = skippedStatement body ++ skippedExpr cond := by
  intro body cond
  dsimp only [skippedStatement, skippedExpr]
  rw [skippedA_unfold]
  dsimp only [skippedStep]

@[simp] theorem skippedStatement_eq_7 :
    ∀ e cs,
    skippedStatement (.Switch e cs) = skippedExpr e ++ skippedSwitchCaseList cs := by
  intro e cs
  dsimp only [skippedStatement, skippedExpr, skippedSwitchCaseList]
  rw [skippedA_unfold]
  dsimp only [skippedStep]

@[simp] theorem skippedStatement_eq_8 :
    ∀ cond then_ else_,
    skippedStatement (.If cond then_ else_) = skippedExpr cond ++ skippedStatement then_ ++ skippedOptionStatement else_ := by
  intro cond then_ else_
  dsimp only [skippedStatement, skippedExpr, skippedOptionStatement]
  rw [skippedA_unfold]
  dsimp only [skippedStep]

@[simp] theorem skippedStatement_eq_9 :
    skippedStatement (.Rethrow) = ([] : List Symbol) := by
  dsimp only [skippedStatement]
  rw [skippedA_unfold]
  dsimp only [skippedStep]

@[simp] theorem skippedStatement_eq_10 :
    ∀ block parts,
    skippedStatement (.Try block parts) = skippedStatement block ++ skippedTryPartList parts := by
  intro block parts
  dsimp only [skippedStatement, skippedTryPartList]
  rw [skippedA_unfold]
  dsimp only [skippedStep]

@[simp] theorem skippedStatement_eq_11 :
    ∀ label,
    skippedStatement (.Break label) = ([] : List Symbol) := by
  intro label
  dsimp only [skippedStatement]
  rw [skippedA_unfold]
  dsimp only [skippedStep]

@[simp] theorem skippedStatement_eq_12 :
    ∀ label,
    skippedStatement (.Continue label) = ([] : List Symbol) := by
  intro label
  dsimp only [skippedStatement]
  rw [skippedA_unfold]
  dsimp only [skippedStep]

@[simp] theorem skippedStatement_eq_13 :
    ∀ e,
    skippedStatement (.Return e) = skippedOptionInit e := by
  intro e
  dsimp only [skippedStatement, skippedOptionInit]
  rw [skippedA_unfold]
  dsimp only [skippedStep]

@[simp] theorem skippedStatement_eq_14 :
    ∀ e,
    skippedStatement (.Yield e) = skippedExpr e := by
  intro e
  dsimp only [skippedStatement, skippedExpr]
  rw [skippedA_unfold]
  dsimp only [skippedStep]

@[simp] theorem skippedStatement_eq_15 :
    ∀ e,
    skippedStatement (.YieldEach e) = skippedExpr e := by
  intro e
  dsimp only [skippedStatement, skippedExpr]
  rw [skippedA_unfold]
  dsimp only [skippedStep]

@[simp] theorem skippedStatement_eq_16 :
    ∀ e,
    skippedStatement (.Expression e) = skippedOptionInit e := by
  intro e
  dsimp only [skippedStatement, skippedOptionInit]
  rw [skippedA_unfold]
  dsimp only [skippedStep]

@[simp] theorem skippedStatement_eq_17 :
    ∀ args_,
    skippedStatement (.Assert args_) = skippedArgs args_ := by
  intro args_
  dsimp only [skippedStatement, skippedArgs]
  rw [skippedA_unfold]
  dsimp only [skippedStep]

@[simp] theorem skippedStatement_eq_18 :
    ∀ label st,
    skippedStatement (.Labelled label st) = skippedStatement st := by
  intro label st
  dsimp only [skippedStatement]
  rw [skippedA_unfold]
  dsimp only [skippedStep]

@[simp] theorem skippedForLoop_eq_1 :
    ∀ init cond updates,
    skippedForLoop (.CLike init cond updates) = skippedStatement init ++ skippedOptionInit cond ++ skippedExprList updates := by
  intro init cond updates
  dsimp only [skippedForLoop, skippedExprList, skippedOptionInit, skippedStatement]
  rw [skippedA_unfold]
  dsimp only [skippedStep]

@[simp] theorem skippedForLoop_eq_2 :
    ∀ name e,
    skippedForLoop (.In name e) = skippedExpr e := by
  intro name e
  dsimp only [skippedForLoop, skippedExpr]
  rw [skippedA_unfold]
  dsimp only [skippedStep]

@[simp] theorem skippedForLoop_eq_3 :
    ∀ fcv ty var e,
    skippedForLoop (.InVar (.mk fcv ty) var e) = skippedType ty ++ skippedVarDef var ++ skippedExpr e := by
  intro fcv ty var e
  dsimp only [skippedForLoop, skippedExpr, skippedType, skippedVarDef]
  rw [skippedA_unfold]
  dsimp only [skippedStep]

@[simp] theorem skippedStatements_eq_1 :
    skippedStatements (.nil) = ([] : List Symbol) := by
  dsimp only [skippedStatements]
  rw [skippedA_unfold]
  dsimp only [skippedStep]

@[simp] theorem skippedStatements_eq_2 :
    ∀ st sts,
    skippedStatements (.cons st sts) = skippedStatement st ++ skippedStatements sts := by
  intro st sts
  dsimp only [skippedStatements, skippedStatement]
  rw [skippedA_unfold]
  dsimp only [skippedStep]

@[simp] theorem skippedOptionStatement_eq_1 :
    skippedOptionStatement (.none) = ([] : List Symbol) := by
  dsimp only [skippedOptionStatement]
  rw [skippedA_unfold]
  dsimp only [skippedStep]

@[simp] theorem skippedOptionStatement_eq_2 :
    ∀ st,
    skippedOptionStatement (.some st) = skippedStatement st := by
  intro st
  dsimp only [skippedOptionStatement, skippedStatement]
  rw [skippedA_unfold]
  dsimp only [skippedStep]

@[simp] theorem skippedSwitchCaseList_eq_1 :
    skippedSwitchCaseList (.nil) = ([] : List Symbol) := by
  dsimp only [skippedSwitchCaseList]
  rw [skippedA_unfold]
  dsimp only [skippedStep]

@[simp] theorem skippedSwitchCaseList_eq_2 :
    ∀ labels value statements cs,
    skippedSwitchCaseList (.cons (.mk labels value statements) cs) = skippedOptionInit value ++ skippedStatements statements ++ skippedSwitchCaseList cs := by
  intro labels value statements cs
  dsimp only [skippedSwitchCaseList, skippedOptionInit, skippedStatements]
  rw [skippedA_unfold]
  dsimp only [skippedStep]

@[simp] theorem skippedTryPart_eq_1 :
    ∀ on_ catch_ block,
    skippedTryPart (.mk on_ catch_ block) = skippedOptionType on_ ++ skippedStatement block := by
  intro on_ catch_ block
  dsimp only [skippedTryPart, skippedOptionType, skippedStatement]
  rw [skippedA_unfold]
  dsimp only [skippedStep]

@[simp] theorem skippedTryPartList_eq_1 :
    skippedTryPartList (.nil) = ([] : List Symbol) := by
  dsimp only [skippedTryPartList]
  rw [skippedA_unfold]
  dsimp only [skippedStep]

@[simp] theorem skippedTryPartList_eq_2 :
    ∀ p ps,
    skippedTryPartList (.cons p ps) = skippedTryPart p ++ skippedTryPartList ps := by
  intro p ps
  dsimp only [skippedTryPartList, skippedTryPart]
  rw [skippedA_unfold]
  dsimp only [skippedStep]

def skippedConstructorInitializer : ConstructorInitializer → List Symbol
  | .Super _ args => skippedArgs args
  | .This _ args => skippedArgs args
  | .Assert args => skippedArgs args
  | .Field _ _ e => skippedExpr e

def skippedConstructorInitializerList :
    List ConstructorInitializer → List Symbol
  | [] => []
  | ci :: cis =>
    skippedConstructorInitializer ci
      ++ skippedConstructorInitializerList cis

def skippedClassMember : ClassMember → List Symbol
  | .Redirect metadata _ _ sig ty =>
    skippedMeta metadata ++ skippedFnSig sig ++ skippedType ty
  | .Constructor metadata _ _ sig initializers function_body =>
    skippedMeta metadata ++ skippedFnSig sig
      ++ skippedConstructorInitializerList initializers
      ++ skippedOptionFnBody function_body
  | .Method metadata _ f => skippedMeta metadata ++ skippedFunction f
  | .Fields metadata _ (.mk _ ty) initializers =>
    skippedMeta metadata ++ skippedType ty
      ++ skippedVarDefList initializers

def skippedClassMemberList : List ClassMember → List Symbol
  | [] => []
  | m :: ms => skippedClassMember m ++ skippedClassMemberList ms

def skippedQualifiedList : List Qualified → List Symbol
  | [] => []
  | q :: qs => skippedQualified q ++ skippedQualifiedList qs

mutual

def skippedModule : Module → List Symbol
  | .mk _ items _ => skippedItemList items

def skippedItem : Item → List Symbol
  | .LibraryName metadata _ => skippedMeta metadata
  | .Import metadata import_ =>
    skippedMeta metadata ++ skippedStringLiteral import_.uri
  | .Export metadata uri _ =>
    skippedMeta metadata ++ skippedStringLiteral uri
  | .Part metadata uri module =>
    skippedMeta metadata ++ skippedStringLiteral uri
      ++ skippedModule module
  | .PartOf metadata _ => skippedMeta metadata
  | .Class metadata _ _ generics superclass mixins interfaces members =>
    skippedMeta metadata ++ skippedTypeParameterList generics
      ++ skippedOptionQualified superclass ++ skippedQualifiedList mixins
      ++ skippedQualifiedList interfaces ++ skippedClassMemberList members
  | .MixinClass metadata _ _ generics mixins interfaces =>
    skippedMeta metadata ++ skippedTypeParameterList generics
      ++ skippedQualifiedList mixins ++ skippedQualifiedList interfaces
  | .Enum metadata _ _ => skippedMeta metadata
  | .TypeAlias metadata _ generics ty =>
    skippedMeta metadata ++ skippedTypeParameterList generics
      ++ skippedType ty
  | .Function f => skippedFunction f
  | .Vars (.mk _ ty) vars => skippedType ty ++ skippedVarDefList vars

def skippedItemList : ItemList → List Symbol
  | .nil => []
  | .cons i rest => skippedItem i ++ skippedItemList rest

end

/-! ### Every identifier occurrence is visited or skipped (C5)

`identsX_sub`: an identifier occurring anywhere in a node is either
reached by the default traversal (its `dart_expr` hook event appears in
the trace) or lies under one of the two untraversed metadata positions. -/

set_option maxHeartbeats 3200000 in
mutual

theorem identsQualified_sub : ∀ q : Qualified, ∀ s : Symbol,
    s ∈ identsQualified q →
    Event.dart_expr (Expr.Identifier s) ∈ visitQualified q ∨
      s ∈ skippedQualified q
  | .mk prefix_ name params => by
    intro s h
    simp at h
    rcases h with h | h
    · rcases identsOptionQualified_sub prefix_ s h with hv | hs
      · exact Or.inl (by simp [hv])
      · exact Or.inr (by simp [hs])
    · rcases identsTypeList_sub params s h with hv | hs
      · exact Or.inl (by simp [hv])
      · exact Or.inr (by simp [hs])

theorem identsOptionQualified_sub : ∀ o : OptionQualified, ∀ s : Symbol,
    s ∈ identsOptionQualified o →
    Event.dart_expr (Expr.Identifier s) ∈ visitOptionQualified o ∨
      s ∈ skippedOptionQualified o
  | .none => by
    intro s h
    simp at h
  | .some q => by
    intro s h
    simp at h
    rcases identsQualified_sub q s h with hv | hs
    · exact Or.inl (by simp [hv])
    · exact Or.inr (by simp [hs])

theorem identsType_sub : ∀ t : DartType, ∀ s : Symbol,
    s ∈ identsType t →
    Event.dart_expr (Expr.Identifier s) ∈ visitType t ∨
      s ∈ skippedType t
  | .Path q => by
    intro s h
    simp at h
    rcases identsQualified_sub q s h with hv | hs
    · exact Or.inl (by simp [hv])
    · exact Or.inr (by simp [hs])
  | .FunctionOld sig => by
    intro s h
    simp at h
    rcases identsFnSig_sub sig s h with hv | hs
    · exact Or.inl (by simp [hv])
    · exact Or.inr (by simp [hs])
  | .Function sig => by
    intro s h
    simp at h
    rcases identsFnSig_sub sig s h with hv | hs
    · exact Or.inl (by simp [hv])
    · exact Or.inr (by simp [hs])
  | .Infer => by
    intro s h
    simp at h

theorem identsOptionType_sub : ∀ o : OptionDartType, ∀ s : Symbol,
    s ∈ identsOptionType o →
    Event.dart_expr (Expr.Identifier s) ∈ visitOptionType o ∨
      s ∈ skippedOptionType o
  | .none => by
    intro s h
    simp at h
  | .some t => by
    intro s h
    simp at h
    rcases identsType_sub t s h with hv | hs
    · exact Or.inl (by simp [hv])
    · exact Or.inr (by simp [hs])

theorem identsTypeList_sub : ∀ l : TypeList, ∀ s : Symbol,
    s ∈ identsTypeList l →
    Event.dart_expr (Expr.Identifier s) ∈ visitTypeList l ∨
      s ∈ skippedTypeList l
  | .nil => by
    intro s h
    simp at h
  | .cons t ts => by
    intro s h
    simp at h
    rcases h with h | h
    · rcases identsType_sub t s h with hv | hs
      · exact Or.inl (by simp [hv])
      · exact Or.inr (by simp [hs])
    · rcases identsTypeList_sub ts s h with hv | hs
      · exact Or.inl (by simp [hv])
      · exact Or.inr (by simp [hs])

theorem identsTypeParameterList_sub : ∀ g : TypeParameterList, ∀ s : Symbol,
    s ∈ identsTypeParameterList g →
    Event.dart_expr (Expr.Identifier s) ∈ superGenerics g ∨
      s ∈ skippedTypeParameterList g
  | .nil => by
    intro s h
    simp at h
  | .cons (.mk metadata name extends_) tps => by
    intro s h
    simp at h
    rcases h with h | h | h
    · exact Or.inr (by simp [h])
    · rcases identsOptionQualified_sub extends_ s h with hv | hs
      · exact Or.inl (by simp [hv])
      · exact Or.inr (by simp [hs])
    · rcases identsTypeParameterList_sub tps s h with hv | hs
      · exact Or.inl (by simp [hv])
      · exact Or.inr (by simp [hs])

theorem identsFunction_sub : ∀ f : Function, ∀ s : Symbol,
    s ∈ identsFunction f →
    Event.dart_expr (Expr.Identifier s) ∈ visitFunction f ∨
      s ∈ skippedFunction f
  | .mk name generics sig body => by
    intro s h
    simp at h
    rcases h with h | h | h
    · rcases identsTypeParameterList_sub generics s h with hv | hs
      · exact Or.inl (by simp [visitGenerics, hv])
      · exact Or.inr (by simp [hs])
    · rcases identsFnSig_sub sig s h with hv | hs
      · exact Or.inl (by simp [visitGenerics, hv])
      · exact Or.inr (by simp [hs])
    · rcases identsOptionFnBody_sub body s h with hv | hs
      · exact Or.inl (by simp [visitGenerics, hv])
      · exact Or.inr (by simp [hs])

theorem identsFnSig_sub : ∀ sig : FnSig, ∀ s : Symbol,
    s ∈ identsFnSig sig →
    Event.dart_expr (Expr.Identifier s) ∈ visitFnSig sig ∨
      s ∈ skippedFnSig sig
  | .mk return_type required optional optional_kind async generator => by
    intro s h
    simp at h
    rcases h with h | h | h
    · rcases identsType_sub return_type s h with hv | hs
      · exact Or.inl (by simp [hv])
      · exact Or.inr (by simp [hs])
    · rcases identsArgDefList_sub required s h with hv | hs
      · exact Or.inl (by simp [hv])
      · exact Or.inr (by simp [hs])
    · rcases identsArgDefList_sub optional s h with hv | hs
      · exact Or.inl (by simp [hv])
      · exact Or.inr (by simp [hs])

theorem identsArgDefList_sub : ∀ l : ArgDefList, ∀ s : Symbol,
    s ∈ identsArgDefList l →
    Event.dart_expr (Expr.Identifier s) ∈ visitArgDefList l ∨
      s ∈ skippedArgDefList l
  | .nil => by
    intro s h
    simp at h
  | .cons (.mk metadata covariant (.mk fcv ty) field var) rest => by
    intro s h
    simp at h
    rcases h with h | h | h | h
    · exact Or.inr (by simp [h])
    · rcases identsType_sub ty s h with hv | hs
      · exact Or.inl (by simp [hv])
      · exact Or.inr (by simp [hs])
    · rcases identsVarDef_sub var s h with hv | hs
      · exact Or.inl (by simp [hv])
      · exact Or.inr (by simp [hs])
    · rcases identsArgDefList_sub rest s h with hv | hs
      · exact Or.inl (by simp [hv])
      · exact Or.inr (by simp [hs])

theorem identsFnBody_sub : ∀ b : FnBody, ∀ s : Symbol,
    s ∈ identsFnBody b →
    Event.dart_expr (Expr.Identifier s) ∈ visitFnBody b ∨
      s ∈ skippedFnBody b
  | .Arrow e => by
    intro s h
    simp at h
    rcases identsExpr_sub e s h with hv | hs
    · exact Or.inl (by simp [hv])
    · exact Or.inr (by simp [hs])
  | .Block st => by
    intro s h
    simp at h
    rcases identsStatement_sub st s h with hv | hs
    · exact Or.inl (by simp [hv])
    · exact Or.inr (by simp [hs])
  | .Native osl => by
    intro s h
    simp at h
    rcases identsOptionStringLiteral_sub osl s h with hv | hs
    · exact Or.inl (by simp [hv])
    · exact Or.inr (by simp [hs])

theorem identsOptionFnBody_sub : ∀ o : OptionFnBody, ∀ s : Symbol,
    s ∈ identsOptionFnBody o →
    Event.dart_expr (Expr.Identifier s) ∈ visitOptionFnBody o ∨
      s ∈ skippedOptionFnBody o
  | .none => by
    intro s h
    simp at h
  | .some b => by
    intro s h
    simp at h
    rcases identsFnBody_sub b s h with hv | hs
    · exact Or.inl (by simp [hv])
    · exact Or.inr (by simp [hs])

theorem identsVarDef_sub : ∀ v : VarDef, ∀ s : Symbol,
    s ∈ identsVarDef v →
    Event.dart_expr (Expr.Identifier s) ∈ visitVarDef v ∨
      s ∈ skippedVarDef v
  | .mk name init => by
    intro s h
    simp at h
    rcases identsOptionInit_sub init s h with hv | hs
    · exact Or.inl (by simp [hv])
    · exact Or.inr (by simp [hs])

theorem identsOptionInit_sub : ∀ o : OptionExpr, ∀ s : Symbol,
    s ∈ identsOptionInit o →
    Event.dart_expr (Expr.Identifier s) ∈ visitOptionInit o ∨
      s ∈ skippedOptionInit o
  | .none => by
    intro s h
    simp at h
  | .some e => by
    intro s h
    simp at h
    rcases identsExpr_sub e s h with hv | hs
    · exact Or.inl (by simp [hv])
    · exact Or.inr (by simp [hs])

theorem identsVarDefList_sub : ∀ l : VarDefList, ∀ s : Symbol,
    s ∈ identsVarDefList l →
    Event.dart_expr (Expr.Identifier s) ∈ visitVarDefList l ∨
      s ∈ skippedVarDefList l
  | .nil => by
    intro s h
    simp at h
  | .cons v vs => by
    intro s h
    simp at h
    rcases h with h | h
    · rcases identsVarDef_sub v s h with hv | hs
      · exact Or.inl (by simp [hv])
      · exact Or.inr (by simp [hs])
    · rcases identsVarDefList_sub vs s h with hv | hs
      · exact Or.inl (by simp [hv])
      · exact Or.inr (by simp [hs])

theorem identsMeta_sub : ∀ ml : MetadataList, ∀ s : Symbol,
    s ∈ identsMeta ml →
    Event.dart_expr (Expr.Identifier s) ∈ superMeta ml ∨
      s ∈ skippedMeta ml
  | .nil => by
    intro s h
    simp at h
  | .cons (.mk qualified arguments) ms => by
    intro s h
    simp at h
    rcases h with h | h | h
    · rcases identsQualified_sub qualified s h with hv | hs
      · exact Or.inl (by simp [hv])
      · exact Or.inr (by simp [hs])
    · rcases identsOptionArgs_sub arguments s h with hv | hs
      · exact Or.inl (by simp [hv])
      · exact Or.inr (by simp [hs])
    · rcases identsMeta_sub ms s h with hv | hs
      · exact Or.inl (by simp [hv])
      · exact Or.inr (by simp [hs])

theorem identsArgs_sub : ∀ a : Args, ∀ s : Symbol,
    s ∈ identsArgs a →
    Event.dart_expr (Expr.Identifier s) ∈ visitArgs a ∨
      s ∈ skippedArgs a
  | .mk unnamed named => by
    intro s h
    simp at h
    rcases h with h | h
    · rcases identsExprList_sub unnamed s h with hv | hs
      · exact Or.inl (by simp [hv])
      · exact Or.inr (by simp [hs])
    · rcases identsNamedArgList_sub named s h with hv | hs
      · exact Or.inl (by simp [hv])
      · exact Or.inr (by simp [hs])

theorem identsNamedArgList_sub : ∀ l : NamedArgList, ∀ s : Symbol,
    s ∈ identsNamedArgList l →
    Event.dart_expr (Expr.Identifier s) ∈ visitNamedArgList l ∨
      s ∈ skippedNamedArgList l
  | .nil => by
    intro s h
    simp at h
  | .cons (.mk name expr) ns => by
    intro s h
    simp at h
    rcases h with h | h
    · rcases identsExpr_sub expr s h with hv | hs
      · exact Or.inl (by simp [hv])
      · exact Or.inr (by simp [hs])
    · rcases identsNamedArgList_sub ns s h with hv | hs
      · exact Or.inl (by simp [hv])
      · exact Or.inr (by simp [hs])

theorem identsOptionArgs_sub : ∀ o : OptionArgs, ∀ s : Symbol,
    s ∈ identsOptionArgs o →
    Event.dart_expr (Expr.Identifier s) ∈ visitOptionArgs o ∨
      s ∈ skippedOptionArgs o
  | .none => by
    intro s h
    simp at h
  | .some a => by
    intro s h
    simp at h
    rcases identsArgs_sub a s h with hv | hs
    · exact Or.inl (by simp [hv])
    · exact Or.inr (by simp [hs])

theorem identsExpr_sub : ∀ e : Expr, ∀ s : Symbol,
    s ∈ identsExpr e →
    Event.dart_expr (Expr.Identifier s) ∈ visitExpr e ∨
      s ∈ skippedExpr e
  | .Unary op e => by
    intro s h
    simp at h
    rcases identsExpr_sub e s h with hv | hs
    · exact Or.inl (by simp [hv])
    · exact Or.inr (by simp [hs])
  | .Binary op a b => by
    intro s h
    simp at h
    rcases h with h | h
    · rcases identsExpr_sub a s h with hv | hs
      · exact Or.inl (by simp [hv])
      · exact Or.inr (by simp [hs])
    · rcases identsExpr_sub b s h with hv | hs
      · exact Or.inl (by simp [hv])
      · exact Or.inr (by simp [hs])
  | .Conditional a b c => by
    intro s h
    simp at h
    rcases h with h | h | h
    · rcases identsExpr_sub a s h with hv | hs
      · exact Or.inl (by simp [hv])
      · exact Or.inr (by simp [hs])
    · rcases identsExpr_sub b s h with hv | hs
      · exact Or.inl (by simp [hv])
      · exact Or.inr (by simp [hs])
    · rcases identsExpr_sub c s h with hv | hs
      · exact Or.inl (by simp [hv])
      · exact Or.inr (by simp [hs])
  | .Is e ty => by
    intro s h
    simp at h
    rcases h with h | h
    · rcases identsExpr_sub e s h with hv | hs
      · exact Or.inl (by simp [hv])
      · exact Or.inr (by simp [hs])
    · rcases identsType_sub ty s h with hv | hs
      · exact Or.inl (by simp [hv])
      · exact Or.inr (by simp [hs])
  | .IsNot e ty => by
    intro s h
    simp at h
    rcases h with h | h
    · rcases identsExpr_sub e s h with hv | hs
      · exact Or.inl (by simp [hv])
      · exact Or.inr (by simp [hs])
    · rcases identsType_sub ty s h with hv | hs
      · exact Or.inl (by simp [hv])
      · exact Or.inr (by simp [hs])
  | .As e ty => by
    intro s h
    simp at h
    rcases h with h | h
    · rcases identsExpr_sub e s h with hv | hs
      · exact Or.inl (by simp [hv])
      · exact Or.inr (by simp [hs])
    · rcases identsType_sub ty s h with hv | hs
      · exact Or.inl (by simp [hv])
      · exact Or.inr (by simp [hs])
  | .Suffix e sfx => by
    intro s h
    simp at h
    rcases h with h | h
    · rcases identsExpr_sub e s h with hv | hs
      · exact Or.inl (by simp [hv])
      · exact Or.inr (by simp [hs])
    · rcases identsSuffix_sub sfx s h with hv | hs
      · exact Or.inl (by simp [hv])
      · exact Or.inr (by simp [hs])
  | .Identifier sid => by
    intro s h
    simp at h
    subst h
    exact Or.inl (by simp)
  | .Closure sig body => by
    intro s h
    simp at h
    rcases h with h | h
    · rcases identsFnSig_sub sig s h with hv | hs
      · exact Or.inl (by simp [hv])
      · exact Or.inr (by simp [hs])
    · rcases identsFnBody_sub body s h with hv | hs
      · exact Or.inl (by simp [hv])
      · exact Or.inr (by simp [hs])
  | .New const_ path args => by
    intro s h
    simp at h
    rcases h with h | h
    · rcases identsQualified_sub path s h with hv | hs
      · exact Or.inl (by simp [hv])
      · exact Or.inr (by simp [hs])
    · rcases identsArgs_sub args s h with hv | hs
      · exact Or.inl (by simp [hv])
      · exact Or.inr (by simp [hs])
  | .List const_ element_ty elements => by
    intro s h
    simp at h
    rcases h with h | h
    · rcases identsOptionType_sub element_ty s h with hv | hs
      · exact Or.inl (by simp [hv])
      · exact Or.inr (by simp [hs])
    · rcases identsExprList_sub elements s h with hv | hs
      · exact Or.inl (by simp [hv])
      · exact Or.inr (by simp [hs])
  | .Map const_ kv_ty kv => by
    intro s h
    simp at h
    rcases h with h | h
    · rcases identsKVTypes_sub kv_ty s h with hv | hs
      · exact Or.inl (by simp [hv])
      · exact Or.inr (by simp [hs])
    · rcases identsExprPairList_sub kv s h with hv | hs
      · exact Or.inl (by simp [hv])
      · exact Or.inr (by simp [hs])
  | .Number n => by
    intro s h
    simp at h
  | .String literals => by
    intro s h
    simp at h
    rcases identsStringLiteralList_sub literals s h with hv | hs
    · exact Or.inl (by simp [hv])
    · exact Or.inr (by simp [hs])
  | .Symbol sl => by
    intro s h
    simp at h
  | .Paren e => by
    intro s h
    simp at h
    rcases identsExpr_sub e s h with hv | hs
    · exact Or.inl (by simp [hv])
    · exact Or.inr (by simp [hs])
  | .Throw e => by
    intro s h
    simp at h
    rcases identsExpr_sub e s h with hv | hs
    · exact Or.inl (by simp [hv])
    · exact Or.inr (by simp [hs])
  | .Cascade e casc => by
    intro s h
    simp at h
    rcases h with h | h
    · rcases identsExpr_sub e s h with hv | hs
      · exact Or.inl (by simp [hv])
      · exact Or.inr (by simp [hs])
    · rcases identsCascade_sub casc s h with hv | hs
      · exact Or.inl (by simp [hv])
      · exact Or.inr (by simp [hs])

theorem identsExprList_sub : ∀ l : ExprList, ∀ s : Symbol,
    s ∈ identsExprList l →
    Event.dart_expr (Expr.Identifier s) ∈ visitExprList l ∨
      s ∈ skippedExprList l
  | .nil => by
    intro s h
    simp at h
  | .cons e es => by
    intro s h
    simp at h
    rcases h with h | h
    · rcases identsExpr_sub e s h with hv | hs
      · exact Or.inl (by simp [hv])
      · exact Or.inr (by simp [hs])
    · rcases identsExprList_sub es s h with hv | hs
      · exact Or.inl (by simp [hv])
      · exact Or.inr (by simp [hs])

theorem identsKVTypes_sub : ∀ o : KVTypes, ∀ s : Symbol,
    s ∈ identsKVTypes o →
    Event.dart_expr (Expr.Identifier s) ∈ visitKVTypes o ∨
      s ∈ skippedKVTypes o
  | .none => by
    intro s h
    simp at h
  | .some k v => by
    intro s h
    simp at h
    rcases h with h | h
    · rcases identsType_sub k s h with hv | hs
      · exact Or.inl (by simp [hv])
      · exact Or.inr (by simp [hs])
    · rcases identsType_sub v s h with hv | hs
      · exact Or.inl (by simp [hv])
      · exact Or.inr (by simp [hs])

theorem identsExprPairList_sub : ∀ l : ExprPairList, ∀ s : Symbol,
    s ∈ identsExprPairList l →
    Event.dart_expr (Expr.Identifier s) ∈ visitExprPairList l ∨
      s ∈ skippedExprPairList l
  | .nil => by
    intro s h
    simp at h
  | .cons k v rest => by
    intro s h
    simp at h
    rcases h with h | h | h
    · rcases identsExpr_sub k s h with hv | hs
      · exact Or.inl (by simp [hv])
      · exact Or.inr (by simp [hs])
    · rcases identsExpr_sub v s h with hv | hs
      · exact Or.inl (by simp [hv])
      · exact Or.inr (by simp [hs])
    · rcases identsExprPairList_sub rest s h with hv | hs
      · exact Or.inl (by simp [hv])
      · exact Or.inr (by simp [hs])

theorem identsStringLiteral_sub : ∀ sl : StringLiteral, ∀ s : Symbol,
    s ∈ identsStringLiteral sl →
    Event.dart_expr (Expr.Identifier s) ∈ visitStringLiteral sl ∨
      s ∈ skippedStringLiteral sl
  | .mk raw triple quote prefix_ interpolated => by
    intro s h
    simp at h
    rcases identsInterpList_sub interpolated s h with hv | hs
    · exact Or.inl (by simp [hv])
    · exact Or.inr (by simp [hs])

theorem identsInterpList_sub : ∀ l : InterpList, ∀ s : Symbol,
    s ∈ identsInterpList l →
    Event.dart_expr (Expr.Identifier s) ∈ visitInterpList l ∨
      s ∈ skippedInterpList l
  | .nil => by
    intro s h
    simp at h
  | .cons e sp rest => by
    intro s h
    simp at h
    rcases h with h | h
    · rcases identsExpr_sub e s h with hv | hs
      · exact Or.inl (by simp [hv])
      · exact Or.inr (by simp [hs])
    · rcases identsInterpList_sub rest s h with hv | hs
      · exact Or.inl (by simp [hv])
      · exact Or.inr (by simp [hs])

theorem identsStringLiteralList_sub : ∀ l : StringLiteralList, ∀ s : Symbol,
    s ∈ identsStringLiteralList l →
    Event.dart_expr (Expr.Identifier s) ∈ visitStringLiteralList l ∨
      s ∈ skippedStringLiteralList l
  | .nil => by
    intro s h
    simp at h
  | .cons sl sls => by
    intro s h
    simp at h
    rcases h with h | h
    · rcases identsStringLiteral_sub sl s h with hv | hs
      · exact Or.inl (by simp [hv])
      · exact Or.inr (by simp [hs])
    · rcases identsStringLiteralList_sub sls s h with hv | hs
      · exact Or.inl (by simp [hv])
      · exact Or.inr (by simp [hs])

theorem identsOptionStringLiteral_sub : ∀ o : OptionStringLiteral, ∀ s : Symbol,
    s ∈ identsOptionStringLiteral o →
    Event.dart_expr (Expr.Identifier s) ∈ visitOptionStringLiteral o ∨
      s ∈ skippedOptionStringLiteral o
  | .none => by
    intro s h
    simp at h
  | .some sl => by
    intro s h
    simp at h
    rcases identsStringLiteral_sub sl s h with hv | hs
    · exact Or.inl (by simp [hv])
    · exact Or.inr (by simp [hs])

theorem identsSuffix_sub : ∀ sfx : Suffix, ∀ s : Symbol,
    s ∈ identsSuffix sfx →
    Event.dart_expr (Expr.Identifier s) ∈ visitSuffix sfx ∨
      s ∈ skippedSuffix sfx
  | .Index e => by
    intro s h
    simp at h
    rcases identsExpr_sub e s h with hv | hs
    · exact Or.inl (by simp [hv])
    · exact Or.inr (by simp [hs])
  | .Field name => by
    intro s h
    simp at h
  | .FieldIfNotNull name => by
    intro s h
    simp at h
  | .Call types args => by
    intro s h
    simp at h
    rcases h with h | h
    · rcases identsTypeList_sub types s h with hv | hs
      · exact Or.inl (by simp [hv])
      · exact Or.inr (by simp [hs])
    · rcases identsArgs_sub args s h with hv | hs
      · exact Or.inl (by simp [hv])
      · exact Or.inr (by simp [hs])

theorem identsSuffixList_sub : ∀ l : SuffixList, ∀ s : Symbol,
    s ∈ identsSuffixList l →
    Event.dart_expr (Expr.Identifier s) ∈ visitSuffixList l ∨
      s ∈ skippedSuffixList l
  | .nil => by
    intro s h
    simp at h
  | .cons sfx ss => by
    intro s h
    simp at h
    rcases h with h | h
    · rcases identsSuffix_sub sfx s h with hv | hs
      · exact Or.inl (by simp [hv])
      · exact Or.inr (by simp [hs])
    · rcases identsSuffixList_sub ss s h with hv | hs
      · exact Or.inl (by simp [hv])
      · exact Or.inr (by simp [hs])

theorem identsCascade_sub : ∀ c : Cascade, ∀ s : Symbol,
    s ∈ identsCascade c →
    Event.dart_expr (Expr.Identifier s) ∈ visitCascade c ∨
      s ∈ skippedCascade c
  | .mk suffixes assign => by
    intro s h
    simp at h
    rcases h with h | h
    · rcases identsSuffixList_sub suffixes s h with hv | hs
      · exact Or.inl (by simp [hv])
      · exact Or.inr (by simp [hs])
    · rcases identsCascadeAssign_sub assign s h with hv | hs
      · exact Or.inl (by simp [hv])
      · exact Or.inr (by simp [hs])

theorem identsCascadeAssign_sub : ∀ o : CascadeAssign, ∀ s : Symbol,
    s ∈ identsCascadeAssign o →
    Event.dart_expr (Expr.Identifier s) ∈ visitCascadeAssign o ∨
      s ∈ skippedCascadeAssign o
  | .none => by
    intro s h
    simp at h
  | .some op e => by
    intro s h
    simp at h
    rcases identsExpr_sub e s h with hv | hs
    · exact Or.inl (by simp [hv])
    · exact Or.inr (by simp [hs])

theorem identsStatement_sub : ∀ st : Statement, ∀ s : Symbol,
    s ∈ identsStatement st →
    Event.dart_expr (Expr.Identifier s) ∈ visitStatement st ∨
      s ∈ skippedStatement st
  | .Block statements => by
    intro s h
    simp at h
    rcases identsStatements_sub statements s h with hv | hs
    · exact Or.inl (by simp [visitBlock, hv])
    · exact Or.inr (by simp [hs])
  | .Vars (.mk fcv ty) vars => by
    intro s h
    simp at h
    rcases h with h | h
    · rcases identsType_sub ty s h with hv | hs
      · exact Or.inl (by simp [hv])
      · exact Or.inr (by simp [hs])
    · rcases identsVarDefList_sub vars s h with hv | hs
      · exact Or.inl (by simp [hv])
      · exact Or.inr (by simp [hs])
  | .Function f => by
    intro s h
    simp at h
    rcases identsFunction_sub f s h with hv | hs
    · exact Or.inl (by simp [hv])
    · exact Or.inr (by simp [hs])
  | .For await_ loop body => by
    intro s h
    simp at h
    rcases h with h | h
    · rcases identsForLoop_sub loop s h with hv | hs
      · exact Or.inl (by simp [hv])
      · exact Or.inr (by simp [hs])
    · rcases identsStatement_sub body s h with hv | hs
      · exact Or.inl (by simp [hv])
      · exact Or.inr (by simp [hs])
  | .While cond body => by
    intro s h
    simp at h
    rcases h with h | h
    · rcases identsExpr_sub cond s h with hv | hs
      · exact Or.inl (by simp [hv])
      · exact Or.inr (by simp [hs])
    · rcases identsStatement_sub body s h with hv | hs
      · exact Or.inl (by simp [hv])
      · exact Or.inr (by simp [hs])
  | .DoWhile body cond => by
    intro s h
    simp at h
    rcases h with h | h
    · rcases identsStatement_sub body s h with hv | hs
      · exact Or.inl (by simp [hv])
      · exact Or.inr (by simp [hs])
    · rcases identsExpr_sub cond s h with hv | hs
      · exact Or.inl (by simp [hv])
      · exact Or.inr (by simp [hs])
  | .Switch e cs => by
    intro s h
    simp at h
    rcases h with h | h
    · rcases identsExpr_sub e s h with hv | hs
      · exact Or.inl (by simp [hv])
      · exact Or.inr (by simp [hs])
    · rcases identsSwitchCaseList_sub cs s h with hv | hs
      · exact Or.inl (by simp [hv])
      · exact Or.inr (by simp [hs])
  | .If cond then_ else_ => by
    intro s h
    simp at h
    rcases h with h | h | h
    · rcases identsExpr_sub cond s h with hv | hs
      · exact Or.inl (by simp [hv])
      · exact Or.inr (by simp [hs])
    · rcases identsStatement_sub then_ s h with hv | hs
      · exact Or.inl (by simp [hv])
      · exact Or.inr (by simp [hs])
    · rcases identsOptionStatement_sub else_ s h with hv | hs
      · exact Or.inl (by simp [hv])
      · exact Or.inr (by simp [hs])
  | .Rethrow => by
    intro s h
    simp at h
  | .Try block parts => by
    intro s h
    simp at h
    rcases h with h | h
    · rcases identsStatement_sub block s h with hv | hs
      · exact Or.inl (by simp [hv])
      · exact Or.inr (by simp [hs])
    · rcases identsTryPartList_sub parts s h with hv | hs
      · exact Or.inl (by simp [hv])
      · exact Or.inr (by simp [hs])
  | .Break label => by
    intro s h
    simp at h
  | .Continue label => by
    intro s h
    simp at h
  | .Return e => by
    intro s h
    simp at h
    rcases identsOptionInit_sub e s h with hv | hs
    · exact Or.inl (by simp [hv])
    · exact Or.inr (by simp [hs])
  | .Yield e => by
    intro s h
    simp at h
    rcases identsExpr_sub e s h with hv | hs
    · exact Or.inl (by simp [hv])
    · exact Or.inr (by simp [hs])
  | .YieldEach e => by
    intro s h
    simp at h
    rcases identsExpr_sub e s h with hv | hs
    · exact Or.inl (by simp [hv])
    · exact Or.inr (by simp [hs])
  | .Expression e => by
    intro s h
    simp at h
    rcases identsOptionInit_sub e s h with hv | hs
    · exact Or.inl (by simp [hv])
    · exact Or.inr (by simp [hs])
  | .Assert args => by
    intro s h
    simp at h
    rcases identsArgs_sub args s h with hv | hs
    · exact Or.inl (by simp [hv])
    · exact Or.inr (by simp [hs])
  | .Labelled label st => by
    intro s h
    simp at h
    rcases identsStatement_sub st s h with hv | hs
    · exact Or.inl (by simp [hv])
    · exact Or.inr (by simp [hs])

theorem identsForLoop_sub : ∀ fl : ForLoop, ∀ s : Symbol,
    s ∈ identsForLoop fl →
    Event.dart_expr (Expr.Identifier s) ∈ visitForLoop fl ∨
      s ∈ skippedForLoop fl
  | .CLike init cond updates => by
    intro s h
    simp at h
    rcases h with h | h | h
    · rcases identsStatement_sub init s h with hv | hs
      · exact Or.inl (by simp [hv])
      · exact Or.inr (by simp [hs])
    · rcases identsOptionInit_sub cond s h with hv | hs
      · exact Or.inl (by simp [hv])
      · exact Or.inr (by simp [hs])
    · rcases identsExprList_sub updates s h with hv | hs
      · exact Or.inl (by simp [hv])
      · exact Or.inr (by simp [hs])
  | .In name e => by
    intro s h
    simp at h
    rcases identsExpr_sub e s h with hv | hs
    · exact Or.inl (by simp [hv])
    · exact Or.inr (by simp [hs])
  | .InVar (.mk fcv ty) var e => by
    intro s h
    simp at h
    rcases h with h | h | h
    · rcases identsType_sub ty s h with hv | hs
      · exact Or.inl (by simp [hv])
      · exact Or.inr (by simp [hs])
    · rcases identsVarDef_sub var s h with hv | hs
      · exact Or.inl (by simp [hv])
      · exact Or.inr (by simp [hs])
    · rcases identsExpr_sub e s h with hv | hs
      · exact Or.inl (by simp [hv])
      · exact Or.inr (by simp [hs])

theorem identsStatements_sub : ∀ l : StatementList, ∀ s : Symbol,
    s ∈ identsStatements l →
    Event.dart_expr (Expr.Identifier s) ∈ visitStatements l ∨
      s ∈ skippedStatements l
  | .nil => by
    intro s h
    simp at h
  | .cons st sts => by
    intro s h
    simp at h
    rcases h with h | h
    · rcases identsStatement_sub st s h with hv | hs
      · exact Or.inl (by simp [hv])
      · exact Or.inr (by simp [hs])
    · rcases identsStatements_sub sts s h with hv | hs
      · exact Or.inl (by simp [hv])
      · exact Or.inr (by simp [hs])

theorem identsOptionStatement_sub : ∀ o : OptionStatement, ∀ s : Symbol,
    s ∈ identsOptionStatement o →
    Event.dart_expr (Expr.Identifier s) ∈ visitOptionStatement o ∨
      s ∈ skippedOptionStatement o
  | .none => by
    intro s h
    simp at h
  | .some st => by
    intro s h
    simp at h
    rcases identsStatement_sub st s h with hv | hs
    · exact Or.inl (by simp [hv])
    · exact Or.inr (by simp [hs])

theorem identsSwitchCaseList_sub : ∀ l : SwitchCaseList, ∀ s : Symbol,
    s ∈ identsSwitchCaseList l →
    Event.dart_expr (Expr.Identifier s) ∈ visitSwitchCaseList l ∨
      s ∈ skippedSwitchCaseList l
  | .nil => by
    intro s h
    simp at h
  | .cons (.mk labels value statements) cs => by
    intro s h
    simp at h
    rcases h with h | h | h
    · rcases identsOptionInit_sub value s h with hv | hs
      · exact Or.inl (by simp [hv])
      · exact Or.inr (by simp [hs])
    · rcases identsStatements_sub statements s h with hv | hs
      · exact Or.inl (by simp [hv])
      · exact Or.inr (by simp [hs])
    · rcases identsSwitchCaseList_sub cs s h with hv | hs
      · exact Or.inl (by simp [hv])
      · exact Or.inr (by simp [hs])

theorem identsTryPart_sub : ∀ tp : TryPart, ∀ s : Symbol,
    s ∈ identsTryPart tp →
    Event.dart_expr (Expr.Identifier s) ∈ visitTryPart tp ∨
      s ∈ skippedTryPart tp
  | .mk on_ catch_ block => by
    intro s h
    simp at h
    rcases h with h | h
    · rcases identsOptionType_sub on_ s h with hv | hs
      · exact Or.inl (by simp [hv])
      · exact Or.inr (by simp [hs])
    · rcases identsStatement_sub block s h with hv | hs
      · exact Or.inl (by simp [hv])
      · exact Or.inr (by simp [hs])

theorem identsTryPartList_sub : ∀ l : TryPartList, ∀ s : Symbol,
    s ∈ identsTryPartList l →
    Event.dart_expr (Expr.Identifier s) ∈ visitTryPartList l ∨
      s ∈ skippedTryPartList l
  | .nil => by
    intro s h
    simp at h
  | .cons p ps => by
    intro s h
    simp at h
    rcases h with h | h
    · rcases identsTryPart_sub p s h with hv | hs
      · exact Or.inl (by simp [hv])
      · exact Or.inr (by simp [hs])
    · rcases identsTryPartList_sub ps s h with hv | hs
      · exact Or.inl (by simp [hv])
      · exact Or.inr (by simp [hs])

end

theorem identsConstructorInitializer_sub : ∀ ci : ConstructorInitializer, ∀ s : Symbol,
    s ∈ identsConstructorInitializer ci →
    Event.dart_expr (Expr.Identifier s) ∈ visitConstructorInitializer ci ∨
      s ∈ skippedConstructorInitializer ci
  | .Super name args => by
    intro s h
    simp [identsConstructorInitializer] at h
    rcases identsArgs_sub args s h with hv | hs
    · exact Or.inl (by simp [visitConstructorInitializer, hv])
    · exact Or.inr (by simp [skippedConstructorInitializer, hs])
  | .This name args => by
    intro s h
    simp [identsConstructorInitializer] at h
    rcases identsArgs_sub args s h with hv | hs
    · exact Or.inl (by simp [visitConstructorInitializer, hv])
    · exact Or.inr (by simp [skippedConstructorInitializer, hs])
  | .Assert args => by
    intro s h
    simp [identsConstructorInitializer] at h
    rcases identsArgs_sub args s h with hv | hs
    · exact Or.inl (by simp [visitConstructorInitializer, hv])
    · exact Or.inr (by simp [skippedConstructorInitializer, hs])
  | .Field this_ name e => by
    intro s h
    simp [identsConstructorInitializer] at h
    rcases identsExpr_sub e s h with hv | hs
    · exact Or.inl (by simp [visitConstructorInitializer, hv])
    · exact Or.inr (by simp [skippedConstructorInitializer, hs])

theorem identsConstructorInitializerList_sub : ∀ l : List ConstructorInitializer, ∀ s : Symbol,
    s ∈ identsConstructorInitializerList l →
    Event.dart_expr (Expr.Identifier s) ∈ visitConstructorInitializerList l ∨
      s ∈ skippedConstructorInitializerList l
  | [] => by
    intro s h
    simp [identsConstructorInitializerList] at h
  | (ci :: cis) => by
    intro s h
    simp [identsConstructorInitializerList] at h
    rcases h with h | h
    · rcases identsConstructorInitializer_sub ci s h with hv | hs
      · exact Or.inl (by simp [visitConstructorInitializerList, hv])
      · exact Or.inr (by simp [skippedConstructorInitializerList, hs])
    · rcases identsConstructorInitializerList_sub cis s h with hv | hs
      · exact Or.inl (by simp [visitConstructorInitializerList, hv])
      · exact Or.inr (by simp [skippedConstructorInitializerList, hs])

theorem identsClassMember_sub : ∀ m : ClassMember, ∀ s : Symbol,
    s ∈ identsClassMember m →
    Event.dart_expr (Expr.Identifier s) ∈ visitClassMember m ∨
      s ∈ skippedClassMember m
  | .Redirect metadata mq name sig ty => by
    intro s h
    simp [identsClassMember] at h
    rcases h with h | h | h
    · rcases identsMeta_sub metadata s h with hv | hs
      · exact Or.inl (by simp [visitClassMember, visitMeta, hv])
      · exact Or.inr (by simp [skippedClassMember, hs])
    · rcases identsFnSig_sub sig s h with hv | hs
      · exact Or.inl (by simp [visitClassMember, visitMeta, hv])
      · exact Or.inr (by simp [skippedClassMember, hs])
    · rcases identsType_sub ty s h with hv | hs
      · exact Or.inl (by simp [visitClassMember, visitMeta, hv])
      · exact Or.inr (by simp [skippedClassMember, hs])
  | .Constructor metadata mq name sig initializers function_body => by
    intro s h
    simp [identsClassMember] at h
    rcases h with h | h | h | h
    · rcases identsMeta_sub metadata s h with hv | hs
      · exact Or.inl (by simp [visitClassMember, visitMeta, hv])
      · exact Or.inr (by simp [skippedClassMember, hs])
    · rcases identsFnSig_sub sig s h with hv | hs
      · exact Or.inl (by simp [visitClassMember, visitMeta, hv])
      · exact Or.inr (by simp [skippedClassMember, hs])
    · rcases identsConstructorInitializerList_sub initializers s h with hv | hs
      · exact Or.inl (by simp [visitClassMember, visitMeta, hv])
      · exact Or.inr (by simp [skippedClassMember, hs])
    · rcases identsOptionFnBody_sub function_body s h with hv | hs
      · exact Or.inl (by simp [visitClassMember, visitMeta, hv])
      · exact Or.inr (by simp [skippedClassMember, hs])
  | .Method metadata q f => by
    intro s h
    simp [identsClassMember] at h
    rcases h with h | h
    · rcases identsMeta_sub metadata s h with hv | hs
      · exact Or.inl (by simp [visitClassMember, visitMeta, hv])
      · exact Or.inr (by simp [skippedClassMember, hs])
    · rcases identsFunction_sub f s h with hv | hs
      · exact Or.inl (by simp [visitClassMember, visitMeta, hv])
      · exact Or.inr (by simp [skippedClassMember, hs])
  | .Fields metadata static_ (.mk fcv ty) initializers => by
    intro s h
    simp [identsClassMember] at h
    rcases h with h | h | h
    · rcases identsMeta_sub metadata s h with hv | hs
      · exact Or.inl (by simp [visitClassMember, visitMeta, hv])
      · exact Or.inr (by simp [skippedClassMember, hs])
    · rcases identsType_sub ty s h with hv | hs
      · exact Or.inl (by simp [visitClassMember, visitMeta, hv])
      · exact Or.inr (by simp [skippedClassMember, hs])
    · rcases identsVarDefList_sub initializers s h with hv | hs
      · exact Or.inl (by simp [visitClassMember, visitMeta, hv])
      · exact Or.inr (by simp [skippedClassMember, hs])

theorem identsClassMemberList_sub : ∀ l : List ClassMember, ∀ s : Symbol,
    s ∈ identsClassMemberList l →
    Event.dart_expr (Expr.Identifier s) ∈ visitClassMemberList l ∨
      s ∈ skippedClassMemberList l
  | [] => by
    intro s h
    simp [identsClassMemberList] at h
  | (m :: ms) => by
    intro s h
    simp [identsClassMemberList] at h
    rcases h with h | h
    · rcases identsClassMember_sub m s h with hv | hs
      · exact Or.inl (by simp [visitClassMemberList, hv])
      · exact Or.inr (by simp [skippedClassMemberList, hs])
    · rcases identsClassMemberList_sub ms s h with hv | hs
      · exact Or.inl (by simp [visitClassMemberList, hv])
      · exact Or.inr (by simp [skippedClassMemberList, hs])

theorem identsQualifiedList_sub : ∀ l : List Qualified, ∀ s : Symbol,
    s ∈ identsQualifiedList l →
    Event.dart_expr (Expr.Identifier s) ∈ visitQualifiedList l ∨
      s ∈ skippedQualifiedList l
  | [] => by
    intro s h
    simp [identsQualifiedList] at h
  | (q :: qs) => by
    intro s h
    simp [identsQualifiedList] at h
    rcases h with h | h
    · rcases identsQualified_sub q s h with hv | hs
      · exact Or.inl (by simp [visitQualifiedList, hv])
      · exact Or.inr (by simp [skippedQualifiedList, hs])
    · rcases identsQualifiedList_sub qs s h with hv | hs
      · exact Or.inl (by simp [visitQualifiedList, hv])
      · exact Or.inr (by simp [skippedQualifiedList, hs])

set_option maxHeartbeats 3200000 in
mutual

theorem identsModule_sub : ∀ m : Module, ∀ s : Symbol,
    s ∈ identsModule m →
    Event.dart_expr (Expr.Identifier s) ∈ visitModule m ∨
      s ∈ skippedModule m
  | .mk path items has_error => by
    intro s h
    simp [identsModule] at h
    rcases identsItemList_sub items s h with hv | hs
    · exact Or.inl (by simp [visitModule, hv])
    · exact Or.inr (by simp [skippedModule, hs])

theorem identsItem_sub : ∀ i : Item, ∀ s : Symbol,
    s ∈ identsItem i →
    Event.dart_expr (Expr.Identifier s) ∈ visitItem i ∨
      s ∈ skippedItem i
  | .LibraryName metadata path => by
    intro s h
    simp [identsItem] at h
    rcases identsMeta_sub metadata s h with hv | hs
    · exact Or.inl (by simp [visitItem, visitMeta, hv])
    · exact Or.inr (by simp [skippedItem, hs])
  | .Import metadata import_ => by
    intro s h
    simp [identsItem] at h
    rcases h with h | h
    · rcases identsMeta_sub metadata s h with hv | hs
      · exact Or.inl (by simp [visitItem, visitMeta, hv])
      · exact Or.inr (by simp [skippedItem, hs])
    · rcases identsStringLiteral_sub import_.uri s h with hv | hs
      · exact Or.inl (by simp [visitItem, visitMeta, hv])
      · exact Or.inr (by simp [skippedItem, hs])
  | .Export metadata uri filters => by
    intro s h
    simp [identsItem] at h
    rcases h with h | h
    · rcases identsMeta_sub metadata s h with hv | hs
      · exact Or.inl (by simp [visitItem, visitMeta, hv])
      · exact Or.inr (by simp [skippedItem, hs])
    · rcases identsStringLiteral_sub uri s h with hv | hs
      · exact Or.inl (by simp [visitItem, visitMeta, hv])
      · exact Or.inr (by simp [skippedItem, hs])
  | .Part metadata uri module => by
    intro s h
    simp [identsItem] at h
    rcases h with h | h | h
    · rcases identsMeta_sub metadata s h with hv | hs
      · exact Or.inl (by simp [visitItem, visitMeta, hv])
      · exact Or.inr (by simp [skippedItem, hs])
    · rcases identsStringLiteral_sub uri s h with hv | hs
      · exact Or.inl (by simp [visitItem, visitMeta, hv])
      · exact Or.inr (by simp [skippedItem, hs])
    · rcases identsModule_sub module s h with hv | hs
      · exact Or.inl (by simp [visitItem, visitMeta, hv])
      · exact Or.inr (by simp [skippedItem, hs])
  | .PartOf metadata path => by
    intro s h
    simp [identsItem] at h
    rcases identsMeta_sub metadata s h with hv | hs
    · exact Or.inl (by simp [visitItem, visitMeta, hv])
    · exact Or.inr (by simp [skippedItem, hs])
  | .Class metadata abstract_ name generics superclass mixins interfaces members => by
    intro s h
    simp [identsItem] at h
    rcases h with h | h | h | h | h | h
    · rcases identsMeta_sub metadata s h with hv | hs
      · exact Or.inl (by simp [visitItem, visitMeta, visitGenerics, hv])
      · exact Or.inr (by simp [skippedItem, hs])
    · rcases identsTypeParameterList_sub generics s h with hv | hs
      · exact Or.inl (by simp [visitItem, visitMeta, visitGenerics, hv])
      · exact Or.inr (by simp [skippedItem, hs])
    · rcases identsOptionQualified_sub superclass s h with hv | hs
      · exact Or.inl (by simp [visitItem, visitMeta, visitGenerics, hv])
      · exact Or.inr (by simp [skippedItem, hs])
    · rcases identsQualifiedList_sub mixins s h with hv | hs
      · exact Or.inl (by simp [visitItem, visitMeta, visitGenerics, hv])
      · exact Or.inr (by simp [skippedItem, hs])
    · rcases identsQualifiedList_sub interfaces s h with hv | hs
      · exact Or.inl (by simp [visitItem, visitMeta, visitGenerics, hv])
      · exact Or.inr (by simp [skippedItem, hs])
    · rcases identsClassMemberList_sub members s h with hv | hs
      · exact Or.inl (by simp [visitItem, visitMeta, visitGenerics, hv])
      · exact Or.inr (by simp [skippedItem, hs])
  | .MixinClass metadata abstract_ name generics mixins interfaces => by
    intro s h
    simp [identsItem] at h
    rcases h with h | h | h | h
    · rcases identsMeta_sub metadata s h with hv | hs
      · exact Or.inl (by simp [visitItem, visitMeta, visitGenerics, hv])
      · exact Or.inr (by simp [skippedItem, hs])
    · rcases identsTypeParameterList_sub generics s h with hv | hs
      · exact Or.inl (by simp [visitItem, visitMeta, visitGenerics, hv])
      · exact Or.inr (by simp [skippedItem, hs])
    · rcases identsQualifiedList_sub mixins s h with hv | hs
      · exact Or.inl (by simp [visitItem, visitMeta, visitGenerics, hv])
      · exact Or.inr (by simp [skippedItem, hs])
    · rcases identsQualifiedList_sub interfaces s h with hv | hs
      · exact Or.inl (by simp [visitItem, visitMeta, visitGenerics, hv])
      · exact Or.inr (by simp [skippedItem, hs])
  | .Enum metadata name values => by
    intro s h
    simp [identsItem] at h
    rcases identsMeta_sub metadata s h with hv | hs
    · exact Or.inl (by simp [visitItem, visitMeta, hv])
    · exact Or.inr (by simp [skippedItem, hs])
  | .TypeAlias metadata name generics ty => by
    intro s h
    simp [identsItem] at h
    rcases h with h | h | h
    · rcases identsMeta_sub metadata s h with hv | hs
      · exact Or.inl (by simp [visitItem, visitMeta, visitGenerics, hv])
      · exact Or.inr (by simp [skippedItem, hs])
    · rcases identsTypeParameterList_sub generics s h with hv | hs
      · exact Or.inl (by simp [visitItem, visitMeta, visitGenerics, hv])
      · exact Or.inr (by simp [skippedItem, hs])
    · rcases identsType_sub ty s h with hv | hs
      · exact Or.inl (by simp [visitItem, visitMeta, visitGenerics, hv])
      · exact Or.inr (by simp [skippedItem, hs])
  | .Function f => by
    intro s h
    simp [identsItem] at h
    rcases identsFunction_sub f s h with hv | hs
    · exact Or.inl (by simp [visitItem, hv])
    · exact Or.inr (by simp [skippedItem, hs])
  | .Vars (.mk fcv ty) vars => by
    intro s h
    simp [identsItem] at h
    rcases h with h | h
    · rcases identsType_sub ty s h with hv | hs
      · exact Or.inl (by simp [visitItem, hv])
      · exact Or.inr (by simp [skippedItem, hs])
    · rcases identsVarDefList_sub vars s h with hv | hs
      · exact Or.inl (by simp [visitItem, hv])
      · exact Or.inr (by simp [skippedItem, hs])

theorem identsItemList_sub : ∀ l : ItemList, ∀ s : Symbol,
    s ∈ identsItemList l →
    Event.dart_expr (Expr.Identifier s) ∈ visitItemList l ∨
      s ∈ skippedItemList l
  | .nil => by
    intro s h
    simp [identsItemList] at h
  | .cons i rest => by
    intro s h
    simp [identsItemList] at h
    rcases h with h | h
    · rcases identsItem_sub i s h with hv | hs
      · exact Or.inl (by simp [visitItemList, hv])
      · exact Or.inr (by simp [skippedItemList, hs])
    · rcases identsItemList_sub rest s h with hv | hs
      · exact Or.inl (by simp [visitItemList, hv])
      · exact Or.inr (by simp [skippedItemList, hs])

end

/-- The C5 counterexample module: one top-level function whose single
parameter carries the metadata annotation `@m(x)`.  The identifier `x`
occurs in the tree (inside `ArgDef.metadata`), but `FnSig`'s structural
recursion (`visit.rs` lines 354-369) visits only each argument's declared
type and variable definition — never its metadata. -/
def c5Module : Module :=
  Module.mk "m.dart"
    (ItemList.cons
      (Item.Function
        (Function.mk (FnName.Regular "f") TypeParameterList.nil
          (FnSig.mk DartType.Infer
            (ArgDefList.cons
              (ArgDef.mk
                (MetadataList.cons
                  (MetadataItem.mk
                    (Qualified.mk OptionQualified.none "m" TypeList.nil)
                    (OptionArgs.some
                      (Args.mk
                        (ExprList.cons (Expr.Identifier "x") ExprList.nil)
                        NamedArgList.nil)))
                  MetadataList.nil)
                false (VarType.mk FinalConstVar.Var DartType.Infer) false
                (VarDef.mk "p" OptionExpr.none))
              ArgDefList.nil)
            ArgDefList.nil OptionalArgKind.Positional false false)
          OptionFnBody.none))
      ItemList.nil) false

/-- C5 counterexample: the identifier `x` occurs in `c5Module` but the
default traversal never invokes the expression hook on it — a visitor
collecting identifiers at `Expr::Identifier` misses it. -/
theorem visitor_misses_param_metadata_ident :
    "x" ∈ identsModule c5Module ∧
    Event.dart_expr (Expr.Identifier "x") ∉ visitModule c5Module := by
  constructor
  · simp [c5Module, identsModule, identsItemList, identsItem]
  · intro hmem
    simp [c5Module, visitModule, visitItemList, visitItem, visitGenerics] at hmem

/-- C5 (amended): for every module in which no identifier occurs inside
function-parameter metadata or type-parameter metadata (the two positions
the default structural recursion does not descend into), an
identifier-collecting visitor that overrides only the expression hook and
relies on the default recursion reaches every identifier occurring
anywhere in the tree: its `dart_expr` hook fires on that identifier. -/
theorem visitor_reaches_idents_outside_param_metadata (m : Module)
    (s : Symbol) (hns : skippedModule m = [])
    (hocc : s ∈ identsModule m) :
    Event.dart_expr (Expr.Identifier s) ∈ visitModule m := by
  rcases identsModule_sub m s hocc with h | h
  · exact h
  · rw [hns] at h
    exact absurd h (List.not_mem_nil s)

/-- Witness module for the amended C5: a top-level variable initialized
with the identifier `x`. -/
def c5WitnessModule : Module :=
  Module.mk "w.dart"
    (ItemList.cons
      (Item.Vars (VarType.mk FinalConstVar.Var DartType.Infer)
        (VarDefList.cons
          (VarDef.mk "v" (OptionExpr.some (Expr.Identifier "x")))
          VarDefList.nil))
      ItemList.nil) false

/-- Witness for the amended C5 at a concrete module. -/
theorem visitor_reaches_idents_outside_param_metadata_witness :
    Event.dart_expr (Expr.Identifier "x") ∈ visitModule c5WitnessModule :=
  visitor_reaches_idents_outside_param_metadata c5WitnessModule "x"
    (by simp [c5WitnessModule, skippedModule, skippedItemList, skippedItem])
    (by simp [c5WitnessModule, identsModule, identsItemList, identsItem])

/-- C7: default traversal of any finite AST is total: it produces a
finite trace (bounded by the tree's size — the traversal functions are
total structural recursions, so no node kind's recursion fails or loops),
and absent optional children contribute nothing: a missing superclass,
else branch, or initializer is simply skipped. -/
theorem visit_traversal_total_and_bounded :
    (∀ m : Module, (visitModule m).length ≤ sizeOf m) ∧
    visitOptionQualified .none = [] ∧
    visitOptionStatement .none = [] ∧
    visitOptionInit .none = [] ∧
    visitOptionFnBody .none = [] ∧
    (∀ cond then_,
      visitStatement (.If cond then_ .none) =
        Event.dart_statement (.If cond then_ .none)
          :: (visitExpr cond ++ visitStatement then_)) ∧
    (∀ name, visitVarDef (.mk name .none) =
      [Event.dart_var_def (.mk name .none)]) := by
  refine ⟨visitModule_len, by simp,
    by simp, by simp,
    by simp, ?_, ?_⟩
  · intro cond then_
    simp
  · intro name
    simp

end Lyken
